import Mathlib

/-!
Shallow embedding of `ChangeElementTemplateHandler` (the element-template
reconciliation engine, `src/unnamed/part_000`) and the helpers it uses.

Modelling conventions:
* moddle attribute maps are modelled as `Finmap` from attribute name to string
  value; a JavaScript `undefined` attribute is an absent key.  moddle resolves
  namespaced reads such as `get('zeebe:source')` to the same attribute that a
  write payload `{ source: ... }` sets, so the embedding uses the unprefixed
  attribute name for those slots.
* objects that live inside list-valued holders (input/output parameters, task
  headers, custom properties) carry a numeric identity `nid` standing for
  JavaScript reference identity; snapshot arrays hold these identities.
* the command log is a list of `Cmd` values, one per `commandStack.execute`
  (or `modeling.updateProperties`) call; scalar payloads are recorded,
  node/list-valued payloads are summarized by the written field name, with the
  resulting contents tracked in the document state.
* `bpmn:ExtensionElements` owns at most one node of each singleton kind
  (invariant stated by the specification), so the container is modelled as a
  record of optional holders rather than an ordered `values` list.
-/

namespace ElementTemplates

/-- Attribute map of a moddle element: present keys are defined attributes. -/
abbrev FieldMap := Finmap (fun _ : String => String)

/-- Read an attribute (`businessObject.get(name)`); an absent key or an
undefined name reads as `none`. -/
def getFO (m : FieldMap) (key : Option String) : Option String :=
  match key with
  | none => none
  | some k => m.lookup k

/-- Write an attribute: writing `none` (JavaScript `undefined`) removes the
attribute, mirroring a `{ name: undefined }` update payload.  A `none` key is
a no-op (JavaScript would stringify the key; no reachable call site does). -/
def setFO (m : FieldMap) (key : Option String) (v : Option String) : FieldMap :=
  match key with
  | none => m
  | some k =>
    match v with
    | none => m.erase k
    | some s => m.insert k s

/-- JavaScript truthiness of a string-or-undefined value. -/
def truthy (v : Option String) : Bool :=
  match v with
  | none => false
  | some s => s ≠ ""

/-- Payload key as it appears in a command payload (`undefined` keys are
stringified by JavaScript object literals). -/
def keyStr (k : Option String) : String := k.getD "undefined"

/-- A template property binding (tagged by its `type` string, exactly as the
source dispatches). -/
structure Binding where
  type : String
  name : Option String
  source : Option String
  key : Option String
  property : Option String
deriving DecidableEq

/-- A choice of a `Dropdown` property. -/
structure Choice where
  value : String
deriving DecidableEq

/-- A template property descriptor. -/
structure TProperty where
  type : String
  value : Option String
  choices : Option (List Choice)
  optional : Bool
  binding : Binding
deriving DecidableEq

/-- A template icon (`icon.contents`). -/
structure TIcon where
  contents : Option String
deriving DecidableEq

/-- `template.elementType`. -/
structure ElementTypeSpec where
  value : String
  eventDefinition : Option String
deriving DecidableEq

/-- An element template. -/
structure Template where
  id : String
  version : Option String
  icon : Option TIcon
  elementType : Option ElementTypeSpec
  properties : List TProperty
deriving DecidableEq

/-- Modelled from the spec: binding-type tag for `bpmn:Message` properties
(constant from `util/bindingTypes`, not under `src/`). -/
def MESSAGE_PROPERTY_TYPE : String := "bpmn:Message#property"

/-- Modelled from the spec: binding-type tag for `zeebe:subscription`
properties of a message (constant from `util/bindingTypes`, not under
`src/`). -/
def MESSAGE_ZEEBE_SUBSCRIPTION_PROPERTY_TYPE : String :=
  "bpmn:Message#zeebe:subscription#property"

/-- Modelled from the spec: the message-kind binding types (constant from
`util/bindingTypes`, not under `src/`). -/
def MESSAGE_BINDING_TYPES : List String :=
  [MESSAGE_PROPERTY_TYPE, MESSAGE_ZEEBE_SUBSCRIPTION_PROPERTY_TYPE]

/-- Modelled from the spec: the task-definition binding types, a legacy
single-field variant and the generic field variant (constant from
`util/bindingTypes`, not under `src/`). -/
def TASK_DEFINITION_TYPES : List String :=
  ["zeebe:taskDefinition:type", "zeebe:taskDefinition"]

/-- Modelled from the spec: binding-type tag for called-element fields
(constant from `util/bindingTypes`, not under `src/`). -/
def ZEEBE_CALLED_ELEMENT : String := "zeebe:calledElement"

/-- Modelled from the spec: resolve a task-definition binding to the field
name it addresses (from `util/taskDefinition`, not under `src/`): the legacy
variant addresses the `type` field, the generic variant its `property`. -/
def getTaskDefinitionPropertyName (binding : Binding) : Option String :=
  if binding.type = "zeebe:taskDefinition:type" then some "type"
  else binding.property

/-- Modelled from the spec: the default value a template property applies
(`getDefaultValue` from `Helper`, not under `src/`; the spec says defaults
come from the property's `value`). -/
def getDefaultValue (property : TProperty) : Option String := property.value

/-- Modelled from the spec: whether a property's value warrants materializing
an entry (`shouldUpdate` from `CreateHelper`, not under `src/`): the computed
default is non-empty or the property is required. -/
def shouldUpdate (value : Option String) (property : TProperty) : Bool :=
  truthy value || !property.optional

/-- Current value of a property on a moddle element, per the binding's value
slot (`getPropertyValue`).  An absent element reads as `none`. -/
def getPropertyValue (element : Option FieldMap) (property : TProperty) : Option String :=
  match element with
  | none => none
  | some businessObject =>
    let binding := property.binding
    let bindingType := binding.type
    if bindingType = "property" then getFO businessObject binding.name
    else if TASK_DEFINITION_TYPES.contains bindingType then
      getFO businessObject (getTaskDefinitionPropertyName binding)
    else if bindingType = "zeebe:input" then getFO businessObject (some "source")
    else if bindingType = "zeebe:output" then getFO businessObject (some "target")
    else if bindingType = "zeebe:taskHeader" then getFO businessObject (some "value")
    else if bindingType = "zeebe:property" then getFO businessObject (some "value")
    else if bindingType = MESSAGE_PROPERTY_TYPE then getFO businessObject binding.name
    else if bindingType = MESSAGE_ZEEBE_SUBSCRIPTION_PROPERTY_TYPE then
      getFO businessObject binding.name
    else none

/-- Whether the property was changed after being set by the old template
(`propertyChanged`): the current value differs from the old default. -/
def propertyChanged (element : Option FieldMap) (oldProperty : TProperty) : Bool :=
  getPropertyValue element oldProperty != oldProperty.value

/-- The value policy (`shouldKeepValue`): decides whether the element's
current value for a property survives the template change. -/
def shouldKeepValue (element : Option FieldMap) (oldProperty : Option TProperty)
    (newProperty : TProperty) : Bool :=
  if newProperty.type = "Hidden" then false
  else if newProperty.type = "Dropdown" then
    let currentValue := getPropertyValue element newProperty
    match newProperty.choices with
    | none => false
    | some choices => choices.any (fun choice => some choice.value == currentValue)
  else
    match oldProperty with
    | some op => propertyChanged element op
    | none => truthy (getPropertyValue element newProperty)

/-- Identity matching (`findOldProperty`): scan the old template for the
property the new one corresponds to.  Note that the task-definition branch
matches on the resolved field name without checking the old binding's type,
exactly as the source does. -/
def findOldProperty (oldTemplate : Option Template) (newProperty : TProperty) :
    Option TProperty :=
  match oldTemplate with
  | none => none
  | some oldTemplate =>
    let oldProperties := oldTemplate.properties
    let newBinding := newProperty.binding
    let newBindingType := newBinding.type
    if newBindingType = "property" then
      oldProperties.find? (fun op =>
        op.binding.type == "property" && op.binding.name == newBinding.name)
    else if TASK_DEFINITION_TYPES.contains newBindingType then
      oldProperties.find? (fun op =>
        getTaskDefinitionPropertyName op.binding == getTaskDefinitionPropertyName newBinding)
    else if newBindingType = "zeebe:input" then
      oldProperties.find? (fun op =>
        op.binding.type == "zeebe:input" && op.binding.name == newBinding.name)
    else if newBindingType = "zeebe:output" then
      oldProperties.find? (fun op =>
        op.binding.type == "zeebe:output" && op.binding.source == newBinding.source)
    else if newBindingType = "zeebe:taskHeader" then
      oldProperties.find? (fun op =>
        op.binding.type == "zeebe:taskHeader" && op.binding.key == newBinding.key)
    else if newBindingType = "zeebe:property" then
      oldProperties.find? (fun op =>
        op.binding.type == "zeebe:property" && op.binding.name == newBinding.name)
    else if newBindingType = MESSAGE_PROPERTY_TYPE then
      oldProperties.find? (fun op =>
        op.binding.type == MESSAGE_PROPERTY_TYPE && op.binding.name == newBinding.name)
    else if newBindingType = MESSAGE_ZEEBE_SUBSCRIPTION_PROPERTY_TYPE then
      oldProperties.find? (fun op =>
        op.binding.type == MESSAGE_ZEEBE_SUBSCRIPTION_PROPERTY_TYPE &&
          op.binding.name == newBinding.name)
    else none

/-- The internal helper `remove(array, item)`: JavaScript `indexOf` yields
`-1` for an absent item, `isUndefined(-1)` is false, and `splice(-1, 1)`
deletes the last element of a non-empty array; for a present item it deletes
the first occurrence. -/
def remove {α : Type} [DecidableEq α] (array : List α) (item : α) : List α :=
  let index := array.indexOf item
  if index < array.length then array.eraseIdx index
  else array.dropLast

/-- `hasMessageProperties`: whether the template contributes any
message-kind property. -/
def hasMessageProperties (template : Template) : Bool :=
  template.properties.any (fun p => MESSAGE_BINDING_TYPES.contains p.binding.type)

/-- A structured node inside a holder (or a singleton extension node); `nid`
models JavaScript reference identity. -/
structure Entry where
  nid : Nat
  fields : FieldMap
deriving DecidableEq

/-- The `zeebe:IoMapping` holder. -/
structure IoMapping where
  inputParameters : List Entry
  outputParameters : List Entry
deriving DecidableEq

/-- The `bpmn:ExtensionElements` container of the element, as a record of its
singleton holders (at most one node of each kind, per the container
invariant). -/
structure Ext where
  taskDefinition : Option Entry
  ioMapping : Option IoMapping
  taskHeaders : Option (List Entry)
  zeebeProperties : Option (List Entry)
  calledElement : Option Entry
deriving DecidableEq

/-- The referenced `bpmn:Message`: its own attribute map plus its lazily
created extension container holding at most a `zeebe:Subscription` node. -/
structure Msg where
  node : Entry
  msgExt : Option (Option Entry)
deriving DecidableEq

/-- Document state around one element: its business-object attributes, its
structural type, its extension container, its referenced message, and the
allocation counter for fresh node identities. -/
structure S where
  bo : FieldMap
  etype : Option String
  evDef : Option String
  ext : Option Ext
  msg : Option Msg
  fresh : Nat
deriving DecidableEq

/-- The moddle element a command targets. -/
inductive Target where
  | element
  | businessObject
  | extensionEls
  | taskDef
  | ioMap
  | taskHeadersHolder
  | zeebePropsHolder
  | calledEl
  | message
  | messageExtensionEls
  | subscription
  | entry (nid : Nat)
deriving DecidableEq

/-- One request to the command log: scalar-field updates carry their payload,
node- or list-valued updates are summarized by the written field (contents
are tracked in the state), plus the two external collaborator calls. -/
inductive Cmd where
  | updateProperties (props : List (String × Option String))
  | updateModdleProperties (target : Target) (props : List (String × Option String))
  | updateModdleStructural (target : Target) (field : String)
  | replaceElementCall (etype : String) (evDef : Option String)
  | removeMessageCall
deriving DecidableEq

/-- Locate the existing document node realizing a property
(`findBusinessObject`), searching the extension container by the binding's
identity key. -/
def findBusinessObject (businessObject : Ext) (property : TProperty) : Option Entry :=
  let binding := property.binding
  let bindingType := binding.type
  if TASK_DEFINITION_TYPES.contains bindingType then
    businessObject.taskDefinition
  else if bindingType = "zeebe:input" || bindingType = "zeebe:output" then
    match businessObject.ioMapping with
    | none => none
    | some extensionElements =>
      if bindingType = "zeebe:input" then
        extensionElements.inputParameters.find? (fun input =>
          getFO input.fields (some "target") == binding.name)
      else
        extensionElements.outputParameters.find? (fun output =>
          getFO output.fields (some "source") == binding.source)
  else if bindingType = "zeebe:taskHeader" then
    match businessObject.taskHeaders with
    | none => none
    | some extensionElements =>
      extensionElements.find? (fun value => getFO value.fields (some "key") == binding.key)
  else if bindingType = "zeebe:property" then
    match businessObject.zeebeProperties with
    | none => none
    | some zeebeProperties =>
      zeebeProperties.find? (fun value => getFO value.fields (some "name") == binding.name)
  else none

/-- The empty `bpmn:ExtensionElements` container. -/
def emptyExt : Ext := ⟨none, none, none, none, none⟩

/-- `_getOrCreateExtensionElements` on the element: create the extension
container (with empty `values`) when absent. -/
def ensureElementExt (s : S) : S × Ext × List Cmd :=
  match s.ext with
  | some e => (s, e, [])
  | none =>
    ({ s with ext := some emptyExt }, emptyExt,
     [Cmd.updateModdleStructural Target.businessObject "extensionElements"])

/-- `_updateZeebeModelerTemplate`: stamp `zeebe:modelerTemplate` and
`zeebe:modelerTemplateVersion` from the new template (cleared when absent). -/
def updateZeebeModelerTemplate (s : S) (newTemplate : Option Template) : S × List Cmd :=
  let idv : Option String := newTemplate.map (fun t => t.id)
  let ver : Option String := newTemplate.bind (fun t => t.version)
  ({ s with bo := setFO (setFO s.bo (some "zeebe:modelerTemplate") idv)
              (some "zeebe:modelerTemplateVersion") ver },
   [Cmd.updateProperties
      [("zeebe:modelerTemplate", idv), ("zeebe:modelerTemplateVersion", ver)]])

/-- `_updateZeebeModelerTemplateIcon`: stamp `zeebe:modelerTemplateIcon`
from the new template's icon contents (cleared when absent). -/
def updateZeebeModelerTemplateIcon (s : S) (newTemplate : Option Template) : S × List Cmd :=
  let icon := newTemplate.bind (fun t => t.icon)
  let contents := icon.bind (fun i => i.contents)
  ({ s with bo := setFO s.bo (some "zeebe:modelerTemplateIcon") contents },
   [Cmd.updateProperties [("zeebe:modelerTemplateIcon", contents)]])

/-- `_updateElementType`: replace the element's structural variant when the
new template demands a different one.  `replaceElement` itself is Modelled
from the spec (`bpmnReplace`, an external collaborator): it swaps the
element's type and event-definition variant in place. -/
def updateElementType (s : S) (oldTemplate : Option Template) (newTemplate : Template) :
    S × List Cmd :=
  match newTemplate.elementType with
  | none => (s, [])
  | some newType =>
    let oldType := oldTemplate.bind (fun t => t.elementType)
    let unchanged :=
      match oldType with
      | none => false
      | some ot => ot.value == newType.value && ot.eventDefinition == newType.eventDefinition
    if unchanged then (s, [])
    else
      ({ s with etype := some newType.value, evDef := newType.eventDefinition },
       [Cmd.replaceElementCall newType.value newType.eventDefinition])

/-- One iteration of the `_updateProperties` loop over plain properties. -/
def processPlainProperty (oldTemplate : Option Template) (acc : S × List Cmd)
    (p : TProperty) : S × List Cmd :=
  let s := acc.1
  let oldProperty := findOldProperty oldTemplate p
  let newPropertyValue := getDefaultValue p
  if shouldKeepValue (some s.bo) oldProperty p then acc
  else
    ({ s with bo := setFO s.bo p.binding.name newPropertyValue },
     acc.2 ++ [Cmd.updateModdleProperties Target.businessObject
                 [(keyStr p.binding.name, newPropertyValue)]])

/-- `_updateProperties`: reconcile the plain (`property`-bound) fields of the
element's business object. -/
def updatePlainProperties (s : S) (oldTemplate : Option Template) (newTemplate : Template) :
    S × List Cmd :=
  let newProperties := newTemplate.properties.filter (fun p => p.binding.type == "property")
  let propertiesToRemove : List TProperty :=
    match oldTemplate with
    | none => []
    | some o => o.properties.filter (fun op =>
        op.binding.type == "property" &&
        !(newProperties.any (fun np => np.binding.name == op.binding.name)))
  let r0 : S × List Cmd :=
    if propertiesToRemove.isEmpty then (s, [])
    else
      ({ s with bo := propertiesToRemove.foldl (fun m p => setFO m p.binding.name none) s.bo },
       [Cmd.updateModdleProperties Target.businessObject
          (propertiesToRemove.map (fun p => (keyStr p.binding.name, (none : Option String))))])
  if newProperties.isEmpty then r0
  else
    newProperties.foldl (processPlainProperty oldTemplate) r0

/-- One iteration of the `_updateZeebeTaskDefinition` property loop; the
accumulator carries the (possibly just created) task-definition node. -/
def processTaskDefProperty (oldTemplate : Option Template)
    (acc : Option Entry × Nat × List Cmd) (p : TProperty) :
    Option Entry × Nat × List Cmd :=
  let oldProperty := findOldProperty oldTemplate p
  let newPropertyValue := getDefaultValue p
  let propertyName := getTaskDefinitionPropertyName p.binding
  match acc.1 with
  | some tdn =>
    if shouldKeepValue (some tdn.fields) oldProperty p then acc
    else
      (some ⟨tdn.nid, setFO tdn.fields propertyName newPropertyValue⟩, acc.2.1,
       acc.2.2 ++ [Cmd.updateModdleProperties Target.taskDef
                     [(keyStr propertyName, newPropertyValue)]])
  | none =>
    let tdn : Entry := ⟨acc.2.1, setFO ∅ propertyName newPropertyValue⟩
    (some tdn, acc.2.1 + 1,
     acc.2.2 ++ [Cmd.updateModdleStructural Target.extensionEls "values"])

/-- `_updateZeebeTaskDefinition`: reconcile the singleton
`zeebe:TaskDefinition` node. -/
def updateZeebeTaskDefinition (s : S) (oldTemplate : Option Template)
    (newTemplate : Template) : S × List Cmd :=
  let newProperties := newTemplate.properties.filter (fun p =>
    TASK_DEFINITION_TYPES.contains p.binding.type)
  let r := ensureElementExt s
  let s := r.1
  let ext := r.2.1
  let cmds0 := r.2.2
  let taskDefinition := ext.taskDefinition
  if newProperties.isEmpty then
    -- (1) remove the old task definition; the command is issued even when no
    -- node exists (the `without` payload is then the unchanged list)
    ({ s with ext := some { ext with taskDefinition := none } },
     cmds0 ++ [Cmd.updateModdleStructural Target.extensionEls "values"])
  else
    let acc := newProperties.foldl (processTaskDefProperty oldTemplate)
      (taskDefinition, s.fresh, [])
    let oldPropertiesDropped : List TProperty :=
      match oldTemplate with
      | none => []
      | some o => o.properties.filter (fun op =>
          TASK_DEFINITION_TYPES.contains op.binding.type &&
          !(newProperties.any (fun np => np.binding.property == op.binding.property)))
    -- (4) clear fields no longer templated on the task-definition node
    let td2 := oldPropertiesDropped.foldl
      (fun (t : Option Entry) op =>
        t.map (fun tdn => ⟨tdn.nid, setFO tdn.fields op.binding.property none⟩))
      acc.1
    let dropCmds := oldPropertiesDropped.map (fun op =>
      Cmd.updateModdleProperties Target.taskDef [(keyStr op.binding.property, none)])
    ({ s with ext := some { ext with taskDefinition := td2 }, fresh := acc.2.1 },
     cmds0 ++ acc.2.2 ++ dropCmds)

/-- Accumulator of the `_updateZeebeInputOutputParameterProperties` loop:
the live holder, the two removal-candidate snapshots (node identities), the
allocation counter and the commands issued so far. -/
structure IoAcc where
  io : IoMapping
  oldInputs : List Nat
  oldOutputs : List Nat
  fresh : Nat
  cmds : List Cmd
deriving DecidableEq

/-- One iteration of the `_updateZeebeInputOutputParameterProperties` loop.
An entry found for an input binding is a `zeebe:Input`, so the source's
`is(inputOrOutput, 'zeebe:Input')` test equals the binding-type test. -/
def processIoProperty (oldTemplate : Option Template) (acc : IoAcc) (p : TProperty) :
    IoAcc :=
  let oldProperty := findOldProperty oldTemplate p
  let inputOrOutput := findBusinessObject ⟨none, some acc.io, none, none, none⟩ p
  let newPropertyValue := getDefaultValue p
  match inputOrOutput with
  | some e =>
    let isInput := p.binding.type == "zeebe:input"
    let keep := shouldKeepValue (some e.fields) oldProperty p
    -- (2a) exclude from cleanup unless optional with an empty value and unchanged
    let acc :=
      if shouldUpdate newPropertyValue p || keep then
        if isInput then { acc with oldInputs := remove acc.oldInputs e.nid }
        else { acc with oldOutputs := remove acc.oldOutputs e.nid }
      else acc
    -- (2b) update the tracked slot unless the value is kept
    if keep then acc
    else
      let slot := if isInput then "source" else "target"
      let e2 : Entry := ⟨e.nid, setFO e.fields (some slot) newPropertyValue⟩
      let io2 :=
        if isInput then
          { acc.io with inputParameters :=
              acc.io.inputParameters.map (fun x => if x.nid == e.nid then e2 else x) }
        else
          { acc.io with outputParameters :=
              acc.io.outputParameters.map (fun x => if x.nid == e.nid then e2 else x) }
      { acc with io := io2,
                 cmds := acc.cmds ++ [Cmd.updateModdleProperties (Target.entry e.nid)
                                        [(slot, newPropertyValue)]] }
  | none =>
    -- (3) add a new input or output (unless optional with an empty default)
    if shouldUpdate newPropertyValue p then
      if p.binding.type == "zeebe:input" then
        let ne : Entry := ⟨acc.fresh,
          setFO (setFO ∅ (some "target") p.binding.name) (some "source") newPropertyValue⟩
        { acc with io := { acc.io with inputParameters := acc.io.inputParameters ++ [ne] },
                   fresh := acc.fresh + 1,
                   cmds := acc.cmds ++ [Cmd.updateModdleStructural Target.ioMap "inputParameters"] }
      else
        let ne : Entry := ⟨acc.fresh,
          setFO (setFO ∅ (some "source") p.binding.source) (some "target") newPropertyValue⟩
        { acc with io := { acc.io with outputParameters := acc.io.outputParameters ++ [ne] },
                   fresh := acc.fresh + 1,
                   cmds := acc.cmds ++ [Cmd.updateModdleStructural Target.ioMap "outputParameters"] }
    else acc

/-- Loop plus final cleanup of `_updateZeebeInputOutputParameterProperties`,
running over an attached holder. -/
def ioLoopAndCleanup (s : S) (ext : Ext) (io : IoMapping) (oldTemplate : Option Template)
    (newProperties : List TProperty) (cmds : List Cmd) : S × List Cmd :=
  let acc := newProperties.foldl (processIoProperty oldTemplate)
    ⟨io, io.inputParameters.map Entry.nid, io.outputParameters.map Entry.nid, s.fresh, []⟩
  -- (4) remove old inputs and outputs still in the snapshots
  let r2 : IoMapping × List Cmd :=
    if acc.oldInputs.isEmpty then (acc.io, acc.cmds)
    else
      ({ acc.io with inputParameters :=
           acc.io.inputParameters.filter (fun e => !(acc.oldInputs.contains e.nid)) },
       acc.cmds ++ [Cmd.updateModdleStructural Target.ioMap "inputParameters"])
  let r3 : IoMapping × List Cmd :=
    if acc.oldOutputs.isEmpty then r2
    else
      ({ r2.1 with outputParameters :=
           r2.1.outputParameters.filter (fun e => !(acc.oldOutputs.contains e.nid)) },
       r2.2 ++ [Cmd.updateModdleStructural Target.ioMap "outputParameters"])
  ({ s with ext := some { ext with ioMapping := some r3.1 }, fresh := acc.fresh },
   cmds ++ r3.2)

/-- `_updateZeebeInputOutputParameterProperties`: reconcile the
`zeebe:IoMapping` holder and its input/output parameters.  When the new
template has no mapping properties the holder is removed, but the source has
no `return` there: the loop and cleanup still run against the now detached
holder, issuing commands that no longer affect the document. -/
def updateZeebeInputOutputParameterProperties (s : S) (oldTemplate : Option Template)
    (newTemplate : Template) : S × List Cmd :=
  let newProperties := newTemplate.properties.filter (fun p =>
    p.binding.type == "zeebe:input" || p.binding.type == "zeebe:output")
  let r := ensureElementExt s
  let s := r.1
  let ext := r.2.1
  let cmds0 := r.2.2
  match ext.ioMapping with
  | none =>
    if newProperties.isEmpty then (s, cmds0)
    else
      let cmds := cmds0 ++ [Cmd.updateModdleStructural Target.extensionEls "values"]
      let ext := { ext with ioMapping := some ⟨[], []⟩ }
      ioLoopAndCleanup { s with ext := some ext } ext ⟨[], []⟩ oldTemplate newProperties cmds
  | some io0 =>
    if newProperties.isEmpty then
      -- (1) remove the holder, then (missing return) run the empty loop and
      -- the cleanup against the detached node
      let s := { s with ext := some { ext with ioMapping := none } }
      let cmds := cmds0 ++ [Cmd.updateModdleStructural Target.extensionEls "values"]
      let oldInputs := io0.inputParameters.map Entry.nid
      let oldOutputs := io0.outputParameters.map Entry.nid
      let cmds := if oldInputs.isEmpty then cmds
                  else cmds ++ [Cmd.updateModdleStructural Target.ioMap "inputParameters"]
      let cmds := if oldOutputs.isEmpty then cmds
                  else cmds ++ [Cmd.updateModdleStructural Target.ioMap "outputParameters"]
      (s, cmds)
    else
      ioLoopAndCleanup s ext io0 oldTemplate newProperties cmds0

/-- Accumulator of the `_updateZeebeTaskHeaderProperties` loop. -/
structure HAcc where
  headers : List Entry
  oldHeaders : List Nat
  fresh : Nat
  cmds : List Cmd
deriving DecidableEq

/-- One iteration of the `_updateZeebeTaskHeaderProperties` loop.  A found
header is removed from the cleanup snapshot unconditionally; a missing one is
created only when the default value is non-empty. -/
def processHeaderProperty (oldTemplate : Option Template) (acc : HAcc) (p : TProperty) :
    HAcc :=
  let oldProperty := findOldProperty oldTemplate p
  let oldHeader := findBusinessObject ⟨none, none, some acc.headers, none, none⟩ p
  let newPropertyValue := getDefaultValue p
  match oldHeader with
  | some e =>
    let acc :=
      if shouldKeepValue (some e.fields) oldProperty p then acc
      else
        { acc with
          headers := acc.headers.map (fun x =>
            if x.nid == e.nid then ⟨e.nid, setFO e.fields (some "value") newPropertyValue⟩ else x),
          cmds := acc.cmds ++ [Cmd.updateModdleProperties (Target.entry e.nid)
                                 [("value", newPropertyValue)]] }
    { acc with oldHeaders := remove acc.oldHeaders e.nid }
  | none =>
    if truthy newPropertyValue then
      let ne : Entry := ⟨acc.fresh,
        setFO (setFO ∅ (some "key") p.binding.key) (some "value") newPropertyValue⟩
      { acc with headers := acc.headers ++ [ne], fresh := acc.fresh + 1,
                 cmds := acc.cmds ++ [Cmd.updateModdleStructural Target.taskHeadersHolder "values"] }
    else acc

/-- Loop plus final cleanup of `_updateZeebeTaskHeaderProperties`, running
over an attached holder. -/
def headerLoopAndCleanup (s : S) (ext : Ext) (headers : List Entry)
    (oldTemplate : Option Template) (newProperties : List TProperty) (cmds : List Cmd) :
    S × List Cmd :=
  let acc := newProperties.foldl (processHeaderProperty oldTemplate)
    ⟨headers, headers.map Entry.nid, s.fresh, []⟩
  let r2 : List Entry × List Cmd :=
    if acc.oldHeaders.isEmpty then (acc.headers, acc.cmds)
    else
      (acc.headers.filter (fun e => !(acc.oldHeaders.contains e.nid)),
       acc.cmds ++ [Cmd.updateModdleStructural Target.taskHeadersHolder "values"])
  ({ s with ext := some { ext with taskHeaders := some r2.1 }, fresh := acc.fresh },
   cmds ++ r2.2)

/-- `_updateZeebeTaskHeaderProperties`: reconcile the `zeebe:TaskHeaders`
holder.  As for mappings, the removal branch has no `return`: the cleanup
still issues a command against the detached holder. -/
def updateZeebeTaskHeaderProperties (s : S) (oldTemplate : Option Template)
    (newTemplate : Template) : S × List Cmd :=
  let newProperties := newTemplate.properties.filter (fun p =>
    p.binding.type == "zeebe:taskHeader")
  let r := ensureElementExt s
  let s := r.1
  let ext := r.2.1
  let cmds0 := r.2.2
  match ext.taskHeaders with
  | none =>
    if newProperties.isEmpty then (s, cmds0)
    else
      let cmds := cmds0 ++ [Cmd.updateModdleStructural Target.extensionEls "values"]
      let ext := { ext with taskHeaders := some [] }
      headerLoopAndCleanup { s with ext := some ext } ext [] oldTemplate newProperties cmds
  | some hs0 =>
    if newProperties.isEmpty then
      let s := { s with ext := some { ext with taskHeaders := none } }
      let cmds := cmds0 ++ [Cmd.updateModdleStructural Target.extensionEls "values"]
      let oldHeaders := hs0.map Entry.nid
      let cmds := if oldHeaders.isEmpty then cmds
                  else cmds ++ [Cmd.updateModdleStructural Target.taskHeadersHolder "values"]
      (s, cmds)
    else
      headerLoopAndCleanup s ext hs0 oldTemplate newProperties cmds0

/-- Accumulator of the `_updateZeebePropertyProperties` loop. -/
structure ZAcc where
  props : List Entry
  oldProps : List Nat
  fresh : Nat
  cmds : List Cmd
deriving DecidableEq

/-- One iteration of the `_updateZeebePropertyProperties` loop. -/
def processZeebeProperty (oldTemplate : Option Template) (acc : ZAcc) (p : TProperty) :
    ZAcc :=
  let oldProperty := findOldProperty oldTemplate p
  let oldZeebeProperty := findBusinessObject ⟨none, none, none, some acc.props, none⟩ p
  let newPropertyValue := getDefaultValue p
  match oldZeebeProperty with
  | some e =>
    let keep := shouldKeepValue (some e.fields) oldProperty p
    let acc :=
      if shouldUpdate newPropertyValue p || keep then
        { acc with oldProps := remove acc.oldProps e.nid }
      else acc
    if keep then acc
    else
      { acc with
        props := acc.props.map (fun x =>
          if x.nid == e.nid then ⟨e.nid, setFO e.fields (some "value") newPropertyValue⟩ else x),
        cmds := acc.cmds ++ [Cmd.updateModdleProperties (Target.entry e.nid)
                               [("value", newPropertyValue)]] }
  | none =>
    if shouldUpdate newPropertyValue p then
      let ne : Entry := ⟨acc.fresh,
        setFO (setFO ∅ (some "name") p.binding.name) (some "value") newPropertyValue⟩
      { acc with props := acc.props ++ [ne], fresh := acc.fresh + 1,
                 cmds := acc.cmds ++ [Cmd.updateModdleStructural Target.zeebePropsHolder "properties"] }
    else acc

/-- Loop plus final cleanup of `_updateZeebePropertyProperties`, running over
an attached holder. -/
def zeebePropsLoopAndCleanup (s : S) (ext : Ext) (props : List Entry)
    (oldTemplate : Option Template) (newProperties : List TProperty) (cmds : List Cmd) :
    S × List Cmd :=
  let acc := newProperties.foldl (processZeebeProperty oldTemplate)
    ⟨props, props.map Entry.nid, s.fresh, []⟩
  let r2 : List Entry × List Cmd :=
    if acc.oldProps.isEmpty then (acc.props, acc.cmds)
    else
      (acc.props.filter (fun e => !(acc.oldProps.contains e.nid)),
       acc.cmds ++ [Cmd.updateModdleStructural Target.zeebePropsHolder "properties"])
  ({ s with ext := some { ext with zeebeProperties := some r2.1 }, fresh := acc.fresh },
   cmds ++ r2.2)

/-- `_updateZeebePropertyProperties`: reconcile the `zeebe:Properties`
holder.  The removal branch again lacks a `return`. -/
def updateZeebePropertyProperties (s : S) (oldTemplate : Option Template)
    (newTemplate : Template) : S × List Cmd :=
  let newProperties := newTemplate.properties.filter (fun p =>
    p.binding.type == "zeebe:property")
  let r := ensureElementExt s
  let s := r.1
  let ext := r.2.1
  let cmds0 := r.2.2
  match ext.zeebeProperties with
  | none =>
    if newProperties.isEmpty then (s, cmds0)
    else
      let cmds := cmds0 ++ [Cmd.updateModdleStructural Target.extensionEls "values"]
      let ext := { ext with zeebeProperties := some [] }
      zeebePropsLoopAndCleanup { s with ext := some ext } ext [] oldTemplate newProperties cmds
  | some ps0 =>
    if newProperties.isEmpty then
      let s := { s with ext := some { ext with zeebeProperties := none } }
      let cmds := cmds0 ++ [Cmd.updateModdleStructural Target.extensionEls "values"]
      let oldProps := ps0.map Entry.nid
      let cmds := if oldProps.isEmpty then cmds
                  else cmds ++ [Cmd.updateModdleStructural Target.zeebePropsHolder "properties"]
      (s, cmds)
    else
      zeebePropsLoopAndCleanup s ext ps0 oldTemplate newProperties cmds0

/-- `_getOrCreateMessage` / `_createMessage`: fetch the referenced message or
create one stamped with the template's id and reference it. -/
def getOrCreateMessage (s : S) (template : Template) : S × Msg × List Cmd :=
  match s.msg with
  | some m => (s, m, [])
  | none =>
    let node : Entry := ⟨s.fresh, setFO ∅ (some "zeebe:modelerTemplate") (some template.id)⟩
    let m : Msg := ⟨node, none⟩
    ({ s with msg := some m, fresh := s.fresh + 1 }, m,
     [Cmd.updateModdleStructural Target.businessObject "messageRef"])

/-- `_getOrCreateExtensionElements` on the message. -/
def ensureMessageExt (s : S) : S × List Cmd :=
  match s.msg with
  | none => (s, [])
  | some m =>
    match m.msgExt with
    | some _ => (s, [])
    | none =>
      ({ s with msg := some { m with msgExt := some none } },
       [Cmd.updateModdleStructural Target.message "extensionElements"])

/-- One iteration of the `_updateMessageProperties` loop. -/
def processMessageProperty (oldTemplate : Option Template) (acc : S × List Cmd)
    (p : TProperty) : S × List Cmd :=
  let s : S := acc.1
  let oldProperty := findOldProperty oldTemplate p
  let newPropertyValue := getDefaultValue p
  let changed := s.msg.map (fun (m : Msg) => m.node.fields)
  if shouldKeepValue changed oldProperty p then acc
  else
    ({ s with msg := s.msg.map (fun (m : Msg) =>
         { m with node := ⟨m.node.nid, setFO m.node.fields p.binding.name newPropertyValue⟩ }) },
     acc.2 ++ [Cmd.updateModdleProperties Target.message
                 [(keyStr p.binding.name, newPropertyValue)]])

/-- One iteration of the removed-property loop of `_updateMessageProperties`. -/
def processRemovedMessageProperty (acc : S × List Cmd) (rp : TProperty) : S × List Cmd :=
  let s1 : S := acc.1
  ({ s1 with msg := s1.msg.map (fun (m : Msg) =>
       { m with node := ⟨m.node.nid, setFO m.node.fields rp.binding.name none⟩ }) },
   acc.2 ++ [Cmd.updateModdleProperties Target.message [(keyStr rp.binding.name, none)]])

/-- `_updateMessageProperties`: reconcile the plain fields of the referenced
`bpmn:Message`. -/
def updateMessageProperties (s : S) (oldTemplate : Option Template)
    (newTemplate : Template) : S × List Cmd :=
  let newProperties := newTemplate.properties.filter (fun p =>
    p.binding.type == MESSAGE_PROPERTY_TYPE)
  let removedProperties : List TProperty :=
    match oldTemplate with
    | none => []
    | some o => o.properties.filter (fun op =>
        op.binding.type == MESSAGE_PROPERTY_TYPE &&
        !(newProperties.any (fun np => np.binding.name == op.binding.name)))
  -- clear removed fields on the existing message (one command each)
  let r0 : S × List Cmd :=
    match s.msg with
    | none => (s, ([] : List Cmd))
    | some _ => removedProperties.foldl processRemovedMessageProperty (s, [])
  if newProperties.isEmpty then r0
  else
    let rg := getOrCreateMessage r0.1 newTemplate
    newProperties.foldl (processMessageProperty oldTemplate) (rg.1, r0.2 ++ rg.2.2)

/-- `_updateMessageZeebeSubscriptionProperties`: reconcile the
`zeebe:Subscription` node inside the message's extension container. -/
def updateMessageZeebeSubscriptionProperties (s : S) (oldTemplate : Option Template)
    (newTemplate : Template) : S × List Cmd :=
  let newProperties := newTemplate.properties.filter (fun p =>
    p.binding.type == MESSAGE_ZEEBE_SUBSCRIPTION_PROPERTY_TYPE)
  let removedProperties : List TProperty :=
    match oldTemplate with
    | none => []
    | some o => o.properties.filter (fun op =>
        op.binding.type == MESSAGE_ZEEBE_SUBSCRIPTION_PROPERTY_TYPE &&
        !(newProperties.any (fun np => np.binding.name == op.binding.name)))
  if newProperties.isEmpty && removedProperties.isEmpty then (s, [])
  else
    let rg := getOrCreateMessage s newTemplate
    let cmds1 := rg.2.2
    let re := ensureMessageExt rg.1
    let s := re.1
    let cmds2 := re.2
    let zeebeSubscription : Option Entry := (s.msg.bind (fun m => m.msgExt)).bind id
    let propertiesToSet : List (Option String × Option String) := newProperties.foldl
      (fun (props : List (Option String × Option String)) p =>
        let oldProperty := findOldProperty oldTemplate p
        let newPropertyValue := getDefaultValue p
        if shouldKeepValue (zeebeSubscription.map Entry.fields) oldProperty p then props
        else props ++ [(p.binding.name, newPropertyValue)])
      []
    let payload := propertiesToSet.map (fun kv => (keyStr kv.1, kv.2))
    let r3 : S × List Cmd :=
      match zeebeSubscription with
      | some sub =>
        -- update the existing subscription
        let s1 : S := s
        ({ s1 with msg := s1.msg.map (fun (m : Msg) =>
             { m with msgExt := some (some ⟨sub.nid,
                 propertiesToSet.foldl (fun (f : FieldMap) (kv : Option String × Option String) => setFO f kv.1 kv.2)
                   sub.fields⟩) }) },
         ([Cmd.updateModdleProperties Target.subscription payload] : List Cmd))
      | none =>
        -- create a new subscription with the computed fields
        let s1 : S := s
        let ne : Entry := ⟨s1.fresh,
          propertiesToSet.foldl (fun (f : FieldMap) (kv : Option String × Option String) => setFO f kv.1 kv.2) ∅⟩
        ({ s1 with msg := s1.msg.map (fun (m : Msg) => { m with msgExt := some (some ne) }),
                   fresh := s1.fresh + 1 },
         ([Cmd.updateModdleStructural Target.messageExtensionEls "values"] : List Cmd))
    -- remove old properties (only when an old template and an existing
    -- subscription were present)
    let s := r3.1
    let cmds3 := r3.2
    if oldTemplate.isNone || zeebeSubscription.isNone then (s, cmds1 ++ cmds2 ++ cmds3)
    else
      let removePayload := removedProperties.map (fun (rp : TProperty) =>
        (keyStr rp.binding.name, (none : Option String)))
      ({ s with msg := s.msg.map (fun (m : Msg) =>
           { m with msgExt := some ((m.msgExt.bind id).map (fun (sub : Entry) =>
               ⟨sub.nid, removedProperties.foldl
                  (fun (f : FieldMap) (rp : TProperty) => setFO f rp.binding.name none) sub.fields⟩)) }) },
       cmds1 ++ cmds2 ++ cmds3 ++ [Cmd.updateModdleProperties Target.subscription removePayload])

/-- `_updateZeebeModelerTemplateOnReferencedElement`: keep the referenced
message's own identity stamp in sync with the current template
(`findMessage` and `getTemplateId` are Modelled from the spec: the message
referenced by the element and its `zeebe:modelerTemplate` stamp; from
`Helper`, not under `src/`). -/
def updateZeebeModelerTemplateOnReferencedElement (s : S) (newTemplate : Template) :
    S × List Cmd :=
  match s.msg with
  | none => (s, [])
  | some m =>
    if getFO m.node.fields (some "zeebe:modelerTemplate") == some newTemplate.id then (s, [])
    else
      ({ s with msg := some { m with node :=
           ⟨m.node.nid, setFO m.node.fields (some "zeebe:modelerTemplate")
              (some newTemplate.id)⟩ } },
       [Cmd.updateModdleProperties Target.message
          [("zeebe:modelerTemplate", some newTemplate.id)]])

/-- `_updateMessage`: the referenced-side-document family.  `removeMessage`
is Modelled from the spec (external collaborator from `util/rootElementUtil`,
not under `src/`): it detaches the element's referenced message when the new
template carries no message-kind property. -/
def updateMessage (s : S) (oldTemplate : Option Template) (newTemplate : Template) :
    S × List Cmd :=
  let r1 := updateMessageProperties s oldTemplate newTemplate
  let r2 := updateMessageZeebeSubscriptionProperties r1.1 oldTemplate newTemplate
  let r3 := updateZeebeModelerTemplateOnReferencedElement r2.1 newTemplate
  let s := r3.1
  let c123 := r1.2 ++ r2.2 ++ r3.2
  if hasMessageProperties newTemplate then (s, c123)
  else ({ s with msg := none }, c123 ++ [Cmd.removeMessageCall])

/-- One iteration of the `_updateCalledElement` property loop. -/
def processCalledElementProperty (oldTemplate : Option Template)
    (acc : Option Entry × Nat × List Cmd) (p : TProperty) :
    Option Entry × Nat × List Cmd :=
  let oldProperty := findOldProperty oldTemplate p
  let newPropertyValue := getDefaultValue p
  let propertyName := p.binding.property
  match acc.1 with
  | some ce =>
    if shouldKeepValue (some ce.fields) oldProperty p then acc
    else
      (some ⟨ce.nid, setFO ce.fields propertyName newPropertyValue⟩, acc.2.1,
       acc.2.2 ++ [Cmd.updateModdleProperties Target.calledEl
                     [(keyStr propertyName, newPropertyValue)]])
  | none =>
    let ce : Entry := ⟨acc.2.1, setFO ∅ propertyName newPropertyValue⟩
    (some ce, acc.2.1 + 1,
     acc.2.2 ++ [Cmd.updateModdleStructural Target.extensionEls "values"])

/-- `_updateCalledElement`: reconcile the singleton `zeebe:CalledElement`
node. -/
def updateCalledElement (s : S) (oldTemplate : Option Template) (newTemplate : Template) :
    S × List Cmd :=
  let newProperties := newTemplate.properties.filter (fun p =>
    p.binding.type == ZEEBE_CALLED_ELEMENT)
  let r := ensureElementExt s
  let s := r.1
  let ext := r.2.1
  let cmds0 := r.2.2
  let calledElement := ext.calledElement
  if newProperties.isEmpty then
    ({ s with ext := some { ext with calledElement := none } },
     cmds0 ++ [Cmd.updateModdleStructural Target.extensionEls "values"])
  else
    let acc := newProperties.foldl (processCalledElementProperty oldTemplate)
      (calledElement, s.fresh, [])
    let oldPropertiesDropped : List TProperty :=
      match oldTemplate with
      | none => []
      | some o => o.properties.filter (fun op =>
          op.binding.type == ZEEBE_CALLED_ELEMENT &&
          !(newProperties.any (fun np => np.binding.property == op.binding.property)))
    let ce2 := oldPropertiesDropped.foldl
      (fun (t : Option Entry) op =>
        t.map (fun ce => ⟨ce.nid, setFO ce.fields op.binding.property none⟩))
      acc.1
    let dropCmds := oldPropertiesDropped.map (fun op =>
      Cmd.updateModdleProperties Target.calledEl [(keyStr op.binding.property, none)])
    ({ s with ext := some { ext with calledElement := ce2 }, fresh := acc.2.1 },
     cmds0 ++ acc.2.2 ++ dropCmds)

/-- `preExecute`: the orchestrator.  Stamps the identity attributes, and when
a new template is present replaces the element type and runs the family
reconcilers in their fixed order. -/
def preExecute (s : S) (oldTemplate newTemplate : Option Template) : S × List Cmd :=
  let r1 := updateZeebeModelerTemplate s newTemplate
  let r2 := updateZeebeModelerTemplateIcon r1.1 newTemplate
  match newTemplate with
  | none => (r2.1, r1.2 ++ r2.2)
  | some t =>
    let r3 := updateElementType r2.1 oldTemplate t
    let r4 := updatePlainProperties r3.1 oldTemplate t
    let r5 := updateZeebeTaskDefinition r4.1 oldTemplate t
    let r6 := updateZeebeInputOutputParameterProperties r5.1 oldTemplate t
    let r7 := updateZeebeTaskHeaderProperties r6.1 oldTemplate t
    let r8 := updateZeebePropertyProperties r7.1 oldTemplate t
    let r9 := updateMessage r8.1 oldTemplate t
    let r10 := updateCalledElement r9.1 oldTemplate t
    (r10.1, r1.2 ++ r2.2 ++ r3.2 ++ r4.2 ++ r5.2 ++ r6.2 ++ r7.2 ++ r8.2 ++ r9.2 ++ r10.2)

/-! Concrete instances used to evaluate the embedding on specific inputs. -/

/-- Build a concrete attribute map. -/
def fm (kvs : List (String × String)) : FieldMap :=
  kvs.foldl (fun m kv => m.insert kv.1 kv.2) ∅

/-- A plain `property` binding. -/
def propBinding (n : String) : Binding := ⟨"property", some n, none, none, none⟩

/-- A `zeebe:input` binding (matched by target variable name). -/
def inputBinding (n : String) : Binding := ⟨"zeebe:input", some n, none, none, none⟩

/-- A `zeebe:output` binding (matched by source expression). -/
def outputBinding (src : String) : Binding := ⟨"zeebe:output", none, some src, none, none⟩

/-- A `zeebe:taskHeader` binding (matched by header key). -/
def headerBinding (k : String) : Binding := ⟨"zeebe:taskHeader", none, none, some k, none⟩

/-- A `zeebe:property` binding (matched by property name). -/
def zbPropBinding (n : String) : Binding := ⟨"zeebe:property", some n, none, none, none⟩

/-- A free-form scalar property over a binding. -/
def strProp (b : Binding) (v : Option String) (opt : Bool) : TProperty :=
  ⟨"String", v, none, opt, b⟩

/-- A template with the given id, version and properties. -/
def mkTemplate (i : String) (ver : String) (ps : List TProperty) : Template :=
  ⟨i, some ver, none, none, ps⟩

/-- A state with the given extension container, no message, empty business
object and allocation counter 100. -/
def extState (e : Ext) : S := ⟨∅, none, none, some e, none, 100⟩

/-- Claim 1 instance: old template with a plain property defaulting to
`old`. -/
def c1oldT : Template := mkTemplate "v1" "1" [strProp (propBinding "x") (some "old") false]

/-- Claim 1 instance: new template's plain property on the same field. -/
def c1q : TProperty := strProp (propBinding "x") (some "new") false

/-- Claim 1 instance: the old property matched by identity key. -/
def c1p : TProperty := strProp (propBinding "x") (some "old") false

/-- Claim 1 instance: business object holding a user-edited value. -/
def c1el : FieldMap := fm [("x", "edited")]

/-- Claim 7 instance: a `Dropdown` property with choices red and blue. -/
def c7q : TProperty :=
  ⟨"Dropdown", some "blue", some [⟨"red"⟩, ⟨"blue"⟩], false, propBinding "col"⟩

/-- Claim 7 instance: business object currently holding the choice `red`. -/
def c7el : FieldMap := fm [("col", "red")]

/-- Claim 4 instance: a task-headers holder with one header entry. -/
def c4state : S :=
  extState ⟨none, none, some [⟨0, fm [("key", "k"), ("value", "v")]⟩], none, none⟩

/-- Claim 4 instance: an io-mapping holder with one input entry. -/
def c4ioState : S :=
  extState ⟨none, some ⟨[⟨0, fm [("target", "x"), ("source", "s")]⟩], []⟩, none, none, none⟩

/-- Claim 4 instance: a template contributing no keyed-collection property. -/
def c4tpl : Template := mkTemplate "t2" "2" []

/-- Claim 5 instance: the old template authored header `k` with value `v`. -/
def c5oldT : Template := mkTemplate "v1" "1" [strProp (headerBinding "k") (some "v") false]

/-- Claim 5 instance: the new template's header `k`, optional with an empty
default. -/
def c5newProp : TProperty := ⟨"String", none, none, true, headerBinding "k"⟩

/-- Claim 5 instance: the new template. -/
def c5newT : Template := mkTemplate "v2" "2" [c5newProp]

/-- Claim 5 instance: the document's header entry, unchanged since the old
template applied it. -/
def c5entry : Entry := ⟨0, fm [("key", "k"), ("value", "v")]⟩

/-- Claim 5 instance: the element state holding that header entry. -/
def c5state : S := extState ⟨none, none, some [c5entry], none, none⟩

/-- Claim 5 instance: an optional input mapping with an empty default. -/
def c5ioProp : TProperty := ⟨"String", none, none, true, inputBinding "x"⟩

/-- Claim 5 instance: the document's input entry for target `x`. -/
def c5ioEntry : Entry := ⟨0, fm [("target", "x"), ("source", "s")]⟩

/-- Claim 6 instance: a required task header with an empty default value. -/
def c6newProp : TProperty := ⟨"String", none, none, false, headerBinding "k"⟩

/-- Claim 6 instance: element state with an empty task-headers holder. -/
def c6state : S := extState ⟨none, none, some [], none, none⟩

/-- Claim 6 instance: a required input mapping with a non-empty default. -/
def c6ioProp : TProperty := strProp (inputBinding "x") (some "val") false

/-- Claim 8 instance: template v1 maps input target `x` from source `srcA`. -/
def c8oldT : Template := mkTemplate "v1" "1" [strProp (inputBinding "x") (some "srcA") false]

/-- Claim 8 instance: template v2 redefines target `x` with source `srcB`. -/
def c8newT : Template := mkTemplate "v2" "2" [strProp (inputBinding "x") (some "srcB") false]

/-- Claim 8 instance: the element currently holds the v1-authored input. -/
def c8state : S :=
  extState ⟨none, some ⟨[⟨0, fm [("target", "x"), ("source", "srcA")]⟩], []⟩, none, none, none⟩

/-- Claim 8 instance: the new input property of v2. -/
def c8newProp : TProperty := strProp (inputBinding "x") (some "srcB") false

/-- Claim 8 instance: the held input entry. -/
def c8entry : Entry := ⟨0, fm [("target", "x"), ("source", "srcA")]⟩

/-- The binding kinds whose nodes live in the element's extension container:
task definition, input/output mappings, task headers, custom properties and
the called element. -/
def extensionBorne (t : String) : Bool :=
  TASK_DEFINITION_TYPES.contains t || t == "zeebe:input" || t == "zeebe:output" ||
    t == "zeebe:taskHeader" || t == "zeebe:property" || t == ZEEBE_CALLED_ELEMENT

/-- Claim 9 instance: an element without a `bpmn:ExtensionElements`
container. -/
def c9state : S := ⟨∅, none, none, none, none, 0⟩

/-- Claim 9 instance: a template contributing no properties at all. -/
def c9tpl : Template := mkTemplate "t" "1" []

/-- Claim 9 instance: a template contributing only a plain property. -/
def c9plainTpl : Template := mkTemplate "t" "1" [strProp (propBinding "x") (some "v") false]

/-- Claim 3 instance: previous template authoring input `x` from source
`a`. -/
def c3oldT : Template := mkTemplate "old" "1" [strProp (inputBinding "x") (some "a") false]

/-- Claim 3 instance: upgraded template whose input `x` is optional with an
empty default. -/
def c3newT : Template := mkTemplate "tid" "2" [strProp (inputBinding "x") (some "") true]

/-- Claim 3 instance: the element before the first application, holding the
kept input entry with an empty source. -/
def c3state : S :=
  extState ⟨none, some ⟨[⟨0, fm [("target", "x"), ("source", "")]⟩], []⟩, none, none, none⟩

/-- Claim 3 instance: a fresh element (no extension container, no referenced
message). -/
def c3fresh : S := ⟨∅, none, none, none, none, 0⟩

/-- Claim 3 instance: a well-formed template with one plain property and one
required input mapping. -/
def c3T : Template := mkTemplate "t3" "1"
  [strProp (propBinding "p") (some "v") false,
   strProp (inputBinding "x") (some "src") false]

/-! Definitions supporting the idempotence analysis. -/

/-- The plain (`property`-bound) properties of a template. -/
def plainProps (T : Template) : List TProperty :=
  T.properties.filter (fun p => p.binding.type == "property")

/-- The task-definition properties of a template. -/
def tdProps (T : Template) : List TProperty :=
  T.properties.filter (fun p => TASK_DEFINITION_TYPES.contains p.binding.type)

/-- The input-mapping properties of a template. -/
def inputProps (T : Template) : List TProperty :=
  T.properties.filter (fun p => p.binding.type == "zeebe:input")

/-- The output-mapping properties of a template. -/
def outputProps (T : Template) : List TProperty :=
  T.properties.filter (fun p => p.binding.type == "zeebe:output")

/-- The input- and output-mapping properties of a template, in order. -/
def ioPropsOf (T : Template) : List TProperty :=
  T.properties.filter (fun p =>
    p.binding.type == "zeebe:input" || p.binding.type == "zeebe:output")

/-- The task-header properties of a template. -/
def headerPropsOf (T : Template) : List TProperty :=
  T.properties.filter (fun p => p.binding.type == "zeebe:taskHeader")

/-- The custom (`zeebe:property`) properties of a template. -/
def zbPropsOf (T : Template) : List TProperty :=
  T.properties.filter (fun p => p.binding.type == "zeebe:property")

/-- The message properties of a template. -/
def msgPropsOf (T : Template) : List TProperty :=
  T.properties.filter (fun p => p.binding.type == MESSAGE_PROPERTY_TYPE)

/-- The message-subscription properties of a template. -/
def subPropsOf (T : Template) : List TProperty :=
  T.properties.filter (fun p => p.binding.type == MESSAGE_ZEEBE_SUBSCRIPTION_PROPERTY_TYPE)

/-- The called-element properties of a template. -/
def cePropsOf (T : Template) : List TProperty :=
  T.properties.filter (fun p => p.binding.type == ZEEBE_CALLED_ELEMENT)

/-- The element attributes reserved for the template identity stamp. -/
def reservedStampKeys : List String :=
  ["zeebe:modelerTemplate", "zeebe:modelerTemplateVersion", "zeebe:modelerTemplateIcon"]

/-- Well-formedness of a template: identity keys present and pairwise
distinct within each binding kind, plain bindings away from the reserved
stamp attributes, task-definition bindings in the resolved (non-legacy) form
with field names disjoint from called-element field names, `property` fields
only on the kinds that use them, and no optional mapping or custom property
with an empty default (the combination on which re-application deletes the
entry). -/
def WFTemplate (T : Template) : Prop :=
  ((plainProps T).map (fun p => p.binding.name)).Nodup ∧
  (∀ p ∈ plainProps T, p.binding.name.isSome = true ∧
     ∀ k ∈ reservedStampKeys, p.binding.name ≠ some k) ∧
  (∀ p ∈ T.properties,
     ¬(TASK_DEFINITION_TYPES.contains p.binding.type = true ∨
        p.binding.type = ZEEBE_CALLED_ELEMENT) → p.binding.property = none) ∧
  (∀ p ∈ tdProps T, p.binding.type = "zeebe:taskDefinition" ∧
     p.binding.property.isSome = true) ∧
  (∀ p ∈ cePropsOf T, p.binding.property.isSome = true) ∧
  (((tdProps T ++ cePropsOf T).map (fun p => p.binding.property)).Nodup) ∧
  ((inputProps T).map (fun p => p.binding.name)).Nodup ∧
  (∀ p ∈ inputProps T, p.binding.name.isSome = true) ∧
  ((outputProps T).map (fun p => p.binding.source)).Nodup ∧
  (∀ p ∈ outputProps T, p.binding.source.isSome = true) ∧
  (∀ p ∈ ioPropsOf T, shouldUpdate (getDefaultValue p) p = true) ∧
  ((headerPropsOf T).map (fun p => p.binding.key)).Nodup ∧
  (∀ p ∈ headerPropsOf T, p.binding.key.isSome = true) ∧
  ((zbPropsOf T).map (fun p => p.binding.name)).Nodup ∧
  (∀ p ∈ zbPropsOf T, p.binding.name.isSome = true) ∧
  (∀ p ∈ zbPropsOf T, shouldUpdate (getDefaultValue p) p = true) ∧
  ((msgPropsOf T).map (fun p => p.binding.name)).Nodup ∧
  (∀ p ∈ msgPropsOf T, p.binding.name.isSome = true) ∧
  ((subPropsOf T).map (fun p => p.binding.name)).Nodup ∧
  (∀ p ∈ subPropsOf T, p.binding.name.isSome = true) ∧
  (∀ p ∈ msgPropsOf T, p.binding.name ≠ some "zeebe:modelerTemplate")

/-- Well-formedness of the previous template: its plain bindings stay away
from the reserved stamp attributes (otherwise the first application's removal
step erases a stamp the second application would restore). -/
def WFOldTemplate (oldTemplate : Option Template) : Prop :=
  match oldTemplate with
  | none => True
  | some o => ∀ p ∈ o.properties, p.binding.type = "property" →
      ∀ k ∈ reservedStampKeys, p.binding.name ≠ some k

/-- Entry identities of a holder list: pairwise distinct and below the
allocation counter (modelling distinct JavaScript object references). -/
def nidsOk (l : List Entry) (n : Nat) : Prop :=
  (l.map Entry.nid).Nodup ∧ ∀ e ∈ l, e.nid < n

/-- Well-formedness of a document state: the entries of each keyed holder
are distinct objects with identities below the allocation counter. -/
def WFState (s : S) : Prop :=
  match s.ext with
  | none => True
  | some e =>
    (match e.ioMapping with
     | none => True
     | some io => nidsOk io.inputParameters s.fresh ∧ nidsOk io.outputParameters s.fresh) ∧
    (match e.taskHeaders with
     | none => True
     | some hs => nidsOk hs s.fresh) ∧
    (match e.zeebeProperties with
     | none => True
     | some ps => nidsOk ps s.fresh)

/-- A templated value slot is stable under re-application: `Hidden` slots
hold the template default, `Dropdown` slots hold the default or one of the
choices (all other slots are stable unconditionally, since differing from the
default means the value is kept and matching it means it is overwritten with
itself). -/
def SlotOk (cur : Option String) (p : TProperty) : Prop :=
  (p.type = "Hidden" → cur = getDefaultValue p) ∧
  (p.type = "Dropdown" →
     cur = getDefaultValue p ∨
       (match p.choices with
        | none => False
        | some cs => cs.any (fun c => some c.value == cur) = true))

/-- Post-state of the identity stamping: the business object carries the new
template's id, version and icon. -/
def StampOk (s : S) (T : Template) : Prop :=
  getFO s.bo (some "zeebe:modelerTemplate") = some T.id ∧
  getFO s.bo (some "zeebe:modelerTemplateVersion") = T.version ∧
  getFO s.bo (some "zeebe:modelerTemplateIcon") = T.icon.bind (fun i => i.contents)

/-- Post-state of the plain-property family: every templated plain slot is
stable. -/
def PlainOk (s : S) (T : Template) : Prop :=
  ∀ p ∈ plainProps T, SlotOk (getFO s.bo p.binding.name) p

/-- Post-state of the task-definition family. -/
def TdOk (s : S) (T : Template) : Prop :=
  match s.ext with
  | none => False
  | some e =>
    (tdProps T = [] → e.taskDefinition = none) ∧
    (tdProps T ≠ [] → ∃ td, e.taskDefinition = some td ∧
       ∀ p ∈ tdProps T,
         SlotOk (getFO td.fields (getTaskDefinitionPropertyName p.binding)) p)

/-- Post-state of the called-element family.  `getPropertyValue` has no
`zeebe:calledElement` branch and `findOldProperty` no called-element case, so
`shouldKeepValue` is always false there and every templated field holds the
template default. -/
def CeOk (s : S) (T : Template) : Prop :=
  match s.ext with
  | none => False
  | some e =>
    (cePropsOf T = [] → e.calledElement = none) ∧
    (cePropsOf T ≠ [] → ∃ ce, e.calledElement = some ce ∧
       ∀ p ∈ cePropsOf T, getFO ce.fields p.binding.property = getDefaultValue p)

/-- Post-state of one keyed holder list: identity keys pairwise distinct,
entry identities well-formed, every entry claimed by a templated property of
the matching key, and every matching entry's tracked slot stable. -/
def HolderOk (l : List Entry) (keyF slotF : String) (props : List TProperty)
    (keyOf : TProperty → Option String) (n : Nat) : Prop :=
  (l.map (fun en => getFO en.fields (some keyF))).Nodup ∧
  nidsOk l n ∧
  (∀ en ∈ l, ∃ p ∈ props, getFO en.fields (some keyF) = keyOf p) ∧
  (∀ p ∈ props, ∀ en ∈ l, getFO en.fields (some keyF) = keyOf p →
     SlotOk (getFO en.fields (some slotF)) p)

/-- Post-state of the io-mapping family. -/
def IoOk (s : S) (T : Template) : Prop :=
  match s.ext with
  | none => False
  | some e =>
    (ioPropsOf T = [] → e.ioMapping = none) ∧
    (ioPropsOf T ≠ [] → ∃ io, e.ioMapping = some io ∧
       HolderOk io.inputParameters "target" "source" (inputProps T)
         (fun p => p.binding.name) s.fresh ∧
       HolderOk io.outputParameters "source" "target" (outputProps T)
         (fun p => p.binding.source) s.fresh ∧
       (∀ p ∈ inputProps T, ∃ en ∈ io.inputParameters,
          getFO en.fields (some "target") = p.binding.name) ∧
       (∀ p ∈ outputProps T, ∃ en ∈ io.outputParameters,
          getFO en.fields (some "source") = p.binding.source))

/-- Post-state of the task-header family. -/
def HdOk (s : S) (T : Template) : Prop :=
  match s.ext with
  | none => False
  | some e =>
    (headerPropsOf T = [] → e.taskHeaders = none) ∧
    (headerPropsOf T ≠ [] → ∃ hs, e.taskHeaders = some hs ∧
       HolderOk hs "key" "value" (headerPropsOf T) (fun p => p.binding.key) s.fresh ∧
       (∀ p ∈ headerPropsOf T, truthy (getDefaultValue p) = true →
          ∃ en ∈ hs, getFO en.fields (some "key") = p.binding.key))

/-- Post-state of the custom-property family. -/
def ZbOk (s : S) (T : Template) : Prop :=
  match s.ext with
  | none => False
  | some e =>
    (zbPropsOf T = [] → e.zeebeProperties = none) ∧
    (zbPropsOf T ≠ [] → ∃ ps, e.zeebeProperties = some ps ∧
       HolderOk ps "name" "value" (zbPropsOf T) (fun p => p.binding.name) s.fresh ∧
       (∀ p ∈ zbPropsOf T, ∃ en ∈ ps, getFO en.fields (some "name") = p.binding.name))

/-- Post-state of the message family. -/
def MsgOk (s : S) (T : Template) : Prop :=
  (hasMessageProperties T = false → s.msg = none) ∧
  (hasMessageProperties T = true → ∃ m, s.msg = some m ∧
     getFO m.node.fields (some "zeebe:modelerTemplate") = some T.id ∧
     (∀ p ∈ msgPropsOf T, SlotOk (getFO m.node.fields p.binding.name) p) ∧
     (subPropsOf T ≠ [] → ∃ sub, m.msgExt = some (some sub) ∧
        ∀ p ∈ subPropsOf T, SlotOk (getFO sub.fields p.binding.name) p))

/-- A state-pair predicate: the two states agree on everything except the
business object (what the plain-property family may change). -/
def Frame5 (a b : S) : Prop :=
  a.ext = b.ext ∧ a.msg = b.msg ∧ a.etype = b.etype ∧ a.evDef = b.evDef ∧
    a.fresh = b.fresh

/-- A state-pair predicate: the two states agree on the extension container,
business object and structural type (the message family touches neither). -/
def MsgFrame (a b : S) : Prop :=
  a.ext = b.ext ∧ a.bo = b.bo ∧ a.etype = b.etype ∧ a.evDef = b.evDef

/-- Node identity matched by an input-mapping property against a holder
(the identity key read by `findBusinessObject`). -/
def ioMatchIn (io : IoMapping) (p : TProperty) : Option Nat :=
  if p.binding.type == "zeebe:input" then
    (io.inputParameters.find? (fun en =>
      getFO en.fields (some "target") == p.binding.name)).map Entry.nid
  else none

/-- Node identity matched by an output-mapping property against a holder. -/
def ioMatchOut (io : IoMapping) (p : TProperty) : Option Nat :=
  if p.binding.type == "zeebe:output" then
    (io.outputParameters.find? (fun en =>
      getFO en.fields (some "source") == p.binding.source)).map Entry.nid
  else none

/-- Node identity matched by a task-header property against a holder. -/
def hdMatch (hs : List Entry) (p : TProperty) : Option Nat :=
  (hs.find? (fun en => getFO en.fields (some "key") == p.binding.key)).map Entry.nid

/-- Node identity matched by a custom-property binding against a holder. -/
def zbMatch (ps : List Entry) (p : TProperty) : Option Nat :=
  (ps.find? (fun en => getFO en.fields (some "name") == p.binding.name)).map Entry.nid

/-! Helper lemmas shared by the claim proofs. -/

/-- Writing back the value a field already has leaves the map unchanged. -/
theorem setFO_get_same (m : FieldMap) (k : String) :
    setFO m (some k) (getFO m (some k)) = m := by
  unfold setFO getFO
  cases h : m.lookup k with
  | none =>
    simp only [h]
    apply Finmap.ext_lookup
    intro x
    by_cases hx : x = k
    · subst hx; rw [Finmap.lookup_erase, h]
    · rw [Finmap.lookup_erase_ne hx]
  | some v =>
    simp only [h]
    apply Finmap.ext_lookup
    intro x
    by_cases hx : x = k
    · subst hx; rw [Finmap.lookup_insert, h]
    · rw [Finmap.lookup_insert_of_ne _ hx]

/-- Reading a field just written yields the written value. -/
theorem getFO_setFO_same (m : FieldMap) (k : String) (v : Option String) :
    getFO (setFO m (some k) v) (some k) = v := by
  cases v with
  | none => simp [setFO, getFO, Finmap.lookup_erase]
  | some s => simp [setFO, getFO, Finmap.lookup_insert]

/-- Reading a different field after a write is unaffected. -/
theorem getFO_setFO_ne (m : FieldMap) (k k2 : String) (v : Option String) (h : k2 ≠ k) :
    getFO (setFO m (some k) v) (some k2) = getFO m (some k2) := by
  cases v with
  | none => simp [setFO, getFO, Finmap.lookup_erase_ne h]
  | some s => simp [setFO, getFO, Finmap.lookup_insert_of_ne _ h]

/-- `remove` of a present item deletes the first occurrence. -/
theorem remove_mem {α : Type} [DecidableEq α] (a : List α) (x : α) (h : x ∈ a) :
    remove a x = a.erase x := by
  unfold remove
  rw [if_pos (List.indexOf_lt_length.2 h), List.eraseIdx_indexOf_eq_erase]

/-- `remove` of an absent item deletes the last element. -/
theorem remove_not_mem {α : Type} [DecidableEq α] (a : List α) (x : α) (h : x ∉ a) :
    remove a x = a.dropLast := by
  unfold remove
  rw [List.indexOf_of_not_mem h, if_neg (lt_irrefl _)]

/-- On a duplicate-free snapshot, an element is no longer a member after
`remove`. -/
theorem not_mem_remove {α : Type} [DecidableEq α] (a : List α) (x : α)
    (hnd : a.Nodup) : x ∉ remove a x := by
  by_cases h : x ∈ a
  · rw [remove_mem a x h]
    exact hnd.not_mem_erase
  · rw [remove_not_mem a x h]
    intro hmem
    exact h (List.dropLast_subset a hmem)

/-- A fold preserves any invariant its step preserves. -/
theorem foldl_invariant {α β : Type} (P : α → Prop) (f : α → β → α)
    (hf : ∀ x b, P x → P (f x b)) (l : List β) (a : α) (ha : P a) :
    P (l.foldl f a) := by
  induction l generalizing a with
  | nil => exact ha
  | cons b bs ih => exact ih (f a b) (hf a b ha)

/-- A fold preserves any invariant its step preserves on list members. -/
theorem foldl_invariant_mem {α β : Type} (P : α → Prop) (f : α → β → α) (l : List β)
    (hf : ∀ x, ∀ b ∈ l, P x → P (f x b)) (a : α) (ha : P a) : P (l.foldl f a) := by
  induction l generalizing a with
  | nil => exact ha
  | cons b bs ih =>
    exact ih (fun x c hc hx => hf x c (List.mem_cons_of_mem _ hc) hx) _
      (hf a b (List.mem_cons_self _ _) ha)

/-- Writing the value a slot currently holds is a no-op on the map. -/
theorem setFO_of_getFO (m : FieldMap) (k : String) (v : Option String)
    (h : getFO m (some k) = v) : setFO m (some k) v = m := by
  rw [← h]
  exact setFO_get_same m k

/-- `find?` returns the unique element satisfying the predicate. -/
theorem find?_unique {α : Type} {l : List α} {pred : α → Bool} {a : α}
    (hmem : a ∈ l) (ha : pred a = true) (huniq : ∀ b ∈ l, pred b = true → b = a) :
    l.find? pred = some a := by
  induction l with
  | nil => cases hmem
  | cons x xs ih =>
    by_cases hx : pred x = true
    · have hxa : x = a := huniq x (List.mem_cons_self x xs) hx
      subst hxa
      simp [List.find?_cons, hx]
    · rcases List.mem_cons.1 hmem with h1 | h2
      · exact absurd (h1 ▸ ha) hx
      · simp only [List.find?_cons, hx, Bool.false_eq_true, cond_false]
        exact ih h2 (fun b hb hpb => huniq b (List.mem_cons_of_mem _ hb) hpb)

/-- `remove` yields a subset. -/
theorem remove_subset {α : Type} [DecidableEq α] (l : List α) (x : α) :
    remove l x ⊆ l := by
  by_cases h : x ∈ l
  · rw [remove_mem l x h]
    intro y hy
    exact List.mem_of_mem_erase hy
  · rw [remove_not_mem l x h]
    exact List.dropLast_subset l

/-- `remove` preserves duplicate-freedom. -/
theorem remove_nodup {α : Type} [DecidableEq α] (l : List α) (x : α)
    (h : l.Nodup) : (remove l x).Nodup := by
  by_cases hm : x ∈ l
  · rw [remove_mem l x hm]
    exact h.erase x
  · rw [remove_not_mem l x hm]
    exact (List.dropLast_sublist l).nodup h

/-- Non-membership survives `remove`. -/
theorem not_mem_remove_of_not_mem {α : Type} [DecidableEq α] {l : List α} {x n : α}
    (h : n ∉ l) : n ∉ remove l x :=
  fun hm => h (remove_subset l x hm)

/-- The removal lists computed against the template itself are empty: each
property of a kind matches itself by its own identity key. -/
theorem filter_self_removal_empty (l : List TProperty) (tc : TProperty → Bool)
    (key : TProperty → Option String) :
    l.filter (fun op => tc op &&
      !((l.filter tc).any (fun np => key np == key op))) = [] := by
  rw [List.filter_eq_nil]
  intro op hop
  by_cases h : tc op = true
  · have hany : (l.filter tc).any (fun np => key np == key op) = true :=
      List.any_eq_true.2 ⟨op, List.mem_filter.2 ⟨hop, h⟩, beq_self_eq_true _⟩
    simp [h, hany]
  · simp [h]

/-- The value slot read by `getPropertyValue` for a plain binding. -/
theorem getPV_plain (f : FieldMap) (p : TProperty) (hp : p.binding.type = "property") :
    getPropertyValue (some f) p = getFO f p.binding.name := by
  unfold getPropertyValue
  dsimp only
  rw [hp]
  rfl

/-- The value slot read by `getPropertyValue` for a task-definition binding. -/
theorem getPV_td (f : FieldMap) (p : TProperty)
    (hp : p.binding.type = "zeebe:taskDefinition") :
    getPropertyValue (some f) p = getFO f (getTaskDefinitionPropertyName p.binding) := by
  unfold getPropertyValue
  dsimp only
  rw [hp]
  rfl

/-- The value slot read by `getPropertyValue` for an input binding. -/
theorem getPV_input (f : FieldMap) (p : TProperty) (hp : p.binding.type = "zeebe:input") :
    getPropertyValue (some f) p = getFO f (some "source") := by
  unfold getPropertyValue
  dsimp only
  rw [hp]
  rfl

/-- The value slot read by `getPropertyValue` for an output binding. -/
theorem getPV_output (f : FieldMap) (p : TProperty) (hp : p.binding.type = "zeebe:output") :
    getPropertyValue (some f) p = getFO f (some "target") := by
  unfold getPropertyValue
  dsimp only
  rw [hp]
  rfl

/-- The value slot read by `getPropertyValue` for a task-header binding. -/
theorem getPV_header (f : FieldMap) (p : TProperty)
    (hp : p.binding.type = "zeebe:taskHeader") :
    getPropertyValue (some f) p = getFO f (some "value") := by
  unfold getPropertyValue
  dsimp only
  rw [hp]
  rfl

/-- The value slot read by `getPropertyValue` for a custom-property binding. -/
theorem getPV_zb (f : FieldMap) (p : TProperty) (hp : p.binding.type = "zeebe:property") :
    getPropertyValue (some f) p = getFO f (some "value") := by
  unfold getPropertyValue
  dsimp only
  rw [hp]
  rfl

/-- The value slot read by `getPropertyValue` for a message binding. -/
theorem getPV_msg (f : FieldMap) (p : TProperty)
    (hp : p.binding.type = MESSAGE_PROPERTY_TYPE) :
    getPropertyValue (some f) p = getFO f p.binding.name := by
  unfold getPropertyValue
  dsimp only
  rw [hp]
  rfl

/-- The value slot read by `getPropertyValue` for a subscription binding. -/
theorem getPV_sub (f : FieldMap) (p : TProperty)
    (hp : p.binding.type = MESSAGE_ZEEBE_SUBSCRIPTION_PROPERTY_TYPE) :
    getPropertyValue (some f) p = getFO f p.binding.name := by
  unfold getPropertyValue
  dsimp only
  rw [hp]
  rfl

/-- `getPropertyValue` has no called-element branch: the current value of a
called-element field always reads as undefined. -/
theorem getPV_ce (f : FieldMap) (p : TProperty)
    (hp : p.binding.type = ZEEBE_CALLED_ELEMENT) :
    getPropertyValue (some f) p = none := by
  unfold getPropertyValue
  dsimp only
  rw [hp]
  rfl

/-- The resolved field name of a non-legacy binding is its `property`. -/
theorem resolved_eq_property (b : Binding) (h : b.type ≠ "zeebe:taskDefinition:type") :
    getTaskDefinitionPropertyName b = b.property := by
  unfold getTaskDefinitionPropertyName
  rw [if_neg h]

/-- With pairwise-distinct plain names, a plain property of the template
matches itself in the old-template scan. -/
theorem findOld_self_plain (T : Template) (p : TProperty)
    (hnd : ((plainProps T).map (fun q => q.binding.name)).Nodup)
    (hp : p ∈ plainProps T) :
    findOldProperty (some T) p = some p := by
  have hmemT : p ∈ T.properties := (List.mem_filter.1 hp).1
  have hptype : p.binding.type = "property" := by
    have := (List.mem_filter.1 hp).2
    simpa using this
  unfold findOldProperty
  dsimp only
  rw [hptype, if_pos rfl]
  apply find?_unique hmemT
  · simp [hptype]
  · intro b hb hpred
    simp only [Bool.and_eq_true, beq_iff_eq] at hpred
    have hbmem : b ∈ plainProps T := List.mem_filter.2 ⟨hb, by simp [hpred.1]⟩
    exact List.inj_on_of_nodup_map hnd hbmem hp hpred.2

/-- With pairwise-distinct input target names, an input property matches
itself in the old-template scan. -/
theorem findOld_self_input (T : Template) (p : TProperty)
    (hnd : ((inputProps T).map (fun q => q.binding.name)).Nodup)
    (hp : p ∈ inputProps T) :
    findOldProperty (some T) p = some p := by
  have hmemT : p ∈ T.properties := (List.mem_filter.1 hp).1
  have hptype : p.binding.type = "zeebe:input" := by
    have := (List.mem_filter.1 hp).2
    simpa using this
  unfold findOldProperty
  dsimp only
  rw [hptype]
  rw [if_neg (by decide : ¬("zeebe:input" = "property"))]
  rw [if_neg (by decide : ¬(TASK_DEFINITION_TYPES.contains "zeebe:input" = true))]
  rw [if_pos rfl]
  apply find?_unique hmemT
  · simp [hptype]
  · intro b hb hpred
    simp only [Bool.and_eq_true, beq_iff_eq] at hpred
    have hbmem : b ∈ inputProps T := List.mem_filter.2 ⟨hb, by simp [hpred.1]⟩
    exact List.inj_on_of_nodup_map hnd hbmem hp hpred.2

/-- With pairwise-distinct output source expressions, an output property
matches itself in the old-template scan. -/
theorem findOld_self_output (T : Template) (p : TProperty)
    (hnd : ((outputProps T).map (fun q => q.binding.source)).Nodup)
    (hp : p ∈ outputProps T) :
    findOldProperty (some T) p = some p := by
  have hmemT : p ∈ T.properties := (List.mem_filter.1 hp).1
  have hptype : p.binding.type = "zeebe:output" := by
    have := (List.mem_filter.1 hp).2
    simpa using this
  unfold findOldProperty
  dsimp only
  rw [hptype]
  rw [if_neg (by decide : ¬("zeebe:output" = "property"))]
  rw [if_neg (by decide : ¬(TASK_DEFINITION_TYPES.contains "zeebe:output" = true))]
  rw [if_neg (by decide : ¬("zeebe:output" = "zeebe:input"))]
  rw [if_pos rfl]
  apply find?_unique hmemT
  · simp [hptype]
  · intro b hb hpred
    simp only [Bool.and_eq_true, beq_iff_eq] at hpred
    have hbmem : b ∈ outputProps T := List.mem_filter.2 ⟨hb, by simp [hpred.1]⟩
    exact List.inj_on_of_nodup_map hnd hbmem hp hpred.2

/-- With pairwise-distinct header keys, a task-header property matches
itself in the old-template scan. -/
theorem findOld_self_header (T : Template) (p : TProperty)
    (hnd : ((headerPropsOf T).map (fun q => q.binding.key)).Nodup)
    (hp : p ∈ headerPropsOf T) :
    findOldProperty (some T) p = some p := by
  have hmemT : p ∈ T.properties := (List.mem_filter.1 hp).1
  have hptype : p.binding.type = "zeebe:taskHeader" := by
    have := (List.mem_filter.1 hp).2
    simpa using this
  unfold findOldProperty
  dsimp only
  rw [hptype]
  rw [if_neg (by decide : ¬("zeebe:taskHeader" = "property"))]
  rw [if_neg (by decide : ¬(TASK_DEFINITION_TYPES.contains "zeebe:taskHeader" = true))]
  rw [if_neg (by decide : ¬("zeebe:taskHeader" = "zeebe:input"))]
  rw [if_neg (by decide : ¬("zeebe:taskHeader" = "zeebe:output"))]
  rw [if_pos rfl]
  apply find?_unique hmemT
  · simp [hptype]
  · intro b hb hpred
    simp only [Bool.and_eq_true, beq_iff_eq] at hpred
    have hbmem : b ∈ headerPropsOf T := List.mem_filter.2 ⟨hb, by simp [hpred.1]⟩
    exact List.inj_on_of_nodup_map hnd hbmem hp hpred.2

/-- With pairwise-distinct custom-property names, a custom property matches
itself in the old-template scan. -/
theorem findOld_self_zb (T : Template) (p : TProperty)
    (hnd : ((zbPropsOf T).map (fun q => q.binding.name)).Nodup)
    (hp : p ∈ zbPropsOf T) :
    findOldProperty (some T) p = some p := by
  have hmemT : p ∈ T.properties := (List.mem_filter.1 hp).1
  have hptype : p.binding.type = "zeebe:property" := by
    have := (List.mem_filter.1 hp).2
    simpa using this
  unfold findOldProperty
  dsimp only
  rw [hptype]
  rw [if_neg (by decide : ¬("zeebe:property" = "property"))]
  rw [if_neg (by decide : ¬(TASK_DEFINITION_TYPES.contains "zeebe:property" = true))]
  rw [if_neg (by decide : ¬("zeebe:property" = "zeebe:input"))]
  rw [if_neg (by decide : ¬("zeebe:property" = "zeebe:output"))]
  rw [if_neg (by decide : ¬("zeebe:property" = "zeebe:taskHeader"))]
  rw [if_pos rfl]
  apply find?_unique hmemT
  · simp [hptype]
  · intro b hb hpred
    simp only [Bool.and_eq_true, beq_iff_eq] at hpred
    have hbmem : b ∈ zbPropsOf T := List.mem_filter.2 ⟨hb, by simp [hpred.1]⟩
    exact List.inj_on_of_nodup_map hnd hbmem hp hpred.2

/-- With pairwise-distinct message property names, a message property
matches itself in the old-template scan. -/
theorem findOld_self_msg (T : Template) (p : TProperty)
    (hnd : ((msgPropsOf T).map (fun q => q.binding.name)).Nodup)
    (hp : p ∈ msgPropsOf T) :
    findOldProperty (some T) p = some p := by
  have hmemT : p ∈ T.properties := (List.mem_filter.1 hp).1
  have hptype : p.binding.type = MESSAGE_PROPERTY_TYPE := by
    have := (List.mem_filter.1 hp).2
    simpa using this
  unfold findOldProperty
  dsimp only
  rw [hptype]
  rw [if_neg (by decide : ¬(MESSAGE_PROPERTY_TYPE = "property"))]
  rw [if_neg (by decide : ¬(TASK_DEFINITION_TYPES.contains MESSAGE_PROPERTY_TYPE = true))]
  rw [if_neg (by decide : ¬(MESSAGE_PROPERTY_TYPE = "zeebe:input"))]
  rw [if_neg (by decide : ¬(MESSAGE_PROPERTY_TYPE = "zeebe:output"))]
  rw [if_neg (by decide : ¬(MESSAGE_PROPERTY_TYPE = "zeebe:taskHeader"))]
  rw [if_neg (by decide : ¬(MESSAGE_PROPERTY_TYPE = "zeebe:property"))]
  rw [if_pos rfl]
  apply find?_unique hmemT
  · simp [hptype]
  · intro b hb hpred
    simp only [Bool.and_eq_true, beq_iff_eq] at hpred
    have hbmem : b ∈ msgPropsOf T := List.mem_filter.2 ⟨hb, by simp [hpred.1]⟩
    exact List.inj_on_of_nodup_map hnd hbmem hp hpred.2

/-- With pairwise-distinct subscription property names, a subscription
property matches itself in the old-template scan. -/
theorem findOld_self_sub (T : Template) (p : TProperty)
    (hnd : ((subPropsOf T).map (fun q => q.binding.name)).Nodup)
    (hp : p ∈ subPropsOf T) :
    findOldProperty (some T) p = some p := by
  have hmemT : p ∈ T.properties := (List.mem_filter.1 hp).1
  have hptype : p.binding.type = MESSAGE_ZEEBE_SUBSCRIPTION_PROPERTY_TYPE := by
    have := (List.mem_filter.1 hp).2
    simpa using this
  unfold findOldProperty
  dsimp only
  rw [hptype]
  rw [if_neg (by decide : ¬(MESSAGE_ZEEBE_SUBSCRIPTION_PROPERTY_TYPE = "property"))]
  rw [if_neg (by decide :
    ¬(TASK_DEFINITION_TYPES.contains MESSAGE_ZEEBE_SUBSCRIPTION_PROPERTY_TYPE = true))]
  rw [if_neg (by decide : ¬(MESSAGE_ZEEBE_SUBSCRIPTION_PROPERTY_TYPE = "zeebe:input"))]
  rw [if_neg (by decide : ¬(MESSAGE_ZEEBE_SUBSCRIPTION_PROPERTY_TYPE = "zeebe:output"))]
  rw [if_neg (by decide : ¬(MESSAGE_ZEEBE_SUBSCRIPTION_PROPERTY_TYPE = "zeebe:taskHeader"))]
  rw [if_neg (by decide : ¬(MESSAGE_ZEEBE_SUBSCRIPTION_PROPERTY_TYPE = "zeebe:property"))]
  rw [if_neg (by decide : ¬(MESSAGE_ZEEBE_SUBSCRIPTION_PROPERTY_TYPE = MESSAGE_PROPERTY_TYPE))]
  rw [if_pos rfl]
  apply find?_unique hmemT
  · simp [hptype]
  · intro b hb hpred
    simp only [Bool.and_eq_true, beq_iff_eq] at hpred
    have hbmem : b ∈ subPropsOf T := List.mem_filter.2 ⟨hb, by simp [hpred.1]⟩
    exact List.inj_on_of_nodup_map hnd hbmem hp hpred.2

/-- Under the well-formedness conditions on `property` fields, a
task-definition property matches itself in the (type-agnostic) resolved-name
scan. -/
theorem findOld_self_td (T : Template) (p : TProperty)
    (hnd : ((tdProps T ++ cePropsOf T).map (fun q => q.binding.property)).Nodup)
    (hform : ∀ q ∈ tdProps T, q.binding.type = "zeebe:taskDefinition" ∧
       q.binding.property.isSome = true)
    (hnone : ∀ q ∈ T.properties,
       ¬(TASK_DEFINITION_TYPES.contains q.binding.type = true ∨
          q.binding.type = ZEEBE_CALLED_ELEMENT) → q.binding.property = none)
    (hp : p ∈ tdProps T) :
    findOldProperty (some T) p = some p := by
  have hmemT : p ∈ T.properties := (List.mem_filter.1 hp).1
  have hptype : p.binding.type = "zeebe:taskDefinition" := (hform p hp).1
  have hpsome : p.binding.property.isSome = true := (hform p hp).2
  have hpres : getTaskDefinitionPropertyName p.binding = p.binding.property :=
    resolved_eq_property _ (by rw [hptype]; decide)
  unfold findOldProperty
  dsimp only
  rw [hptype]
  rw [if_neg (by decide : ¬("zeebe:taskDefinition" = "property"))]
  rw [if_pos (by decide : TASK_DEFINITION_TYPES.contains "zeebe:taskDefinition" = true)]
  apply find?_unique hmemT
  · exact beq_self_eq_true _
  · intro b hb hpred
    have hpred2 : getTaskDefinitionPropertyName b.binding =
        getTaskDefinitionPropertyName p.binding := by
      simpa using hpred
    by_cases hbtd : TASK_DEFINITION_TYPES.contains b.binding.type = true
    · have hbmem : b ∈ tdProps T := List.mem_filter.2 ⟨hb, hbtd⟩
      have hbres : getTaskDefinitionPropertyName b.binding = b.binding.property :=
        resolved_eq_property _ (by rw [(hform b hbmem).1]; decide)
      refine List.inj_on_of_nodup_map hnd ?_ ?_ ?_
      · exact List.mem_append_left _ hbmem
      · exact List.mem_append_left _ hp
      · rw [← hbres, ← hpres]; exact hpred2
    · by_cases hbce : b.binding.type = ZEEBE_CALLED_ELEMENT
      · have hbmem : b ∈ cePropsOf T := List.mem_filter.2 ⟨hb, by simp [hbce]⟩
        have hbres : getTaskDefinitionPropertyName b.binding = b.binding.property :=
          resolved_eq_property _ (by rw [hbce]; decide)
        refine List.inj_on_of_nodup_map hnd ?_ ?_ ?_
        · exact List.mem_append_right _ hbmem
        · exact List.mem_append_left _ hp
        · rw [← hbres, ← hpres]; exact hpred2
      · exfalso
        have hbn : b.binding.property = none := hnone b hb (by
          intro hcontra
          rcases hcontra with h1 | h2
          · exact hbtd h1
          · exact hbce h2)
        have hbleg : b.binding.type ≠ "zeebe:taskDefinition:type" := by
          intro hleg
          exact hbtd (by rw [hleg]; decide)
        have hbres : getTaskDefinitionPropertyName b.binding = none := by
          rw [resolved_eq_property _ hbleg, hbn]
        rw [hbres, hpres] at hpred2
        cases hps : p.binding.property with
        | none => rw [hps] at hpsome; cases hpsome
        | some k => rw [hps] at hpred2; cases hpred2

/-- On a stable slot, the second application either keeps the value or
overwrites it with what it already holds (self-matched old property). -/
theorem keep_or_default_self (f : FieldMap) (k : String) (p : TProperty)
    (hslot : getPropertyValue (some f) p = getFO f (some k))
    (hok : SlotOk (getFO f (some k)) p) :
    shouldKeepValue (some f) (some p) p = true ∨
      getFO f (some k) = getDefaultValue p := by
  by_cases hH : p.type = "Hidden"
  · exact Or.inr (hok.1 hH)
  · by_cases hD : p.type = "Dropdown"
    · rcases hok.2 hD with h | h
      · exact Or.inr h
      · left
        unfold shouldKeepValue
        rw [if_neg hH, if_pos hD]
        cases hc : p.choices with
        | none => rw [hc] at h; exact absurd h (by simp)
        | some cs =>
          rw [hc] at h
          dsimp only
          rw [hslot]
          exact h
    · by_cases he : getFO f (some k) = getDefaultValue p
      · exact Or.inr he
      · left
        unfold shouldKeepValue
        rw [if_neg hH, if_neg hD]
        dsimp only
        unfold propertyChanged
        rw [hslot]
        exact bne_iff_ne.2 he

/-- `Frame5` is reflexive. -/
theorem frame5_refl (a : S) : Frame5 a a := ⟨rfl, rfl, rfl, rfl, rfl⟩

/-- `Frame5` is transitive. -/
theorem frame5_trans {a b c : S} (h1 : Frame5 a b) (h2 : Frame5 b c) : Frame5 a c :=
  ⟨h1.1.trans h2.1, h1.2.1.trans h2.2.1, h1.2.2.1.trans h2.2.2.1,
   h1.2.2.2.1.trans h2.2.2.2.1, h1.2.2.2.2.trans h2.2.2.2.2⟩

/-- The plain-property loop step only touches the business object. -/
theorem processPlainProperty_frame (oldTemplate : Option Template)
    (acc : S × List Cmd) (p : TProperty) :
    Frame5 (processPlainProperty oldTemplate acc p).1 acc.1 := by
  unfold processPlainProperty
  dsimp only
  split
  · exact frame5_refl _
  · exact ⟨rfl, rfl, rfl, rfl, rfl⟩

/-- `_updateProperties` only touches the business object. -/
theorem updatePlainProperties_frame (s : S) (oldTemplate : Option Template)
    (newTemplate : Template) :
    Frame5 (updatePlainProperties s oldTemplate newTemplate).1 s := by
  unfold updatePlainProperties
  have hstep : ∀ (l : List TProperty) (a : S × List Cmd), Frame5 a.1 s →
      Frame5 (l.foldl (processPlainProperty oldTemplate) a).1 s :=
    fun l a ha => foldl_invariant (fun acc => Frame5 acc.1 s) _
      (fun x b hx => frame5_trans (processPlainProperty_frame oldTemplate x b) hx) l a ha
  split <;> dsimp only <;> (repeat' split) <;>
    first
      | exact frame5_refl _
      | exact ⟨rfl, rfl, rfl, rfl, rfl⟩
      | exact hstep _ _ ⟨rfl, rfl, rfl, rfl, rfl⟩
      | exact hstep _ _ (frame5_refl _)

/-- `_updateElementType` only touches the element's structural type. -/
theorem updateElementType_frame (s : S) (oldTemplate : Option Template)
    (newTemplate : Template) :
    (updateElementType s oldTemplate newTemplate).1.ext = s.ext ∧
    (updateElementType s oldTemplate newTemplate).1.msg = s.msg ∧
    (updateElementType s oldTemplate newTemplate).1.bo = s.bo ∧
    (updateElementType s oldTemplate newTemplate).1.fresh = s.fresh := by
  unfold updateElementType
  refine ⟨?_, ?_, ?_, ?_⟩ <;> (dsimp only; repeat' split) <;> rfl

/-- `MsgFrame` is reflexive. -/
theorem msgFrame_refl (a : S) : MsgFrame a a := ⟨rfl, rfl, rfl, rfl⟩

/-- `MsgFrame` is transitive. -/
theorem msgFrame_trans {a b c : S} (h1 : MsgFrame a b) (h2 : MsgFrame b c) :
    MsgFrame a c :=
  ⟨h1.1.trans h2.1, h1.2.1.trans h2.2.1, h1.2.2.1.trans h2.2.2.1,
   h1.2.2.2.trans h2.2.2.2⟩

/-- The message-property loop step touches only the message. -/
theorem processMessageProperty_frame (oldTemplate : Option Template)
    (acc : S × List Cmd) (p : TProperty) :
    MsgFrame (processMessageProperty oldTemplate acc p).1 acc.1 := by
  unfold processMessageProperty
  dsimp only
  split
  · exact msgFrame_refl _
  · exact ⟨rfl, rfl, rfl, rfl⟩

/-- The removed-message-property loop step touches only the message. -/
theorem processRemovedMessageProperty_frame (acc : S × List Cmd) (p : TProperty) :
    MsgFrame (processRemovedMessageProperty acc p).1 acc.1 :=
  ⟨rfl, rfl, rfl, rfl⟩

/-- `_getOrCreateMessage` touches only the message and the allocator. -/
theorem getOrCreateMessage_frame (s : S) (t : Template) :
    MsgFrame (getOrCreateMessage s t).1 s := by
  unfold getOrCreateMessage
  split
  · exact msgFrame_refl _
  · exact ⟨rfl, rfl, rfl, rfl⟩

/-- `_getOrCreateExtensionElements` on the message touches only the message. -/
theorem ensureMessageExt_frame (s : S) : MsgFrame (ensureMessageExt s).1 s := by
  unfold ensureMessageExt
  split
  · exact msgFrame_refl _
  · split
    · exact msgFrame_refl _
    · exact ⟨rfl, rfl, rfl, rfl⟩

/-- A fold whose step is `MsgFrame`-preserving is `MsgFrame`-preserving. -/
theorem foldl_msgFrame (f : (S × List Cmd) → TProperty → (S × List Cmd))
    (hf : ∀ acc p, MsgFrame (f acc p).1 acc.1) (l : List TProperty)
    (a : S × List Cmd) (s0 : S) (ha : MsgFrame a.1 s0) :
    MsgFrame (l.foldl f a).1 s0 :=
  foldl_invariant (fun acc => MsgFrame acc.1 s0) f
    (fun x b hx => msgFrame_trans (hf x b) hx) l a ha

/-- `_updateMessageProperties` touches only the message. -/
theorem updateMessageProperties_frame (s : S) (oldTemplate : Option Template)
    (newTemplate : Template) :
    MsgFrame (updateMessageProperties s oldTemplate newTemplate).1 s := by
  unfold updateMessageProperties
  dsimp only
  split
  · split
    · exact msgFrame_refl _
    · exact foldl_msgFrame _ processRemovedMessageProperty_frame _ _ _ (msgFrame_refl _)
  · refine foldl_msgFrame _ (processMessageProperty_frame oldTemplate) _ _ _
      (msgFrame_trans (getOrCreateMessage_frame _ _) ?_)
    split
    · exact msgFrame_refl _
    · exact foldl_msgFrame _ processRemovedMessageProperty_frame _ _ _ (msgFrame_refl _)

/-- `_updateMessageZeebeSubscriptionProperties` touches only the message. -/
theorem updateMessageZeebeSubscriptionProperties_frame (s : S)
    (oldTemplate : Option Template) (newTemplate : Template) :
    MsgFrame (updateMessageZeebeSubscriptionProperties s oldTemplate newTemplate).1 s := by
  unfold updateMessageZeebeSubscriptionProperties
  dsimp only
  split
  · exact msgFrame_refl _
  · have hre : MsgFrame (ensureMessageExt (getOrCreateMessage s newTemplate).1).1 s :=
      msgFrame_trans (ensureMessageExt_frame _) (getOrCreateMessage_frame _ _)
    repeat' split
    all_goals
      first
        | exact hre
        | exact msgFrame_trans ⟨rfl, rfl, rfl, rfl⟩ hre
        | exact msgFrame_trans ⟨rfl, rfl, rfl, rfl⟩
            (msgFrame_trans ⟨rfl, rfl, rfl, rfl⟩ hre)

/-- The referenced-element stamp sync touches only the message. -/
theorem updateZeebeModelerTemplateOnReferencedElement_frame (s : S)
    (newTemplate : Template) :
    MsgFrame (updateZeebeModelerTemplateOnReferencedElement s newTemplate).1 s := by
  unfold updateZeebeModelerTemplateOnReferencedElement
  split
  · exact msgFrame_refl _
  · split
    · exact msgFrame_refl _
    · exact ⟨rfl, rfl, rfl, rfl⟩

/-- `_updateMessage` touches only the message (and the allocator). -/
theorem updateMessage_frame (s : S) (oldTemplate : Option Template)
    (newTemplate : Template) :
    MsgFrame (updateMessage s oldTemplate newTemplate).1 s := by
  unfold updateMessage
  dsimp only
  have h1 := updateMessageProperties_frame s oldTemplate newTemplate
  have h2 := updateMessageZeebeSubscriptionProperties_frame
    (updateMessageProperties s oldTemplate newTemplate).1 oldTemplate newTemplate
  have h3 := updateZeebeModelerTemplateOnReferencedElement_frame
    (updateMessageZeebeSubscriptionProperties
      (updateMessageProperties s oldTemplate newTemplate).1 oldTemplate newTemplate).1
    newTemplate
  have hall := msgFrame_trans h3 (msgFrame_trans h2 h1)
  split
  · exact hall
  · exact msgFrame_trans ⟨rfl, rfl, rfl, rfl⟩ hall

/-- With no task-definition properties and no pre-existing extension
container, `_updateZeebeTaskDefinition` creates the container and issues the
(no-op) holder-removal command. -/
theorem updateZeebeTaskDefinition_noProps_noExt (s : S) (oldTemplate : Option Template)
    (T : Template) (hs : s.ext = none)
    (h : T.properties.filter (fun p => TASK_DEFINITION_TYPES.contains p.binding.type) = []) :
    updateZeebeTaskDefinition s oldTemplate T =
      ({ s with ext := some emptyExt },
       [Cmd.updateModdleStructural Target.businessObject "extensionElements",
        Cmd.updateModdleStructural Target.extensionEls "values"]) := by
  unfold updateZeebeTaskDefinition ensureElementExt
  rw [h]
  dsimp only
  rw [hs]
  rfl

/-- With no mapping properties and no holder, the io reconciler does
nothing beyond ensuring the container (already present). -/
theorem updateZeebeIoParams_noProps_noHolder (s : S) (e : Ext)
    (oldTemplate : Option Template) (T : Template) (hs : s.ext = some e)
    (hio : e.ioMapping = none)
    (h : T.properties.filter (fun p =>
      p.binding.type == "zeebe:input" || p.binding.type == "zeebe:output") = []) :
    updateZeebeInputOutputParameterProperties s oldTemplate T = (s, []) := by
  unfold updateZeebeInputOutputParameterProperties ensureElementExt
  rw [h]
  dsimp only
  rw [hs]
  dsimp only
  rw [hio]
  rfl

/-- With no header properties and no holder, the header reconciler does
nothing beyond ensuring the container (already present). -/
theorem updateZeebeTaskHeaders_noProps_noHolder (s : S) (e : Ext)
    (oldTemplate : Option Template) (T : Template) (hs : s.ext = some e)
    (hh : e.taskHeaders = none)
    (h : T.properties.filter (fun p => p.binding.type == "zeebe:taskHeader") = []) :
    updateZeebeTaskHeaderProperties s oldTemplate T = (s, []) := by
  unfold updateZeebeTaskHeaderProperties ensureElementExt
  rw [h]
  dsimp only
  rw [hs]
  dsimp only
  rw [hh]
  rfl

/-- With no custom-property properties and no holder, the custom-property
reconciler does nothing beyond ensuring the container (already present). -/
theorem updateZeebeProperties_noProps_noHolder (s : S) (e : Ext)
    (oldTemplate : Option Template) (T : Template) (hs : s.ext = some e)
    (hz : e.zeebeProperties = none)
    (h : T.properties.filter (fun p => p.binding.type == "zeebe:property") = []) :
    updateZeebePropertyProperties s oldTemplate T = (s, []) := by
  unfold updateZeebePropertyProperties ensureElementExt
  rw [h]
  dsimp only
  rw [hs]
  dsimp only
  rw [hz]
  rfl

/-- With no called-element properties, `_updateCalledElement` clears the
(absent or present) called-element node and issues the removal command. -/
theorem updateCalledElement_noProps (s : S) (e : Ext) (oldTemplate : Option Template)
    (T : Template) (hs : s.ext = some e)
    (h : T.properties.filter (fun p => p.binding.type == ZEEBE_CALLED_ELEMENT) = []) :
    updateCalledElement s oldTemplate T =
      ({ s with ext := some { e with calledElement := none } },
       [Cmd.updateModdleStructural Target.extensionEls "values"]) := by
  unfold updateCalledElement ensureElementExt
  rw [h]
  dsimp only
  rw [hs]
  rfl

/-- Re-applying a template never replaces the element type: old and new
element types coincide. -/
theorem updateElementType_self (s : S) (T : Template) :
    updateElementType s (some T) T = (s, []) := by
  unfold updateElementType
  cases h : T.elementType with
  | none => rfl
  | some nt => simp [h]

/-- The plain-property removal list computed against the template itself is
empty. -/
theorem removalSelf_plain (T : Template) :
    T.properties.filter (fun op => op.binding.type == "property" &&
      !((T.properties.filter (fun p => p.binding.type == "property")).any
         (fun np => np.binding.name == op.binding.name))) = [] := by
  simpa using filter_self_removal_empty T.properties
    (fun p => p.binding.type == "property") (fun p => p.binding.name)

/-- The message-property removal list computed against the template itself is
empty. -/
theorem removalSelf_msg (T : Template) :
    T.properties.filter (fun op => op.binding.type == MESSAGE_PROPERTY_TYPE &&
      !((T.properties.filter (fun p => p.binding.type == MESSAGE_PROPERTY_TYPE)).any
         (fun np => np.binding.name == op.binding.name))) = [] := by
  simpa using filter_self_removal_empty T.properties
    (fun p => p.binding.type == MESSAGE_PROPERTY_TYPE) (fun p => p.binding.name)

/-- The subscription-property removal list computed against the template
itself is empty. -/
theorem removalSelf_sub (T : Template) :
    T.properties.filter (fun op =>
      op.binding.type == MESSAGE_ZEEBE_SUBSCRIPTION_PROPERTY_TYPE &&
      !((T.properties.filter (fun p =>
          p.binding.type == MESSAGE_ZEEBE_SUBSCRIPTION_PROPERTY_TYPE)).any
         (fun np => np.binding.name == op.binding.name))) = [] := by
  simpa using filter_self_removal_empty T.properties
    (fun p => p.binding.type == MESSAGE_ZEEBE_SUBSCRIPTION_PROPERTY_TYPE)
    (fun p => p.binding.name)

/-- The task-definition drop list computed against the template itself is
empty. -/
theorem removalSelf_td (T : Template) :
    T.properties.filter (fun op => TASK_DEFINITION_TYPES.contains op.binding.type &&
      !((T.properties.filter (fun p => TASK_DEFINITION_TYPES.contains p.binding.type)).any
         (fun np => np.binding.property == op.binding.property))) = [] := by
  simpa using filter_self_removal_empty T.properties
    (fun p => TASK_DEFINITION_TYPES.contains p.binding.type) (fun p => p.binding.property)

/-- The called-element drop list computed against the template itself is
empty. -/
theorem removalSelf_ce (T : Template) :
    T.properties.filter (fun op => op.binding.type == ZEEBE_CALLED_ELEMENT &&
      !((T.properties.filter (fun p => p.binding.type == ZEEBE_CALLED_ELEMENT)).any
         (fun np => np.binding.property == op.binding.property))) = [] := by
  simpa using filter_self_removal_empty T.properties
    (fun p => p.binding.type == ZEEBE_CALLED_ELEMENT) (fun p => p.binding.property)

/-- Re-stamping the same template id and version leaves the state
unchanged. -/
theorem updateZeebeModelerTemplate_self (s : S) (T : Template)
    (h1 : getFO s.bo (some "zeebe:modelerTemplate") = some T.id)
    (h2 : getFO s.bo (some "zeebe:modelerTemplateVersion") = T.version) :
    (updateZeebeModelerTemplate s (some T)).1 = s := by
  unfold updateZeebeModelerTemplate
  dsimp only [Option.map_some', Option.some_bind]
  rw [setFO_of_getFO _ _ _ h1, setFO_of_getFO _ _ _ h2]

/-- Re-stamping the same template icon leaves the state unchanged. -/
theorem updateZeebeModelerTemplateIcon_self (s : S) (T : Template)
    (h3 : getFO s.bo (some "zeebe:modelerTemplateIcon") = T.icon.bind (fun i => i.contents)) :
    (updateZeebeModelerTemplateIcon s (some T)).1 = s := by
  unfold updateZeebeModelerTemplateIcon
  dsimp only [Option.some_bind]
  rw [setFO_of_getFO _ _ _ h3]

/-- One plain-property step of the second application leaves the state
unchanged. -/
theorem processPlainProperty_self (s : S) (T : Template)
    (hnd : ((plainProps T).map (fun q => q.binding.name)).Nodup)
    (hsome : ∀ p ∈ plainProps T, p.binding.name.isSome = true)
    (hok : PlainOk s T) (acc : S × List Cmd) (p : TProperty)
    (hp : p ∈ plainProps T) (hacc : acc.1 = s) :
    (processPlainProperty (some T) acc p).1 = s := by
  have hptype : p.binding.type = "property" := by
    have := (List.mem_filter.1 hp).2
    simpa using this
  obtain ⟨k, hk⟩ := Option.isSome_iff_exists.1 (hsome p hp)
  have hslot : getPropertyValue (some s.bo) p = getFO s.bo (some k) := by
    rw [getPV_plain _ _ hptype, hk]
  have hsok : SlotOk (getFO s.bo (some k)) p := by
    have := hok p hp
    rwa [hk] at this
  unfold processPlainProperty
  dsimp only
  rw [hacc, findOld_self_plain T p hnd hp]
  rcases keep_or_default_self s.bo k p hslot hsok with hkeep | hdef
  · simp [hkeep, hacc]
  · by_cases hkeep : shouldKeepValue (some s.bo) (some p) p = true
    · simp [hkeep, hacc]
    · simp only [hkeep, Bool.false_eq_true, reduceIte]
      rw [hk, setFO_of_getFO _ _ _ hdef]

/-- The plain-property family of the second application leaves the state
unchanged. -/
theorem updatePlainProperties_self (s : S) (T : Template)
    (hnd : ((plainProps T).map (fun q => q.binding.name)).Nodup)
    (hsome : ∀ p ∈ plainProps T, p.binding.name.isSome = true)
    (hok : PlainOk s T) :
    (updatePlainProperties s (some T) T).1 = s := by
  unfold updatePlainProperties
  dsimp only
  rw [removalSelf_plain T]
  simp only [List.isEmpty_nil, reduceIte]
  split
  · rfl
  · exact foldl_invariant_mem (fun acc => acc.1 = s) _ _
      (fun acc p hp hacc => processPlainProperty_self s T hnd hsome hok acc p hp hacc)
      (s, []) rfl

/-- `findOldProperty` has no called-element branch. -/
theorem findOld_ce_none (o : Option Template) (p : TProperty)
    (hp : p.binding.type = ZEEBE_CALLED_ELEMENT) :
    findOldProperty o p = none := by
  cases o with
  | none => rfl
  | some t =>
    unfold findOldProperty
    dsimp only
    rw [hp]
    rfl

/-- `shouldKeepValue` is always false for a called-element property: its
current value reads as undefined and it has no old counterpart. -/
theorem shouldKeep_ce_false (f : FieldMap) (p : TProperty)
    (hp : p.binding.type = ZEEBE_CALLED_ELEMENT) :
    shouldKeepValue (some f) none p = false := by
  unfold shouldKeepValue
  by_cases hH : p.type = "Hidden"
  · rw [if_pos hH]
  · rw [if_neg hH]
    by_cases hD : p.type = "Dropdown"
    · rw [if_pos hD]
      cases hc : p.choices with
      | none => rfl
      | some cs =>
        dsimp only
        rw [getPV_ce _ _ hp]
        simp
    · rw [if_neg hD]
      dsimp only
      unfold truthy
      rw [getPV_ce _ _ hp]

/-- One task-definition step of the second application leaves the node and
the allocator unchanged. -/
theorem processTaskDefProperty_self (s : S) (T : Template) (td : Entry)
    (hnd : ((tdProps T ++ cePropsOf T).map (fun q => q.binding.property)).Nodup)
    (hform : ∀ q ∈ tdProps T, q.binding.type = "zeebe:taskDefinition" ∧
       q.binding.property.isSome = true)
    (hnone : ∀ q ∈ T.properties,
       ¬(TASK_DEFINITION_TYPES.contains q.binding.type = true ∨
          q.binding.type = ZEEBE_CALLED_ELEMENT) → q.binding.property = none)
    (hslots : ∀ p ∈ tdProps T,
       SlotOk (getFO td.fields (getTaskDefinitionPropertyName p.binding)) p)
    (acc : Option Entry × Nat × List Cmd) (p : TProperty) (hp : p ∈ tdProps T)
    (hacc : acc.1 = some td) (hacc2 : acc.2.1 = s.fresh) :
    (processTaskDefProperty (some T) acc p).1 = some td ∧
      (processTaskDefProperty (some T) acc p).2.1 = s.fresh := by
  have hptype : p.binding.type = "zeebe:taskDefinition" := (hform p hp).1
  obtain ⟨k, hk⟩ := Option.isSome_iff_exists.1 (hform p hp).2
  have hres : getTaskDefinitionPropertyName p.binding = some k := by
    rw [resolved_eq_property _ (by rw [hptype]; decide), hk]
  have hslot : getPropertyValue (some td.fields) p = getFO td.fields (some k) := by
    rw [getPV_td _ _ hptype, hres]
  have hsok : SlotOk (getFO td.fields (some k)) p := by
    have := hslots p hp
    rwa [hres] at this
  unfold processTaskDefProperty
  dsimp only
  rw [hacc]
  dsimp only
  rw [findOld_self_td T p hnd hform hnone hp]
  rcases keep_or_default_self td.fields k p hslot hsok with hkeep | hdef
  · simp [hkeep, hacc, hacc2]
  · by_cases hkeep : shouldKeepValue (some td.fields) (some p) p = true
    · simp [hkeep, hacc, hacc2]
    · simp only [hkeep, Bool.false_eq_true, reduceIte]
      rw [hres, setFO_of_getFO _ _ _ hdef]
      exact ⟨rfl, hacc2⟩

/-- The task-definition family of the second application leaves the state
unchanged. -/
theorem updateZeebeTaskDefinition_self (s : S) (T : Template)
    (hnd : ((tdProps T ++ cePropsOf T).map (fun q => q.binding.property)).Nodup)
    (hform : ∀ q ∈ tdProps T, q.binding.type = "zeebe:taskDefinition" ∧
       q.binding.property.isSome = true)
    (hnone : ∀ q ∈ T.properties,
       ¬(TASK_DEFINITION_TYPES.contains q.binding.type = true ∨
          q.binding.type = ZEEBE_CALLED_ELEMENT) → q.binding.property = none)
    (hok : TdOk s T) :
    (updateZeebeTaskDefinition s (some T) T).1 = s := by
  unfold TdOk at hok
  cases hse : s.ext with
  | none => rw [hse] at hok; exact absurd hok not_false
  | some e =>
    rw [hse] at hok
    unfold updateZeebeTaskDefinition ensureElementExt
    dsimp only
    rw [hse]
    dsimp only
    rw [removalSelf_td T]
    rw [show T.properties.filter
        (fun p => TASK_DEFINITION_TYPES.contains p.binding.type) = tdProps T from rfl]
    by_cases hempty : tdProps T = []
    · rw [hempty]
      simp only [List.isEmpty_nil, reduceIte]
      have hen : e.taskDefinition = none := hok.1 hempty
      have he2 : ({ e with taskDefinition := none } : Ext) = e := by rw [← hen]
      rw [he2, ← hse]
    · rcases hok.2 hempty with ⟨td, htd, hslots⟩
      have hne : (tdProps T).isEmpty = false := by
        cases h : tdProps T with
        | nil => exact absurd h hempty
        | cons a l => rfl
      rw [hne]
      rw [htd]
      have hfold := foldl_invariant_mem
        (fun acc : Option Entry × Nat × List Cmd =>
          acc.1 = some td ∧ acc.2.1 = s.fresh)
        (processTaskDefProperty (some T)) (tdProps T)
        (fun acc p hp hacc =>
          processTaskDefProperty_self s T td hnd hform hnone hslots acc p hp hacc.1 hacc.2)
        (some td, s.fresh, []) ⟨rfl, rfl⟩
      rw [hfold.1, hfold.2]
      simp only [Bool.false_eq_true, reduceIte, List.foldl_nil]
      have he2 : ({ e with taskDefinition := some td } : Ext) = e := by rw [← htd]
      rw [he2, ← hse]

/-- One called-element step of the second application leaves the node and
the allocator unchanged. -/
theorem processCalledElementProperty_self (s : S) (T : Template) (ce : Entry)
    (hsome : ∀ p ∈ cePropsOf T, p.binding.property.isSome = true)
    (hvals : ∀ p ∈ cePropsOf T, getFO ce.fields p.binding.property = getDefaultValue p)
    (acc : Option Entry × Nat × List Cmd) (p : TProperty) (hp : p ∈ cePropsOf T)
    (hacc : acc.1 = some ce) (hacc2 : acc.2.1 = s.fresh) :
    (processCalledElementProperty (some T) acc p).1 = some ce ∧
      (processCalledElementProperty (some T) acc p).2.1 = s.fresh := by
  have hptype : p.binding.type = ZEEBE_CALLED_ELEMENT := by
    have := (List.mem_filter.1 hp).2
    simpa using this
  obtain ⟨k, hk⟩ := Option.isSome_iff_exists.1 (hsome p hp)
  unfold processCalledElementProperty
  dsimp only
  rw [hacc]
  dsimp only
  rw [findOld_ce_none (some T) p hptype, shouldKeep_ce_false ce.fields p hptype]
  simp only [Bool.false_eq_true, reduceIte]
  rw [hk, setFO_of_getFO _ _ _ (by rw [← hk]; exact hvals p hp)]
  exact ⟨rfl, hacc2⟩

/-- The called-element family of the second application leaves the state
unchanged. -/
theorem updateCalledElement_self (s : S) (T : Template)
    (hsome : ∀ p ∈ cePropsOf T, p.binding.property.isSome = true)
    (hok : CeOk s T) :
    (updateCalledElement s (some T) T).1 = s := by
  unfold CeOk at hok
  cases hse : s.ext with
  | none => rw [hse] at hok; exact absurd hok not_false
  | some e =>
    rw [hse] at hok
    unfold updateCalledElement ensureElementExt
    dsimp only
    rw [hse]
    dsimp only
    rw [removalSelf_ce T]
    rw [show T.properties.filter
        (fun p => p.binding.type == ZEEBE_CALLED_ELEMENT) = cePropsOf T from rfl]
    by_cases hempty : cePropsOf T = []
    · rw [hempty]
      simp only [List.isEmpty_nil, reduceIte]
      have hen : e.calledElement = none := hok.1 hempty
      have he2 : ({ e with calledElement := none } : Ext) = e := by rw [← hen]
      rw [he2, ← hse]
    · rcases hok.2 hempty with ⟨ce, hce, hvals⟩
      have hne : (cePropsOf T).isEmpty = false := by
        cases h : cePropsOf T with
        | nil => exact absurd h hempty
        | cons a l => rfl
      rw [hne]
      rw [hce]
      have hfold := foldl_invariant_mem
        (fun acc : Option Entry × Nat × List Cmd =>
          acc.1 = some ce ∧ acc.2.1 = s.fresh)
        (processCalledElementProperty (some T)) (cePropsOf T)
        (fun acc p hp hacc =>
          processCalledElementProperty_self s T ce hsome hvals acc p hp hacc.1 hacc.2)
        (some ce, s.fresh, []) ⟨rfl, rfl⟩
      rw [hfold.1, hfold.2]
      simp only [Bool.false_eq_true, reduceIte, List.foldl_nil]
      have he2 : ({ e with calledElement := some ce } : Ext) = e := by rw [← hce]
      rw [he2, ← hse]

/-- Entries of a holder with pairwise-distinct identities are determined by
their identity. -/
theorem nid_inj {l : List Entry} (hnd : (l.map Entry.nid).Nodup)
    {x y : Entry} (hx : x ∈ l) (hy : y ∈ l) (h : x.nid = y.nid) : x = y :=
  List.inj_on_of_nodup_map hnd hx hy h

/-- Replacing the entry of a given identity by itself is the identity map on
a holder with pairwise-distinct identities. -/
theorem map_if_nid_self {l : List Entry} (hnd : (l.map Entry.nid).Nodup)
    {e : Entry} (he : e ∈ l) {e2 : Entry} (h2 : e2 = e) :
    l.map (fun x => if x.nid == e.nid then e2 else x) = l := by
  have : ∀ x ∈ l, (if x.nid == e.nid then e2 else x) = x := by
    intro x hx
    by_cases hn : x.nid = e.nid
    · have hxe : x = e := nid_inj hnd hx he hn
      simp [hxe, h2]
    · simp [hn]
  calc l.map (fun x => if x.nid == e.nid then e2 else x)
      = l.map id := List.map_congr_left this
    _ = l := l.map_id

/-- Pairwise facts about the filtered list transfer to guarded pairwise
facts about the whole list. -/
theorem pairwise_of_filter {α : Type} {R : α → α → Prop} {f : α → Bool}
    {l : List α} (h : (l.filter f).Pairwise R) :
    l.Pairwise (fun a b => f a = true → f b = true → R a b) := by
  induction l with
  | nil => exact List.Pairwise.nil
  | cons x xs ih =>
    by_cases hx : f x = true
    · rw [List.filter_cons_of_pos hx] at h
      rcases List.pairwise_cons.1 h with ⟨hR, htail⟩
      exact List.Pairwise.cons
        (fun b hb _ hfb => hR b (List.mem_filter.2 ⟨hb, hfb⟩)) (ih htail)
    · rw [List.filter_cons_of_neg hx] at h
      exact List.Pairwise.cons (fun b _ hfx _ => absurd hfx hx) (ih h)

/-- `findBusinessObject` resolves an input binding to a search of the input
parameters by target variable. -/
theorem findBO_input (io : IoMapping) (p : TProperty)
    (hp : p.binding.type = "zeebe:input") :
    findBusinessObject ⟨none, some io, none, none, none⟩ p =
      io.inputParameters.find? (fun en =>
        getFO en.fields (some "target") == p.binding.name) := by
  unfold findBusinessObject
  dsimp only
  rw [hp]
  rfl

/-- `findBusinessObject` resolves an output binding to a search of the output
parameters by source expression. -/
theorem findBO_output (io : IoMapping) (p : TProperty)
    (hp : p.binding.type = "zeebe:output") :
    findBusinessObject ⟨none, some io, none, none, none⟩ p =
      io.outputParameters.find? (fun en =>
        getFO en.fields (some "source") == p.binding.source) := by
  unfold findBusinessObject
  dsimp only
  rw [hp]
  rfl

/-- `findBusinessObject` resolves a task-header binding to a search of the
headers by key. -/
theorem findBO_header (hs : List Entry) (p : TProperty)
    (hp : p.binding.type = "zeebe:taskHeader") :
    findBusinessObject ⟨none, none, some hs, none, none⟩ p =
      hs.find? (fun en => getFO en.fields (some "key") == p.binding.key) := by
  unfold findBusinessObject
  dsimp only
  rw [hp]
  rfl

/-- `findBusinessObject` resolves a custom-property binding to a search of
the holder by name. -/
theorem findBO_zb (ps : List Entry) (p : TProperty)
    (hp : p.binding.type = "zeebe:property") :
    findBusinessObject ⟨none, none, none, some ps, none⟩ p =
      ps.find? (fun en => getFO en.fields (some "name") == p.binding.name) := by
  unfold findBusinessObject
  dsimp only
  rw [hp]
  rfl

/-- Skeleton of a keyed reconciliation loop: when every step preserves a
frame and rewrites each removal-candidate snapshot by removing its matched
node identity, and matched identities are present and pairwise distinct, the
loop drops every matched identity from the snapshots. -/
theorem keyedFoldSpec {β : Type} (step : β → TProperty → β)
    (proj1 proj2 : β → List Nat) (fix : β → Prop)
    (mtch1 mtch2 : TProperty → Option Nat) :
    ∀ (L : List TProperty) (acc : β),
      (∀ (b : β) (p : TProperty), p ∈ L → fix b →
         fix (step b p) ∧
         proj1 (step b p) = (match mtch1 p with
                             | some n => remove (proj1 b) n
                             | none => proj1 b) ∧
         proj2 (step b p) = (match mtch2 p with
                             | some n => remove (proj2 b) n
                             | none => proj2 b)) →
      fix acc → (proj1 acc).Nodup → (proj2 acc).Nodup →
      (∀ q ∈ L, ∀ n, mtch1 q = some n → n ∈ proj1 acc) →
      (∀ q ∈ L, ∀ n, mtch2 q = some n → n ∈ proj2 acc) →
      List.Pairwise (fun p q => ∀ n, mtch1 p = some n → mtch1 q ≠ some n) L →
      List.Pairwise (fun p q => ∀ n, mtch2 p = some n → mtch2 q ≠ some n) L →
      fix (L.foldl step acc) ∧
      (∀ n ∈ proj1 (L.foldl step acc), n ∈ proj1 acc ∧ ∀ q ∈ L, mtch1 q ≠ some n) ∧
      (∀ n ∈ proj2 (L.foldl step acc), n ∈ proj2 acc ∧ ∀ q ∈ L, mtch2 q ≠ some n) := by
  intro L
  induction L with
  | nil =>
    intro acc _ hfix _ _ _ _ _ _
    exact ⟨hfix, fun n hn => ⟨hn, by simp⟩, fun n hn => ⟨hn, by simp⟩⟩
  | cons p L ih =>
    intro acc hstep hfix hnd1 hnd2 hpres1 hpres2 hpw1 hpw2
    obtain ⟨hf, he1, he2⟩ := hstep acc p (List.mem_cons_self p L) hfix
    rw [List.foldl_cons]
    have hsub1 : ∀ n, n ∈ proj1 (step acc p) → n ∈ proj1 acc := by
      intro n hn
      rw [he1] at hn
      cases hm : mtch1 p with
      | none => rw [hm] at hn; exact hn
      | some n0 => rw [hm] at hn; exact remove_subset _ _ hn
    have hsub2 : ∀ n, n ∈ proj2 (step acc p) → n ∈ proj2 acc := by
      intro n hn
      rw [he2] at hn
      cases hm : mtch2 p with
      | none => rw [hm] at hn; exact hn
      | some n0 => rw [hm] at hn; exact remove_subset _ _ hn
    have hnd1' : (proj1 (step acc p)).Nodup := by
      rw [he1]
      cases hm : mtch1 p with
      | none => exact hnd1
      | some n0 => exact remove_nodup _ _ hnd1
    have hnd2' : (proj2 (step acc p)).Nodup := by
      rw [he2]
      cases hm : mtch2 p with
      | none => exact hnd2
      | some n0 => exact remove_nodup _ _ hnd2
    have hpres1' : ∀ q ∈ L, ∀ n, mtch1 q = some n → n ∈ proj1 (step acc p) := by
      intro q hq n hmq
      have hnacc := hpres1 q (List.mem_cons_of_mem _ hq) n hmq
      rw [he1]
      cases hm : mtch1 p with
      | none => exact hnacc
      | some n0 =>
        have hne : n ≠ n0 := by
          intro h
          subst h
          exact (List.pairwise_cons.1 hpw1).1 q hq n hm hmq
        show n ∈ remove (proj1 acc) n0
        rw [remove_mem _ _ (hpres1 p (List.mem_cons_self p L) n0 hm)]
        exact (List.mem_erase_of_ne hne).2 hnacc
    have hpres2' : ∀ q ∈ L, ∀ n, mtch2 q = some n → n ∈ proj2 (step acc p) := by
      intro q hq n hmq
      have hnacc := hpres2 q (List.mem_cons_of_mem _ hq) n hmq
      rw [he2]
      cases hm : mtch2 p with
      | none => exact hnacc
      | some n0 =>
        have hne : n ≠ n0 := by
          intro h
          subst h
          exact (List.pairwise_cons.1 hpw2).1 q hq n hm hmq
        show n ∈ remove (proj2 acc) n0
        rw [remove_mem _ _ (hpres2 p (List.mem_cons_self p L) n0 hm)]
        exact (List.mem_erase_of_ne hne).2 hnacc
    obtain ⟨ihfix, ih1, ih2⟩ := ih (step acc p)
      (fun b q hq hb => hstep b q (List.mem_cons_of_mem _ hq) hb)
      hf hnd1' hnd2' hpres1' hpres2'
      (List.pairwise_cons.1 hpw1).2 (List.pairwise_cons.1 hpw2).2
    refine ⟨ihfix, ?_, ?_⟩
    · intro n hn
      obtain ⟨hn', hq⟩ := ih1 n hn
      refine ⟨hsub1 n hn', ?_⟩
      intro q hq'
      rcases List.mem_cons.1 hq' with rfl | hmem
      · intro hcon
        rw [he1, hcon] at hn'
        have hn2 : n ∈ remove (proj1 acc) n := hn'
        rw [remove_mem _ _ (hpres1 q (List.mem_cons_self q L) n hcon)] at hn2
        exact ((List.Nodup.mem_erase_iff hnd1).1 hn2).1 rfl
      · exact hq q hmem
    · intro n hn
      obtain ⟨hn', hq⟩ := ih2 n hn
      refine ⟨hsub2 n hn', ?_⟩
      intro q hq'
      rcases List.mem_cons.1 hq' with rfl | hmem
      · intro hcon
        rw [he2, hcon] at hn'
        have hn2 : n ∈ remove (proj2 acc) n := hn'
        rw [remove_mem _ _ (hpres2 q (List.mem_cons_self q L) n hcon)] at hn2
        exact ((List.Nodup.mem_erase_iff hnd2).1 hn2).1 rfl
      · exact hq q hmem

/-- A holder search by a key its entries carry at most once finds the entry
carrying it. -/
theorem holder_find_self {l : List Entry} {keyF : String}
    (hknd : (l.map (fun en => getFO en.fields (some keyF))).Nodup)
    {en : Entry} (hen : en ∈ l) {k : Option String}
    (hkey : getFO en.fields (some keyF) = k) :
    l.find? (fun x => getFO x.fields (some keyF) == k) = some en := by
  apply find?_unique hen
  · simp [hkey]
  · intro b hb hpb
    have hb' : getFO b.fields (some keyF) = k := by simpa using hpb
    exact List.inj_on_of_nodup_map hknd hb hen (by rw [hb', hkey])

/-- An input-mapping property of a template is an io-mapping property. -/
theorem inputProps_sub_ioProps {T : Template} {q : TProperty}
    (h : q ∈ inputProps T) : q ∈ ioPropsOf T := by
  rcases List.mem_filter.1 h with ⟨hm, ht⟩
  refine List.mem_filter.2 ⟨hm, ?_⟩
  rw [ht]
  rfl

/-- An output-mapping property of a template is an io-mapping property. -/
theorem outputProps_sub_ioProps {T : Template} {q : TProperty}
    (h : q ∈ outputProps T) : q ∈ ioPropsOf T := by
  rcases List.mem_filter.1 h with ⟨hm, ht⟩
  refine List.mem_filter.2 ⟨hm, ?_⟩
  rw [ht]
  simp

/-- One io step of the second application: the holder and allocator are
untouched and each snapshot loses exactly the matched identity. -/
theorem processIoProperty_self (s : S) (T : Template) (io : IoMapping)
    (hndIn : ((inputProps T).map (fun q => q.binding.name)).Nodup)
    (hndOut : ((outputProps T).map (fun q => q.binding.source)).Nodup)
    (hup : ∀ q ∈ ioPropsOf T, shouldUpdate (getDefaultValue q) q = true)
    (hkIn : (io.inputParameters.map (fun en => getFO en.fields (some "target"))).Nodup)
    (hkOut : (io.outputParameters.map (fun en => getFO en.fields (some "source"))).Nodup)
    (hnIn : (io.inputParameters.map Entry.nid).Nodup)
    (hnOut : (io.outputParameters.map Entry.nid).Nodup)
    (hslotsIn : ∀ q ∈ inputProps T, ∀ en ∈ io.inputParameters,
       getFO en.fields (some "target") = q.binding.name →
       SlotOk (getFO en.fields (some "source")) q)
    (hslotsOut : ∀ q ∈ outputProps T, ∀ en ∈ io.outputParameters,
       getFO en.fields (some "source") = q.binding.source →
       SlotOk (getFO en.fields (some "target")) q)
    (hcovIn : ∀ q ∈ inputProps T, ∃ en ∈ io.inputParameters,
       getFO en.fields (some "target") = q.binding.name)
    (hcovOut : ∀ q ∈ outputProps T, ∃ en ∈ io.outputParameters,
       getFO en.fields (some "source") = q.binding.source)
    (b : IoAcc) (p : TProperty) (hp : p ∈ ioPropsOf T)
    (hb : b.io = io ∧ b.fresh = s.fresh) :
    ((processIoProperty (some T) b p).io = io ∧
       (processIoProperty (some T) b p).fresh = s.fresh) ∧
    (processIoProperty (some T) b p).oldInputs =
      (match ioMatchIn io p with
       | some n => remove b.oldInputs n
       | none => b.oldInputs) ∧
    (processIoProperty (some T) b p).oldOutputs =
      (match ioMatchOut io p with
       | some n => remove b.oldOutputs n
       | none => b.oldOutputs) := by
  have hmemT : p ∈ T.properties := (List.mem_filter.1 hp).1
  have hkind := (List.mem_filter.1 hp).2
  rw [Bool.or_eq_true] at hkind
  rcases hkind with hin | hout
  · have htin : p.binding.type = "zeebe:input" := by simpa using hin
    have hpin : p ∈ inputProps T := List.mem_filter.2 ⟨hmemT, by rw [htin]; rfl⟩
    obtain ⟨en, hen, hkey⟩ := hcovIn p hpin
    have hfind := holder_find_self hkIn hen hkey
    have hmi : ioMatchIn io p = some en.nid := by
      unfold ioMatchIn
      rw [htin]
      simp [hfind]
    have hmo : ioMatchOut io p = none := by
      unfold ioMatchOut
      rw [htin]
      rfl
    unfold processIoProperty
    dsimp only
    rw [hb.1, findBO_input io p htin, hfind, hmi, hmo,
      findOld_self_input T p hndIn hpin, hup p hp]
    dsimp only
    simp only [Bool.true_or, reduceIte, htin, beq_self_eq_true, String.reduceBEq]
    rcases keep_or_default_self en.fields "source" p (getPV_input en.fields p htin)
        (hslotsIn p hpin en hen hkey) with hkeep | hdef
    · rw [hkeep]
      simp only [reduceIte]
      simp [hb.1, hb.2]
    · by_cases hkeep : shouldKeepValue (some en.fields) (some p) p = true
      · rw [hkeep]
        simp only [reduceIte]
        simp [hb.1, hb.2]
      · simp only [hkeep, Bool.false_eq_true, reduceIte]
        have he2 : (⟨en.nid, setFO en.fields (some "source") (getDefaultValue p)⟩ : Entry) = en := by
          rw [setFO_of_getFO _ _ _ hdef]
        rw [map_if_nid_self hnIn hen he2]
        simp [hb.1, hb.2]
  · have htout : p.binding.type = "zeebe:output" := by simpa using hout
    have hpout : p ∈ outputProps T := List.mem_filter.2 ⟨hmemT, by rw [htout]; rfl⟩
    obtain ⟨en, hen, hkey⟩ := hcovOut p hpout
    have hfind := holder_find_self hkOut hen hkey
    have hmi : ioMatchIn io p = none := by
      unfold ioMatchIn
      rw [htout]
      rfl
    have hmo : ioMatchOut io p = some en.nid := by
      unfold ioMatchOut
      rw [htout]
      simp [hfind]
    unfold processIoProperty
    dsimp only
    rw [hb.1, findBO_output io p htout, hfind, hmi, hmo,
      findOld_self_output T p hndOut hpout, hup p hp]
    dsimp only
    simp only [Bool.true_or, reduceIte, htout, beq_self_eq_true, String.reduceBEq]
    rcases keep_or_default_self en.fields "target" p (getPV_output en.fields p htout)
        (hslotsOut p hpout en hen hkey) with hkeep | hdef
    · rw [hkeep]
      simp only [reduceIte]
      simp [hb.1, hb.2]
    · by_cases hkeep : shouldKeepValue (some en.fields) (some p) p = true
      · rw [hkeep]
        simp only [reduceIte]
        simp [hb.1, hb.2]
      · simp only [hkeep, Bool.false_eq_true, reduceIte]
        have he2 : (⟨en.nid, setFO en.fields (some "target") (getDefaultValue p)⟩ : Entry) = en := by
          rw [setFO_of_getFO _ _ _ hdef]
        rw [map_if_nid_self hnOut hen he2]
        simp [hb.1, hb.2]

/-- The io-mapping family of the second application leaves the state
unchanged. -/
theorem updateZeebeIo_self (s : S) (T : Template)
    (hndIn : ((inputProps T).map (fun q => q.binding.name)).Nodup)
    (hndOut : ((outputProps T).map (fun q => q.binding.source)).Nodup)
    (hup : ∀ q ∈ ioPropsOf T, shouldUpdate (getDefaultValue q) q = true)
    (hok : IoOk s T) :
    (updateZeebeInputOutputParameterProperties s (some T) T).1 = s := by
  unfold IoOk at hok
  cases hse : s.ext with
  | none => rw [hse] at hok; exact absurd hok not_false
  | some e =>
    rw [hse] at hok
    unfold updateZeebeInputOutputParameterProperties ensureElementExt
    dsimp only
    rw [hse]
    dsimp only
    rw [show T.properties.filter (fun p =>
        p.binding.type == "zeebe:input" || p.binding.type == "zeebe:output") =
        ioPropsOf T from rfl]
    by_cases hempty : ioPropsOf T = []
    · have hion : e.ioMapping = none := hok.1 hempty
      rw [hion]
      dsimp only
      rw [hempty]
      simp only [List.isEmpty_nil, reduceIte]
    · rcases hok.2 hempty with ⟨io, hio, hHin, hHout, hcovIn, hcovOut⟩
      obtain ⟨hkIn, ⟨hnIn, hbIn⟩, hclaimIn, hslotsIn⟩ := hHin
      obtain ⟨hkOut, ⟨hnOut, hbOut⟩, hclaimOut, hslotsOut⟩ := hHout
      rw [hio]
      dsimp only
      have hne : (ioPropsOf T).isEmpty = false := by
        cases h : ioPropsOf T with
        | nil => exact absurd h hempty
        | cons a l => rfl
      rw [hne]
      simp only [Bool.false_eq_true, reduceIte]
      unfold ioLoopAndCleanup
      dsimp only
      have hpw1 : List.Pairwise (fun p q => ∀ n,
          ioMatchIn io p = some n → ioMatchIn io q ≠ some n) (ioPropsOf T) := by
        have base : (T.properties.filter (fun p => p.binding.type == "zeebe:input")).Pairwise
            (fun p q => p.binding.name ≠ q.binding.name) := List.pairwise_map.1 hndIn
        have guard := pairwise_of_filter base
        have lift : (T.properties.filter (fun p =>
            p.binding.type == "zeebe:input" || p.binding.type == "zeebe:output")).Pairwise
            (fun a c => (a.binding.type == "zeebe:input") = true →
              (c.binding.type == "zeebe:input") = true → a.binding.name ≠ c.binding.name) :=
          List.Pairwise.sublist (List.filter_sublist _) guard
        refine List.Pairwise.imp ?_ lift
        intro a c hac n han hcn
        unfold ioMatchIn at han hcn
        by_cases hat : (a.binding.type == "zeebe:input") = true
        · by_cases hct : (c.binding.type == "zeebe:input") = true
          · rw [if_pos hat] at han
            rw [if_pos hct] at hcn
            obtain ⟨e1, hf1, hn1⟩ := Option.map_eq_some'.1 han
            obtain ⟨e2, hf2, hn2⟩ := Option.map_eq_some'.1 hcn
            have hm1 := List.mem_of_find?_eq_some hf1
            have hm2 := List.mem_of_find?_eq_some hf2
            have h12 : e1 = e2 := nid_inj hnIn hm1 hm2 (by rw [hn1, hn2])
            have hk1 : getFO e1.fields (some "target") = a.binding.name := by
              simpa using List.find?_some hf1
            have hk2 : getFO e2.fields (some "target") = c.binding.name := by
              simpa using List.find?_some hf2
            exact hac hat hct (by rw [← hk1, h12, hk2])
          · rw [if_neg hct] at hcn
            exact Option.noConfusion hcn
        · rw [if_neg hat] at han
          exact Option.noConfusion han
      have hpw2 : List.Pairwise (fun p q => ∀ n,
          ioMatchOut io p = some n → ioMatchOut io q ≠ some n) (ioPropsOf T) := by
        have base : (T.properties.filter (fun p => p.binding.type == "zeebe:output")).Pairwise
            (fun p q => p.binding.source ≠ q.binding.source) := List.pairwise_map.1 hndOut
        have guard := pairwise_of_filter base
        have lift : (T.properties.filter (fun p =>
            p.binding.type == "zeebe:input" || p.binding.type == "zeebe:output")).Pairwise
            (fun a c => (a.binding.type == "zeebe:output") = true →
              (c.binding.type == "zeebe:output") = true → a.binding.source ≠ c.binding.source) :=
          List.Pairwise.sublist (List.filter_sublist _) guard
        refine List.Pairwise.imp ?_ lift
        intro a c hac n han hcn
        unfold ioMatchOut at han hcn
        by_cases hat : (a.binding.type == "zeebe:output") = true
        · by_cases hct : (c.binding.type == "zeebe:output") = true
          · rw [if_pos hat] at han
            rw [if_pos hct] at hcn
            obtain ⟨e1, hf1, hn1⟩ := Option.map_eq_some'.1 han
            obtain ⟨e2, hf2, hn2⟩ := Option.map_eq_some'.1 hcn
            have hm1 := List.mem_of_find?_eq_some hf1
            have hm2 := List.mem_of_find?_eq_some hf2
            have h12 : e1 = e2 := nid_inj hnOut hm1 hm2 (by rw [hn1, hn2])
            have hk1 : getFO e1.fields (some "source") = a.binding.source := by
              simpa using List.find?_some hf1
            have hk2 : getFO e2.fields (some "source") = c.binding.source := by
              simpa using List.find?_some hf2
            exact hac hat hct (by rw [← hk1, h12, hk2])
          · rw [if_neg hct] at hcn
            exact Option.noConfusion hcn
        · rw [if_neg hat] at han
          exact Option.noConfusion han
      have hpres1 : ∀ q ∈ ioPropsOf T, ∀ n, ioMatchIn io q = some n →
          n ∈ io.inputParameters.map Entry.nid := by
        intro q _ n hm
        unfold ioMatchIn at hm
        by_cases hqt : (q.binding.type == "zeebe:input") = true
        · rw [if_pos hqt] at hm
          obtain ⟨e1, hf1, hn1⟩ := Option.map_eq_some'.1 hm
          exact hn1 ▸ List.mem_map_of_mem _ (List.mem_of_find?_eq_some hf1)
        · rw [if_neg hqt] at hm
          exact absurd hm (Option.noConfusion)
      have hpres2 : ∀ q ∈ ioPropsOf T, ∀ n, ioMatchOut io q = some n →
          n ∈ io.outputParameters.map Entry.nid := by
        intro q _ n hm
        unfold ioMatchOut at hm
        by_cases hqt : (q.binding.type == "zeebe:output") = true
        · rw [if_pos hqt] at hm
          obtain ⟨e1, hf1, hn1⟩ := Option.map_eq_some'.1 hm
          exact hn1 ▸ List.mem_map_of_mem _ (List.mem_of_find?_eq_some hf1)
        · rw [if_neg hqt] at hm
          exact absurd hm (Option.noConfusion)
      obtain ⟨⟨hfio, hffresh⟩, hmem1, hmem2⟩ := keyedFoldSpec
        (processIoProperty (some T)) IoAcc.oldInputs IoAcc.oldOutputs
        (fun b => b.io = io ∧ b.fresh = s.fresh) (ioMatchIn io) (ioMatchOut io)
        (ioPropsOf T)
        ⟨io, io.inputParameters.map Entry.nid, io.outputParameters.map Entry.nid, s.fresh, []⟩
        (fun b p hp hb => processIoProperty_self s T io hndIn hndOut hup hkIn hkOut
          hnIn hnOut hslotsIn hslotsOut hcovIn hcovOut b p hp hb)
        ⟨rfl, rfl⟩ hnIn hnOut hpres1 hpres2 hpw1 hpw2
      set A := List.foldl (processIoProperty (some T))
        ⟨io, io.inputParameters.map Entry.nid, io.outputParameters.map Entry.nid, s.fresh, []⟩
        (ioPropsOf T) with hA
      have hin0 : A.oldInputs = [] := by
        rw [List.eq_nil_iff_forall_not_mem]
        intro n hn
        obtain ⟨hinit, hall⟩ := hmem1 n hn
        obtain ⟨en, hen, hnid⟩ := List.mem_map.1 hinit
        obtain ⟨q, hq, hqkey⟩ := hclaimIn en hen
        have hqt : q.binding.type = "zeebe:input" := by
          have := (List.mem_filter.1 hq).2
          simpa using this
        have hfind := holder_find_self hkIn hen hqkey
        have hmq : ioMatchIn io q = some en.nid := by
          unfold ioMatchIn
          rw [hqt]
          simp [hfind]
        exact hall q (inputProps_sub_ioProps hq) (by rw [hmq, hnid])
      have hout0 : A.oldOutputs = [] := by
        rw [List.eq_nil_iff_forall_not_mem]
        intro n hn
        obtain ⟨hinit, hall⟩ := hmem2 n hn
        obtain ⟨en, hen, hnid⟩ := List.mem_map.1 hinit
        obtain ⟨q, hq, hqkey⟩ := hclaimOut en hen
        have hqt : q.binding.type = "zeebe:output" := by
          have := (List.mem_filter.1 hq).2
          simpa using this
        have hfind := holder_find_self hkOut hen hqkey
        have hmq : ioMatchOut io q = some en.nid := by
          unfold ioMatchOut
          rw [hqt]
          simp [hfind]
        exact hall q (outputProps_sub_ioProps hq) (by rw [hmq, hnid])
      rw [hin0, hout0]
      simp only [List.isEmpty_nil, reduceIte]
      rw [hfio, hffresh]
      have he2 : ({ e with ioMapping := some io } : Ext) = e := by rw [← hio]
      rw [he2, ← hse]

/-- A trivially universal relation is pairwise on every list. -/
theorem pairwise_trivial {α : Type} {R : α → α → Prop} (h : ∀ a b, R a b)
    (l : List α) : l.Pairwise R := by
  induction l with
  | nil => exact List.Pairwise.nil
  | cons x xs ih => exact List.Pairwise.cons (fun b _ => h x b) ih

/-- One task-header step of the second application: the holder and allocator
are untouched and the snapshot loses exactly the matched identity. -/
theorem processHeaderProperty_self (s : S) (T : Template) (hs : List Entry)
    (hnd : ((headerPropsOf T).map (fun q => q.binding.key)).Nodup)
    (hkeys : (hs.map (fun en => getFO en.fields (some "key"))).Nodup)
    (hnids : (hs.map Entry.nid).Nodup)
    (hslots : ∀ q ∈ headerPropsOf T, ∀ en ∈ hs,
       getFO en.fields (some "key") = q.binding.key →
       SlotOk (getFO en.fields (some "value")) q)
    (hexist : ∀ q ∈ headerPropsOf T, truthy (getDefaultValue q) = true →
       ∃ en ∈ hs, getFO en.fields (some "key") = q.binding.key)
    (b : HAcc) (p : TProperty) (hp : p ∈ headerPropsOf T)
    (hb : b.headers = hs ∧ b.fresh = s.fresh) :
    ((processHeaderProperty (some T) b p).headers = hs ∧
       (processHeaderProperty (some T) b p).fresh = s.fresh) ∧
    (processHeaderProperty (some T) b p).oldHeaders =
      (match hdMatch hs p with
       | some n => remove b.oldHeaders n
       | none => b.oldHeaders) ∧
    ((fun (_ : HAcc) => ([] : List Nat)) (processHeaderProperty (some T) b p) =
      (match (none : Option Nat) with
       | some n => remove ((fun (_ : HAcc) => ([] : List Nat)) b) n
       | none => (fun (_ : HAcc) => ([] : List Nat)) b)) := by
  have hmemT : p ∈ T.properties := (List.mem_filter.1 hp).1
  have htp : p.binding.type = "zeebe:taskHeader" := by
    have := (List.mem_filter.1 hp).2
    simpa using this
  cases hfind : hs.find? (fun en => getFO en.fields (some "key") == p.binding.key) with
  | none =>
    have hmt : hdMatch hs p = none := by
      unfold hdMatch
      rw [hfind]
      rfl
    have htr : truthy (getDefaultValue p) = false := by
      by_contra hcon
      rcases Bool.eq_false_or_eq_true (truthy (getDefaultValue p)) with h | h
      · obtain ⟨en, hen, hkey⟩ := hexist p hp h
        exact (List.find?_eq_none.1 hfind) en hen (by simp [hkey])
      · exact hcon h
    unfold processHeaderProperty
    dsimp only
    rw [hb.1, findBO_header hs p htp, hfind, hmt, htr]
    dsimp only
    simp [hb.1, hb.2]
  | some en =>
    have hen : en ∈ hs := List.mem_of_find?_eq_some hfind
    have hkey : getFO en.fields (some "key") = p.binding.key := by
      simpa using List.find?_some hfind
    have hmt : hdMatch hs p = some en.nid := by
      unfold hdMatch
      rw [hfind]
      rfl
    unfold processHeaderProperty
    dsimp only
    rw [hb.1, findBO_header hs p htp, hfind, hmt,
      findOld_self_header T p hnd hp]
    dsimp only
    rcases keep_or_default_self en.fields "value" p (getPV_header en.fields p htp)
        (hslots p hp en hen hkey) with hkeep | hdef
    · rw [hkeep]
      simp only [reduceIte]
      simp [hb.1, hb.2]
    · by_cases hkeep : shouldKeepValue (some en.fields) (some p) p = true
      · rw [hkeep]
        simp only [reduceIte]
        simp [hb.1, hb.2]
      · simp only [hkeep, Bool.false_eq_true, reduceIte]
        have he2 : (⟨en.nid, setFO en.fields (some "value") (getDefaultValue p)⟩ : Entry) = en := by
          rw [setFO_of_getFO _ _ _ hdef]
        rw [map_if_nid_self hnids hen he2]
        simp [hb.1, hb.2]

/-- The task-header family of the second application leaves the state
unchanged. -/
theorem updateZeebeTaskHeaders_self (s : S) (T : Template)
    (hnd : ((headerPropsOf T).map (fun q => q.binding.key)).Nodup)
    (hok : HdOk s T) :
    (updateZeebeTaskHeaderProperties s (some T) T).1 = s := by
  unfold HdOk at hok
  cases hse : s.ext with
  | none => rw [hse] at hok; exact absurd hok not_false
  | some e =>
    rw [hse] at hok
    unfold updateZeebeTaskHeaderProperties ensureElementExt
    dsimp only
    rw [hse]
    dsimp only
    rw [show T.properties.filter (fun p => p.binding.type == "zeebe:taskHeader") =
        headerPropsOf T from rfl]
    by_cases hempty : headerPropsOf T = []
    · have hthn : e.taskHeaders = none := hok.1 hempty
      rw [hthn]
      dsimp only
      rw [hempty]
      simp only [List.isEmpty_nil, reduceIte]
    · rcases hok.2 hempty with ⟨hs, hths, hH, hexist⟩
      obtain ⟨hkeys, ⟨hnids, hbnd⟩, hclaim, hslots⟩ := hH
      rw [hths]
      dsimp only
      have hne : (headerPropsOf T).isEmpty = false := by
        cases h : headerPropsOf T with
        | nil => exact absurd h hempty
        | cons a l => rfl
      rw [hne]
      simp only [Bool.false_eq_true, reduceIte]
      unfold headerLoopAndCleanup
      dsimp only
      have hpw1 : List.Pairwise (fun p q => ∀ n,
          hdMatch hs p = some n → hdMatch hs q ≠ some n) (headerPropsOf T) := by
        have base : (headerPropsOf T).Pairwise
            (fun p q => p.binding.key ≠ q.binding.key) := List.pairwise_map.1 hnd
        refine List.Pairwise.imp ?_ base
        intro a c hac n han hcn
        unfold hdMatch at han hcn
        obtain ⟨e1, hf1, hn1⟩ := Option.map_eq_some'.1 han
        obtain ⟨e2, hf2, hn2⟩ := Option.map_eq_some'.1 hcn
        have hm1 := List.mem_of_find?_eq_some hf1
        have hm2 := List.mem_of_find?_eq_some hf2
        have h12 : e1 = e2 := nid_inj hnids hm1 hm2 (by rw [hn1, hn2])
        have hk1 : getFO e1.fields (some "key") = a.binding.key := by
          simpa using List.find?_some hf1
        have hk2 : getFO e2.fields (some "key") = c.binding.key := by
          simpa using List.find?_some hf2
        exact hac (by rw [← hk1, h12, hk2])
      have hpres1 : ∀ q ∈ headerPropsOf T, ∀ n, hdMatch hs q = some n →
          n ∈ hs.map Entry.nid := by
        intro q _ n hm
        unfold hdMatch at hm
        obtain ⟨e1, hf1, hn1⟩ := Option.map_eq_some'.1 hm
        exact hn1 ▸ List.mem_map_of_mem _ (List.mem_of_find?_eq_some hf1)
      obtain ⟨⟨hfhs, hffresh⟩, hmem1, _⟩ := keyedFoldSpec
        (processHeaderProperty (some T)) HAcc.oldHeaders (fun _ => ([] : List Nat))
        (fun b => b.headers = hs ∧ b.fresh = s.fresh) (hdMatch hs) (fun _ => none)
        (headerPropsOf T)
        ⟨hs, hs.map Entry.nid, s.fresh, []⟩
        (fun b p hp hb => processHeaderProperty_self s T hs hnd hkeys hnids
          hslots hexist b p hp hb)
        ⟨rfl, rfl⟩ hnids List.nodup_nil hpres1
        (fun q _ n hm => absurd hm (by simp)) hpw1
        (pairwise_trivial (fun a c n hm => absurd hm (by simp)) _)
      set A := List.foldl (processHeaderProperty (some T))
        ⟨hs, hs.map Entry.nid, s.fresh, []⟩ (headerPropsOf T) with hA
      have hh0 : A.oldHeaders = [] := by
        rw [List.eq_nil_iff_forall_not_mem]
        intro n hn
        obtain ⟨hinit, hall⟩ := hmem1 n hn
        obtain ⟨en, hen, hnid⟩ := List.mem_map.1 hinit
        obtain ⟨q, hq, hqkey⟩ := hclaim en hen
        have hfind := holder_find_self hkeys hen hqkey
        have hmq : hdMatch hs q = some en.nid := by
          unfold hdMatch
          rw [hfind]
          rfl
        exact hall q hq (by rw [hmq, hnid])
      rw [hh0]
      simp only [List.isEmpty_nil, reduceIte]
      rw [hfhs, hffresh]
      have he2 : ({ e with taskHeaders := some hs } : Ext) = e := by rw [← hths]
      rw [he2, ← hse]

/-- One custom-property step of the second application: the holder and
allocator are untouched and the snapshot loses exactly the matched
identity. -/
theorem processZeebeProperty_self (s : S) (T : Template) (ps : List Entry)
    (hnd : ((zbPropsOf T).map (fun q => q.binding.name)).Nodup)
    (hup : ∀ q ∈ zbPropsOf T, shouldUpdate (getDefaultValue q) q = true)
    (hkeys : (ps.map (fun en => getFO en.fields (some "name"))).Nodup)
    (hnids : (ps.map Entry.nid).Nodup)
    (hslots : ∀ q ∈ zbPropsOf T, ∀ en ∈ ps,
       getFO en.fields (some "name") = q.binding.name →
       SlotOk (getFO en.fields (some "value")) q)
    (hcov : ∀ q ∈ zbPropsOf T, ∃ en ∈ ps,
       getFO en.fields (some "name") = q.binding.name)
    (b : ZAcc) (p : TProperty) (hp : p ∈ zbPropsOf T)
    (hb : b.props = ps ∧ b.fresh = s.fresh) :
    ((processZeebeProperty (some T) b p).props = ps ∧
       (processZeebeProperty (some T) b p).fresh = s.fresh) ∧
    (processZeebeProperty (some T) b p).oldProps =
      (match zbMatch ps p with
       | some n => remove b.oldProps n
       | none => b.oldProps) ∧
    ((fun (_ : ZAcc) => ([] : List Nat)) (processZeebeProperty (some T) b p) =
      (match (none : Option Nat) with
       | some n => remove ((fun (_ : ZAcc) => ([] : List Nat)) b) n
       | none => (fun (_ : ZAcc) => ([] : List Nat)) b)) := by
  have hmemT : p ∈ T.properties := (List.mem_filter.1 hp).1
  have htp : p.binding.type = "zeebe:property" := by
    have := (List.mem_filter.1 hp).2
    simpa using this
  obtain ⟨en, hen, hkey⟩ := hcov p hp
  have hfind := holder_find_self hkeys hen hkey
  have hmt : zbMatch ps p = some en.nid := by
    unfold zbMatch
    rw [hfind]
    rfl
  unfold processZeebeProperty
  dsimp only
  rw [hb.1, findBO_zb ps p htp, hfind, hmt,
    findOld_self_zb T p hnd hp, hup p hp]
  dsimp only
  simp only [Bool.true_or, reduceIte]
  rcases keep_or_default_self en.fields "value" p (getPV_zb en.fields p htp)
      (hslots p hp en hen hkey) with hkeep | hdef
  · rw [hkeep]
    simp only [reduceIte]
    simp [hb.1, hb.2]
  · by_cases hkeep : shouldKeepValue (some en.fields) (some p) p = true
    · rw [hkeep]
      simp only [reduceIte]
      simp [hb.1, hb.2]
    · simp only [hkeep, Bool.false_eq_true, reduceIte]
      have he2 : (⟨en.nid, setFO en.fields (some "value") (getDefaultValue p)⟩ : Entry) = en := by
        rw [setFO_of_getFO _ _ _ hdef]
      rw [map_if_nid_self hnids hen he2]
      simp [hb.1, hb.2]

/-- The custom-property family of the second application leaves the state
unchanged. -/
theorem updateZeebeProps_self (s : S) (T : Template)
    (hnd : ((zbPropsOf T).map (fun q => q.binding.name)).Nodup)
    (hup : ∀ q ∈ zbPropsOf T, shouldUpdate (getDefaultValue q) q = true)
    (hok : ZbOk s T) :
    (updateZeebePropertyProperties s (some T) T).1 = s := by
  unfold ZbOk at hok
  cases hse : s.ext with
  | none => rw [hse] at hok; exact absurd hok not_false
  | some e =>
    rw [hse] at hok
    unfold updateZeebePropertyProperties ensureElementExt
    dsimp only
    rw [hse]
    dsimp only
    rw [show T.properties.filter (fun p => p.binding.type == "zeebe:property") =
        zbPropsOf T from rfl]
    by_cases hempty : zbPropsOf T = []
    · have hzn : e.zeebeProperties = none := hok.1 hempty
      rw [hzn]
      dsimp only
      rw [hempty]
      simp only [List.isEmpty_nil, reduceIte]
    · rcases hok.2 hempty with ⟨ps, hps, hH, hcov⟩
      obtain ⟨hkeys, ⟨hnids, hbnd⟩, hclaim, hslots⟩ := hH
      rw [hps]
      dsimp only
      have hne : (zbPropsOf T).isEmpty = false := by
        cases h : zbPropsOf T with
        | nil => exact absurd h hempty
        | cons a l => rfl
      rw [hne]
      simp only [Bool.false_eq_true, reduceIte]
      unfold zeebePropsLoopAndCleanup
      dsimp only
      have hpw1 : List.Pairwise (fun p q => ∀ n,
          zbMatch ps p = some n → zbMatch ps q ≠ some n) (zbPropsOf T) := by
        have base : (zbPropsOf T).Pairwise
            (fun p q => p.binding.name ≠ q.binding.name) := List.pairwise_map.1 hnd
        refine List.Pairwise.imp ?_ base
        intro a c hac n han hcn
        unfold zbMatch at han hcn
        obtain ⟨e1, hf1, hn1⟩ := Option.map_eq_some'.1 han
        obtain ⟨e2, hf2, hn2⟩ := Option.map_eq_some'.1 hcn
        have hm1 := List.mem_of_find?_eq_some hf1
        have hm2 := List.mem_of_find?_eq_some hf2
        have h12 : e1 = e2 := nid_inj hnids hm1 hm2 (by rw [hn1, hn2])
        have hk1 : getFO e1.fields (some "name") = a.binding.name := by
          simpa using List.find?_some hf1
        have hk2 : getFO e2.fields (some "name") = c.binding.name := by
          simpa using List.find?_some hf2
        exact hac (by rw [← hk1, h12, hk2])
      have hpres1 : ∀ q ∈ zbPropsOf T, ∀ n, zbMatch ps q = some n →
          n ∈ ps.map Entry.nid := by
        intro q _ n hm
        unfold zbMatch at hm
        obtain ⟨e1, hf1, hn1⟩ := Option.map_eq_some'.1 hm
        exact hn1 ▸ List.mem_map_of_mem _ (List.mem_of_find?_eq_some hf1)
      obtain ⟨⟨hfps, hffresh⟩, hmem1, _⟩ := keyedFoldSpec
        (processZeebeProperty (some T)) ZAcc.oldProps (fun _ => ([] : List Nat))
        (fun b => b.props = ps ∧ b.fresh = s.fresh) (zbMatch ps) (fun _ => none)
        (zbPropsOf T)
        ⟨ps, ps.map Entry.nid, s.fresh, []⟩
        (fun b p hp hb => processZeebeProperty_self s T ps hnd hup hkeys hnids
          hslots hcov b p hp hb)
        ⟨rfl, rfl⟩ hnids List.nodup_nil hpres1
        (fun q _ n hm => absurd hm (by simp)) hpw1
        (pairwise_trivial (fun a c n hm => absurd hm (by simp)) _)
      set A := List.foldl (processZeebeProperty (some T))
        ⟨ps, ps.map Entry.nid, s.fresh, []⟩ (zbPropsOf T) with hA
      have hh0 : A.oldProps = [] := by
        rw [List.eq_nil_iff_forall_not_mem]
        intro n hn
        obtain ⟨hinit, hall⟩ := hmem1 n hn
        obtain ⟨en, hen, hnid⟩ := List.mem_map.1 hinit
        obtain ⟨q, hq, hqkey⟩ := hclaim en hen
        have hfind := holder_find_self hkeys hen hqkey
        have hmq : zbMatch ps q = some en.nid := by
          unfold zbMatch
          rw [hfind]
          rfl
        exact hall q hq (by rw [hmq, hnid])
      rw [hh0]
      simp only [List.isEmpty_nil, reduceIte]
      rw [hfps, hffresh]
      have he2 : ({ e with zeebeProperties := some ps } : Ext) = e := by rw [← hps]
      rw [he2, ← hse]

/-- A template with a message property has message properties. -/
theorem hasMessageProperties_of_msg (T : Template) (h : msgPropsOf T ≠ []) :
    hasMessageProperties T = true := by
  cases hm : msgPropsOf T with
  | nil => exact absurd hm h
  | cons p l =>
    have hp : p ∈ msgPropsOf T := by rw [hm]; exact List.mem_cons_self p l
    have hmemT : p ∈ T.properties := (List.mem_filter.1 hp).1
    have htp : p.binding.type = MESSAGE_PROPERTY_TYPE := by
      have := (List.mem_filter.1 hp).2
      simpa using this
    refine List.any_eq_true.2 ⟨p, hmemT, ?_⟩
    rw [htp]
    rfl

/-- A template with a subscription property has message properties. -/
theorem hasMessageProperties_of_sub (T : Template) (h : subPropsOf T ≠ []) :
    hasMessageProperties T = true := by
  cases hm : subPropsOf T with
  | nil => exact absurd hm h
  | cons p l =>
    have hp : p ∈ subPropsOf T := by rw [hm]; exact List.mem_cons_self p l
    have hmemT : p ∈ T.properties := (List.mem_filter.1 hp).1
    have htp : p.binding.type = MESSAGE_ZEEBE_SUBSCRIPTION_PROPERTY_TYPE := by
      have := (List.mem_filter.1 hp).2
      simpa using this
    refine List.any_eq_true.2 ⟨p, hmemT, ?_⟩
    rw [htp]
    rfl

/-- Folding same-valued writes over an attribute map is the identity. -/
theorem foldl_setFO_id (pairs : List (Option String × Option String)) (f : FieldMap)
    (h : ∀ kv ∈ pairs, getFO f kv.1 = kv.2) :
    pairs.foldl (fun m kv => setFO m kv.1 kv.2) f = f := by
  induction pairs with
  | nil => rfl
  | cons kv rest ih =>
    rw [List.foldl_cons]
    have hkv : setFO f kv.1 kv.2 = f := by
      cases hk : kv.1 with
      | none => rfl
      | some k =>
        apply setFO_of_getFO
        rw [← hk]
        exact h kv (List.mem_cons_self kv rest)
    rw [hkv]
    exact ih (fun kv' hkv' => h kv' (List.mem_cons_of_mem _ hkv'))

/-- One message-property step of the second application leaves the state
unchanged. -/
theorem processMessageProperty_self (s : S) (T : Template) (m : Msg)
    (hmsg : s.msg = some m)
    (hnd : ((msgPropsOf T).map (fun q => q.binding.name)).Nodup)
    (hsome : ∀ q ∈ msgPropsOf T, q.binding.name.isSome = true)
    (hslots : ∀ q ∈ msgPropsOf T, SlotOk (getFO m.node.fields q.binding.name) q)
    (acc : S × List Cmd) (p : TProperty) (hp : p ∈ msgPropsOf T)
    (hacc : acc.1 = s) :
    (processMessageProperty (some T) acc p).1 = s := by
  have htp : p.binding.type = MESSAGE_PROPERTY_TYPE := by
    have := (List.mem_filter.1 hp).2
    simpa using this
  obtain ⟨k, hk⟩ := Option.isSome_iff_exists.1 (hsome p hp)
  have hslot : getPropertyValue (some m.node.fields) p = getFO m.node.fields (some k) := by
    rw [getPV_msg _ _ htp, hk]
  have hsok : SlotOk (getFO m.node.fields (some k)) p := by
    have := hslots p hp
    rwa [hk] at this
  unfold processMessageProperty
  dsimp only
  rw [hacc, hmsg]
  simp only [Option.map_some']
  rw [findOld_self_msg T p hnd hp]
  rcases keep_or_default_self m.node.fields k p hslot hsok with hkeep | hdef
  · simp [hkeep, hacc]
  · by_cases hkeep : shouldKeepValue (some m.node.fields) (some p) p = true
    · simp [hkeep, hacc]
    · simp only [hkeep, Bool.false_eq_true, reduceIte]
      rw [hk, setFO_of_getFO _ _ _ hdef]
      rw [show ({ m with node := ⟨m.node.nid, m.node.fields⟩ } : Msg) = m from rfl, ← hmsg]

/-- The message-property family of the second application leaves the state
unchanged. -/
theorem updateMessageProperties_self (s : S) (T : Template)
    (hnd : ((msgPropsOf T).map (fun q => q.binding.name)).Nodup)
    (hsome : ∀ q ∈ msgPropsOf T, q.binding.name.isSome = true)
    (hok : MsgOk s T) :
    (updateMessageProperties s (some T) T).1 = s := by
  unfold updateMessageProperties
  dsimp only
  rw [removalSelf_msg T]
  rw [show T.properties.filter (fun p => p.binding.type == MESSAGE_PROPERTY_TYPE) =
      msgPropsOf T from rfl]
  by_cases hempty : msgPropsOf T = []
  · rw [hempty]
    simp only [List.isEmpty_nil, reduceIte]
    cases hmsg : s.msg with
    | none => rfl
    | some m => rfl
  · obtain ⟨m, hmsg, hstamp, hslots, _⟩ :=
      hok.2 (hasMessageProperties_of_msg T hempty)
    have hne : (msgPropsOf T).isEmpty = false := by
      cases h : msgPropsOf T with
      | nil => exact absurd h hempty
      | cons a l => rfl
    rw [hne]
    simp only [Bool.false_eq_true, reduceIte]
    rw [hmsg]
    dsimp only
    simp only [List.foldl_nil]
    unfold getOrCreateMessage
    dsimp only
    rw [hmsg]
    dsimp only
    exact foldl_invariant_mem (fun acc => acc.1 = s) _ _
      (fun acc p hp hacc =>
        processMessageProperty_self s T m hmsg hnd hsome hslots acc p hp hacc)
      (s, [] ++ []) rfl

/-- The subscription family of the second application leaves the state
unchanged. -/
theorem updateMessageSub_self (s : S) (T : Template)
    (hnd : ((subPropsOf T).map (fun q => q.binding.name)).Nodup)
    (hsome : ∀ q ∈ subPropsOf T, q.binding.name.isSome = true)
    (hok : MsgOk s T) :
    (updateMessageZeebeSubscriptionProperties s (some T) T).1 = s := by
  unfold updateMessageZeebeSubscriptionProperties
  dsimp only
  rw [removalSelf_sub T]
  rw [show T.properties.filter (fun p =>
      p.binding.type == MESSAGE_ZEEBE_SUBSCRIPTION_PROPERTY_TYPE) =
      subPropsOf T from rfl]
  by_cases hempty : subPropsOf T = []
  · rw [hempty]
    rfl
  · obtain ⟨m, hmsg, hstamp, _, hsub⟩ :=
      hok.2 (hasMessageProperties_of_sub T hempty)
    obtain ⟨sub, hmsgext, hsubslots⟩ := hsub hempty
    have hne : (subPropsOf T).isEmpty = false := by
      cases h : subPropsOf T with
      | nil => exact absurd h hempty
      | cons a l => rfl
    rw [hne]
    simp only [List.isEmpty_nil, Bool.false_and, Bool.false_eq_true, reduceIte]
    unfold getOrCreateMessage ensureMessageExt
    rw [hmsg]
    dsimp only
    rw [hmsg]
    dsimp only
    rw [hmsgext]
    dsimp only
    have hpairs : ∀ kv ∈ (subPropsOf T).foldl
        (fun (props : List (Option String × Option String)) p =>
          if shouldKeepValue (some sub.fields) (findOldProperty (some T) p) p then props
          else props ++ [(p.binding.name, getDefaultValue p)])
        [], getFO sub.fields kv.1 = kv.2 := by
      refine foldl_invariant_mem
        (fun (props : List (Option String × Option String)) =>
          ∀ kv ∈ props, getFO sub.fields kv.1 = kv.2) _ _ ?_ [] ?_
      · intro props p hp hinv
        by_cases hkeep : shouldKeepValue (some sub.fields) (findOldProperty (some T) p) p = true
        · rw [if_pos hkeep]
          exact hinv
        · rw [if_neg (by simpa using hkeep)]
          intro kv hkv
          rcases List.mem_append.1 hkv with h1 | h2
          · exact hinv kv h1
          · have hkv2 : kv = (p.binding.name, getDefaultValue p) := by simpa using h2
            subst hkv2
            dsimp only
            have htp : p.binding.type = MESSAGE_ZEEBE_SUBSCRIPTION_PROPERTY_TYPE := by
              have := (List.mem_filter.1 hp).2
              simpa using this
            rw [findOld_self_sub T p hnd hp] at hkeep
            obtain ⟨k, hk⟩ := Option.isSome_iff_exists.1 (hsome p hp)
            have hslot : getPropertyValue (some sub.fields) p = getFO sub.fields (some k) := by
              rw [getPV_sub _ _ htp, hk]
            have hsok : SlotOk (getFO sub.fields (some k)) p := by
              have := hsubslots p hp
              rwa [hk] at this
            rcases keep_or_default_self sub.fields k p hslot hsok with hkeep2 | hdef
            · exact absurd hkeep2 hkeep
            · rw [hk]
              exact hdef
      · intro kv hkv
        cases hkv
    simp only [hmsg, Option.some_bind, hmsgext, id_eq, Option.map_some',
      Option.isNone_some, Bool.or_self, Bool.false_eq_true, reduceIte,
      List.foldl_nil, List.map_nil]
    rw [foldl_setFO_id _ _ hpairs]
    rw [show ({ nid := sub.nid, fields := sub.fields } : Entry) = sub from rfl]
    rw [show ({ node := m.node, msgExt := some (some sub) } : Msg) = m from by
      rw [← hmsgext]]
    rw [← hmsg]

/-- Re-syncing the referenced message's identity stamp is a no-op when the
stamp already matches. -/
theorem updateRefStamp_self (s : S) (T : Template)
    (h : ∀ m, s.msg = some m →
       getFO m.node.fields (some "zeebe:modelerTemplate") = some T.id) :
    (updateZeebeModelerTemplateOnReferencedElement s T).1 = s := by
  unfold updateZeebeModelerTemplateOnReferencedElement
  cases hmsg : s.msg with
  | none => rfl
  | some m =>
    dsimp only
    rw [h m hmsg]
    simp

/-- The whole message family of the second application leaves the state
unchanged. -/
theorem updateMessage_self (s : S) (T : Template)
    (hndMsg : ((msgPropsOf T).map (fun q => q.binding.name)).Nodup)
    (hsomeMsg : ∀ q ∈ msgPropsOf T, q.binding.name.isSome = true)
    (hndSub : ((subPropsOf T).map (fun q => q.binding.name)).Nodup)
    (hsomeSub : ∀ q ∈ subPropsOf T, q.binding.name.isSome = true)
    (hok : MsgOk s T) :
    (updateMessage s (some T) T).1 = s := by
  have hstampAll : ∀ m, s.msg = some m →
      getFO m.node.fields (some "zeebe:modelerTemplate") = some T.id := by
    intro m hm
    rcases Bool.eq_false_or_eq_true (hasMessageProperties T) with h | h
    · obtain ⟨m2, hm2, hst, _⟩ := hok.2 h
      rw [hm] at hm2
      rw [Option.some_inj.1 hm2]
      exact hst
    · exact absurd (hok.1 h) (by rw [hm]; exact Option.noConfusion)
  unfold updateMessage
  dsimp only
  rw [updateMessageProperties_self s T hndMsg hsomeMsg hok,
    updateMessageSub_self s T hndSub hsomeSub hok,
    updateRefStamp_self s T hstampAll]
  cases hhm : hasMessageProperties T with
  | true => simp
  | false =>
    have hmn : s.msg = none := hok.1 hhm
    simp only [Bool.false_eq_true, reduceIte]
    rw [← hmn]

/-- The second application, stage by stage, is the identity on a stable
state. -/
theorem preExecute_self (s : S) (T : Template) (hWF : WFTemplate T)
    (hStamp : StampOk s T) (hPlain : PlainOk s T) (hTd : TdOk s T) (hIo : IoOk s T)
    (hHd : HdOk s T) (hZb : ZbOk s T) (hMsg : MsgOk s T) (hCe : CeOk s T) :
    (preExecute s (some T) (some T)).1 = s := by
  obtain ⟨hndPlain, hplainForm, hnoneProp, hformTd, hsomeCe, hndTdCe, hndIn, hsomeIn,
    hndOut, hsomeOut, hupIo, hndHd, hsomeHd, hndZb, hsomeZb, hupZb, hndMsg, hsomeMsg,
    hndSub, hsomeSub, hmsgStamp⟩ := hWF
  have hsomePlain : ∀ p ∈ plainProps T, p.binding.name.isSome = true :=
    fun p hp => (hplainForm p hp).1
  have h1 : (updateZeebeModelerTemplate s (some T)).1 = s :=
    updateZeebeModelerTemplate_self s T hStamp.1 hStamp.2.1
  have h2 : (updateZeebeModelerTemplateIcon s (some T)).1 = s :=
    updateZeebeModelerTemplateIcon_self s T hStamp.2.2
  have h3 : (updateElementType s (some T) T).1 = s := by
    rw [updateElementType_self]
  have h4 : (updatePlainProperties s (some T) T).1 = s :=
    updatePlainProperties_self s T hndPlain hsomePlain hPlain
  have h5 : (updateZeebeTaskDefinition s (some T) T).1 = s :=
    updateZeebeTaskDefinition_self s T hndTdCe hformTd hnoneProp hTd
  have h6 : (updateZeebeInputOutputParameterProperties s (some T) T).1 = s :=
    updateZeebeIo_self s T hndIn hndOut hupIo hIo
  have h7 : (updateZeebeTaskHeaderProperties s (some T) T).1 = s :=
    updateZeebeTaskHeaders_self s T hndHd hHd
  have h8 : (updateZeebePropertyProperties s (some T) T).1 = s :=
    updateZeebeProps_self s T hndZb hupZb hZb
  have h9 : (updateMessage s (some T) T).1 = s :=
    updateMessage_self s T hndMsg hsomeMsg hndSub hsomeSub hMsg
  have h10 : (updateCalledElement s (some T) T).1 = s :=
    updateCalledElement_self s T hsomeCe hCe
  unfold preExecute
  dsimp only
  rw [h1, h2, h3, h4, h5, h6, h7, h8, h9, h10]

/-- A write at one key does not change a read of a different (possibly
undefined) key. -/
theorem getFO_setFO_ne' (m : FieldMap) (k : String) (k2 : Option String)
    (v : Option String) (h : k2 ≠ some k) :
    getFO (setFO m (some k) v) k2 = getFO m k2 := by
  cases k2 with
  | none => rfl
  | some k2 => exact getFO_setFO_ne m k k2 v (fun he => h (by rw [he]))

/-- A kept slot is stable: `shouldKeepValue` only keeps a non-`Hidden` value,
and for a `Dropdown` only one among the choices. -/
theorem slotOk_of_keep (f : FieldMap) (op : Option TProperty) (p : TProperty) (k : String)
    (hslot : getPropertyValue (some f) p = getFO f (some k))
    (hkeep : shouldKeepValue (some f) op p = true) :
    SlotOk (getFO f (some k)) p := by
  constructor
  · intro hH
    unfold shouldKeepValue at hkeep
    rw [if_pos hH] at hkeep
    exact absurd hkeep (by simp)
  · intro hD
    right
    unfold shouldKeepValue at hkeep
    have hH : ¬p.type = "Hidden" := by
      intro h
      rw [if_pos h] at hkeep
      exact absurd hkeep (by simp)
    rw [if_neg hH, if_pos hD] at hkeep
    cases hc : p.choices with
    | none => rw [hc] at hkeep; exact absurd hkeep (by simp)
    | some cs =>
      rw [hc] at hkeep
      dsimp only at hkeep
      rw [hslot] at hkeep
      exact hkeep

/-- The template default is always a stable slot value. -/
theorem slotOk_default (p : TProperty) : SlotOk (getDefaultValue p) p :=
  ⟨fun _ => rfl, fun _ => Or.inl rfl⟩

/-- First application of the plain-property loop: every templated slot comes
out stable and every other attribute is untouched. -/
theorem plainFold_establish (o : Option Template) :
    ∀ (L : List TProperty) (acc : S × List Cmd),
      (∀ p ∈ L, p.binding.type = "property") →
      (∀ p ∈ L, p.binding.name.isSome = true) →
      List.Pairwise (fun p q => p.binding.name ≠ q.binding.name) L →
      ∃ b', (L.foldl (processPlainProperty o) acc).1 = { acc.1 with bo := b' } ∧
        (∀ p ∈ L, SlotOk (getFO b' p.binding.name) p) ∧
        (∀ k : Option String, (∀ p ∈ L, p.binding.name ≠ k) →
           getFO b' k = getFO acc.1.bo k) := by
  intro L
  induction L with
  | nil =>
    intro acc _ _ _
    exact ⟨acc.1.bo, rfl, fun p hp => absurd hp (List.not_mem_nil p), fun k _ => rfl⟩
  | cons p L ih =>
    intro acc htype hsome hpw
    obtain ⟨k, hk⟩ := Option.isSome_iff_exists.1 (hsome p (List.mem_cons_self p L))
    have hpwh := (List.pairwise_cons.1 hpw).1
    have hpwt := (List.pairwise_cons.1 hpw).2
    rw [List.foldl_cons]
    by_cases hkeep : shouldKeepValue (some acc.1.bo) (findOldProperty o p) p = true
    · have hstep : processPlainProperty o acc p = acc := by
        unfold processPlainProperty
        dsimp only
        rw [hkeep]
        simp
      rw [hstep]
      obtain ⟨b', hb', hslots, hframe⟩ := ih acc
        (fun q hq => htype q (List.mem_cons_of_mem _ hq))
        (fun q hq => hsome q (List.mem_cons_of_mem _ hq)) hpwt
      refine ⟨b', hb', ?_, ?_⟩
      · intro q hq
        rcases List.mem_cons.1 hq with rfl | hmem
        · have hcur : getFO b' q.binding.name = getFO acc.1.bo q.binding.name := by
            rw [hk]
            rw [hframe (some k) (fun r hr => by rw [← hk]; exact (hpwh r hr).symm)]
          rw [hcur, hk]
          exact slotOk_of_keep acc.1.bo (findOldProperty o q) q k
            (by rw [getPV_plain _ _ (htype q (List.mem_cons_self q L)), hk]) hkeep
        · exact hslots q hmem
      · intro k2 hk2
        exact hframe k2 (fun q hq => hk2 q (List.mem_cons_of_mem _ hq))
    · have hstep : processPlainProperty o acc p =
          ({ acc.1 with bo := setFO acc.1.bo p.binding.name (getDefaultValue p) },
           acc.2 ++ [Cmd.updateModdleProperties Target.businessObject
                       [(keyStr p.binding.name, getDefaultValue p)]]) := by
        unfold processPlainProperty
        dsimp only
        simp only [hkeep, Bool.false_eq_true, reduceIte]
      rw [hstep]
      obtain ⟨b', hb', hslots, hframe⟩ := ih
        ({ acc.1 with bo := setFO acc.1.bo p.binding.name (getDefaultValue p) },
         acc.2 ++ [Cmd.updateModdleProperties Target.businessObject
                     [(keyStr p.binding.name, getDefaultValue p)]])
        (fun q hq => htype q (List.mem_cons_of_mem _ hq))
        (fun q hq => hsome q (List.mem_cons_of_mem _ hq)) hpwt
      refine ⟨b', hb', ?_, ?_⟩
      · intro q hq
        rcases List.mem_cons.1 hq with rfl | hmem
        · have hcur : getFO b' q.binding.name =
              getFO (setFO acc.1.bo q.binding.name (getDefaultValue q)) q.binding.name := by
            exact hframe q.binding.name (fun r hr => (hpwh r hr).symm)
          rw [hcur, hk, getFO_setFO_same]
          exact slotOk_default q
        · exact hslots q hmem
      · intro k2 hk2
        rw [hframe k2 (fun q hq => hk2 q (List.mem_cons_of_mem _ hq))]
        dsimp only
        rw [hk]
        exact getFO_setFO_ne' acc.1.bo k k2 (getDefaultValue p)
          (fun he => hk2 p (List.mem_cons_self p L) (by rw [hk, he]))

/-- First application of `_updateProperties` with no previous template: the
plain-property family comes out stable and every other attribute of the
business object is untouched. -/
theorem updatePlainProperties_establish (s : S) (T : Template)
    (hnd : ((plainProps T).map (fun q => q.binding.name)).Nodup)
    (hsome : ∀ p ∈ plainProps T, p.binding.name.isSome = true) :
    ∃ b', (updatePlainProperties s none T).1 = { s with bo := b' } ∧
      PlainOk { s with bo := b' } T ∧
      (∀ k : Option String, (∀ p ∈ plainProps T, p.binding.name ≠ k) →
         getFO b' k = getFO s.bo k) := by
  have htype : ∀ p ∈ plainProps T, p.binding.type = "property" := by
    intro p hp
    have := (List.mem_filter.1 hp).2
    simpa using this
  unfold updatePlainProperties
  dsimp only
  simp only [List.isEmpty_nil, reduceIte]
  rw [show T.properties.filter (fun p => p.binding.type == "property") =
      plainProps T from rfl]
  by_cases hempty : plainProps T = []
  · rw [hempty]
    simp only [List.isEmpty_nil, reduceIte]
    refine ⟨s.bo, rfl, ?_, fun k _ => rfl⟩
    intro p hp
    rw [hempty] at hp
    exact absurd hp (List.not_mem_nil p)
  · have hne : (plainProps T).isEmpty = false := by
      cases h : plainProps T with
      | nil => exact absurd h hempty
      | cons a l => rfl
    rw [hne]
    simp only [Bool.false_eq_true, reduceIte]
    obtain ⟨b', hb', hslots, hframe⟩ := plainFold_establish none (plainProps T) (s, [])
      htype hsome (List.pairwise_map.1 hnd)
    exact ⟨b', hb', fun p hp => hslots p hp, hframe⟩

/-- First application of the task-definition loop over an existing node:
every templated field comes out stable, other fields are untouched, and the
allocator is untouched. -/
theorem tdFold_establish (o : Option Template) :
    ∀ (L : List TProperty) (acc : Option Entry × Nat × List Cmd) (td0 : Entry),
      (∀ p ∈ L, p.binding.type = "zeebe:taskDefinition" ∧ p.binding.property.isSome = true) →
      List.Pairwise (fun p q => p.binding.property ≠ q.binding.property) L →
      acc.1 = some td0 →
      ∃ f', (L.foldl (processTaskDefProperty o) acc).1 = some ⟨td0.nid, f'⟩ ∧
        (L.foldl (processTaskDefProperty o) acc).2.1 = acc.2.1 ∧
        (∀ p ∈ L, SlotOk (getFO f' (getTaskDefinitionPropertyName p.binding)) p) ∧
        (∀ k : Option String, (∀ p ∈ L, p.binding.property ≠ k) →
           getFO f' k = getFO td0.fields k) := by
  intro L
  induction L with
  | nil =>
    intro acc td0 _ _ hacc
    exact ⟨td0.fields, by rw [List.foldl_nil, hacc], rfl,
      fun p hp => absurd hp (List.not_mem_nil p), fun k _ => rfl⟩
  | cons p L ih =>
    intro acc td0 hform hpw hacc
    obtain ⟨k, hk⟩ := Option.isSome_iff_exists.1 (hform p (List.mem_cons_self p L)).2
    have htp : p.binding.type = "zeebe:taskDefinition" := (hform p (List.mem_cons_self p L)).1
    have hres : getTaskDefinitionPropertyName p.binding = some k := by
      rw [resolved_eq_property _ (by rw [htp]; decide), hk]
    have hpwh := (List.pairwise_cons.1 hpw).1
    have hpwt := (List.pairwise_cons.1 hpw).2
    have hpwh' : ∀ q ∈ L, q.binding.property ≠ some k := by
      intro q hq he
      exact hpwh q hq (by rw [hk, he])
    rw [List.foldl_cons]
    by_cases hkeep : shouldKeepValue (some td0.fields) (findOldProperty o p) p = true
    · have hstep : processTaskDefProperty o acc p = acc := by
        unfold processTaskDefProperty
        dsimp only
        rw [hacc]
        dsimp only
        rw [hkeep]
        simp
      rw [hstep]
      obtain ⟨f', hf', hfr, hslots, hframe⟩ := ih acc td0
        (fun q hq => hform q (List.mem_cons_of_mem _ hq)) hpwt hacc
      refine ⟨f', hf', hfr, ?_, ?_⟩
      · intro q hq
        rcases List.mem_cons.1 hq with rfl | hmem
        · have hcur : getFO f' (some k) = getFO td0.fields (some k) :=
            hframe (some k) hpwh'
          rw [hres, hcur]
          exact slotOk_of_keep td0.fields (findOldProperty o q) q k
            (by rw [getPV_td _ _ htp, hres]) hkeep
        · exact hslots q hmem
      · intro k2 hk2
        exact hframe k2 (fun q hq => hk2 q (List.mem_cons_of_mem _ hq))
    · have hstep : processTaskDefProperty o acc p =
          (some ⟨td0.nid, setFO td0.fields (getTaskDefinitionPropertyName p.binding)
             (getDefaultValue p)⟩, acc.2.1,
           acc.2.2 ++ [Cmd.updateModdleProperties Target.taskDef
             [(keyStr (getTaskDefinitionPropertyName p.binding), getDefaultValue p)]]) := by
        unfold processTaskDefProperty
        dsimp only
        rw [hacc]
        dsimp only
        simp only [hkeep, Bool.false_eq_true, reduceIte]
      rw [hstep]
      obtain ⟨f', hf', hfr, hslots, hframe⟩ := ih
        (some ⟨td0.nid, setFO td0.fields (getTaskDefinitionPropertyName p.binding)
           (getDefaultValue p)⟩, acc.2.1,
         acc.2.2 ++ [Cmd.updateModdleProperties Target.taskDef
           [(keyStr (getTaskDefinitionPropertyName p.binding), getDefaultValue p)]])
        ⟨td0.nid, setFO td0.fields (getTaskDefinitionPropertyName p.binding)
           (getDefaultValue p)⟩
        (fun q hq => hform q (List.mem_cons_of_mem _ hq)) hpwt rfl
      refine ⟨f', hf', hfr, ?_, ?_⟩
      · intro q hq
        rcases List.mem_cons.1 hq with rfl | hmem
        · have hcur : getFO f' (some k) =
              getFO (setFO td0.fields (getTaskDefinitionPropertyName q.binding)
                (getDefaultValue q)) (some k) := hframe (some k) hpwh'
          rw [hres, hcur, hres, getFO_setFO_same]
          exact slotOk_default q
        · exact hslots q hmem
      · intro k2 hk2
        rw [hframe k2 (fun q hq => hk2 q (List.mem_cons_of_mem _ hq))]
        dsimp only
        rw [hres]
        exact getFO_setFO_ne' td0.fields k k2 (getDefaultValue p)
          (fun he => hk2 p (List.mem_cons_self p L) (by rw [hk, he]))

/-- First application of `_updateZeebeTaskDefinition` to a container without
a task-definition node: the node is created exactly when the template has
task-definition properties, with every templated field stable. -/
theorem updateZeebeTaskDefinition_establish (s : S) (T : Template) (e : Ext)
    (hse : s.ext = some e) (htd0 : e.taskDefinition = none)
    (hform : ∀ p ∈ tdProps T, p.binding.type = "zeebe:taskDefinition" ∧
       p.binding.property.isSome = true)
    (hndj : ((tdProps T ++ cePropsOf T).map (fun p => p.binding.property)).Nodup) :
    ∃ td fr, (updateZeebeTaskDefinition s none T).1 =
        { s with ext := some { e with taskDefinition := td }, fresh := fr } ∧
      s.fresh ≤ fr ∧
      (tdProps T = [] → td = none) ∧
      (tdProps T ≠ [] → ∃ node, td = some node ∧
        ∀ p ∈ tdProps T,
          SlotOk (getFO node.fields (getTaskDefinitionPropertyName p.binding)) p) := by
  have hpw : List.Pairwise (fun p q => p.binding.property ≠ q.binding.property)
      (tdProps T) := by
    have h1 : ((tdProps T).map (fun p => p.binding.property)).Nodup := by
      rw [List.map_append] at hndj
      exact hndj.of_append_left
    exact List.pairwise_map.1 h1
  unfold updateZeebeTaskDefinition ensureElementExt
  dsimp only
  rw [hse]
  dsimp only
  rw [show T.properties.filter
      (fun p => TASK_DEFINITION_TYPES.contains p.binding.type) = tdProps T from rfl]
  cases hL : tdProps T with
  | nil =>
    simp only [List.isEmpty_nil, reduceIte]
    exact ⟨none, s.fresh, rfl, Nat.le_refl _, fun _ => rfl,
      fun h => absurd rfl h⟩
  | cons p1 L' =>
    simp only [List.isEmpty_cons, Bool.false_eq_true, reduceIte]
    rw [htd0]
    rw [List.foldl_cons]
    have hp1 : p1 ∈ tdProps T := by rw [hL]; exact List.mem_cons_self p1 L'
    have hform' : ∀ p ∈ p1 :: L', p.binding.type = "zeebe:taskDefinition" ∧
        p.binding.property.isSome = true := by
      rw [← hL]
      exact hform
    have hpw' := hL ▸ hpw
    obtain ⟨k1, hk1⟩ := Option.isSome_iff_exists.1 (hform' p1 (List.mem_cons_self p1 L')).2
    have hres1 : getTaskDefinitionPropertyName p1.binding = some k1 := by
      rw [resolved_eq_property _ (by
        rw [(hform' p1 (List.mem_cons_self p1 L')).1]; decide), hk1]
    have hstep : processTaskDefProperty none (none, s.fresh, []) p1 =
        (some ⟨s.fresh, setFO ∅ (getTaskDefinitionPropertyName p1.binding)
           (getDefaultValue p1)⟩, s.fresh + 1,
         [] ++ [Cmd.updateModdleStructural Target.extensionEls "values"]) := by
      unfold processTaskDefProperty
      dsimp only
    rw [hstep]
    obtain ⟨f', hf', hfr, hslots, hframe⟩ := tdFold_establish none L'
      (some ⟨s.fresh, setFO ∅ (getTaskDefinitionPropertyName p1.binding)
         (getDefaultValue p1)⟩, s.fresh + 1,
       [] ++ [Cmd.updateModdleStructural Target.extensionEls "values"])
      ⟨s.fresh, setFO ∅ (getTaskDefinitionPropertyName p1.binding) (getDefaultValue p1)⟩
      (fun q hq => hform' q (List.mem_cons_of_mem _ hq))
      (List.pairwise_cons.1 hpw').2 rfl
    rw [hf', hfr]
    dsimp only
    refine ⟨some ⟨s.fresh, f'⟩, s.fresh + 1, rfl, Nat.le_succ _, ?_, ?_⟩
    · intro h
      exact absurd h (List.cons_ne_nil p1 L')
    · intro _
      refine ⟨⟨s.fresh, f'⟩, rfl, ?_⟩
      intro q hq
      rcases List.mem_cons.1 hq with rfl | hmem
      · have hcur : getFO f' (some k1) =
            getFO (setFO ∅ (getTaskDefinitionPropertyName q.binding)
              (getDefaultValue q)) (some k1) := by
          refine hframe (some k1) ?_
          intro r hr he
          exact (List.pairwise_cons.1 hpw').1 r hr (by rw [hk1, he])
        rw [hres1, hcur, hres1, getFO_setFO_same]
        exact slotOk_default q
      · exact hslots q hmem

/-- First application of the called-element loop over an existing node with
no previous template: every templated field receives the template default. -/
theorem ceFold_establish :
    ∀ (L : List TProperty) (acc : Option Entry × Nat × List Cmd) (ce0 : Entry),
      (∀ p ∈ L, p.binding.type = ZEEBE_CALLED_ELEMENT ∧ p.binding.property.isSome = true) →
      List.Pairwise (fun p q => p.binding.property ≠ q.binding.property) L →
      acc.1 = some ce0 →
      ∃ f', (L.foldl (processCalledElementProperty none) acc).1 = some ⟨ce0.nid, f'⟩ ∧
        (L.foldl (processCalledElementProperty none) acc).2.1 = acc.2.1 ∧
        (∀ p ∈ L, getFO f' p.binding.property = getDefaultValue p) ∧
        (∀ k : Option String, (∀ p ∈ L, p.binding.property ≠ k) →
           getFO f' k = getFO ce0.fields k) := by
  intro L
  induction L with
  | nil =>
    intro acc ce0 _ _ hacc
    exact ⟨ce0.fields, by rw [List.foldl_nil, hacc], rfl,
      fun p hp => absurd hp (List.not_mem_nil p), fun k _ => rfl⟩
  | cons p L ih =>
    intro acc ce0 hform hpw hacc
    obtain ⟨k, hk⟩ := Option.isSome_iff_exists.1 (hform p (List.mem_cons_self p L)).2
    have htp : p.binding.type = ZEEBE_CALLED_ELEMENT := (hform p (List.mem_cons_self p L)).1
    have hpwh := (List.pairwise_cons.1 hpw).1
    have hpwt := (List.pairwise_cons.1 hpw).2
    have hpwh' : ∀ q ∈ L, q.binding.property ≠ some k := by
      intro q hq he
      exact hpwh q hq (by rw [hk, he])
    rw [List.foldl_cons]
    have hstep : processCalledElementProperty none acc p =
        (some ⟨ce0.nid, setFO ce0.fields p.binding.property (getDefaultValue p)⟩, acc.2.1,
         acc.2.2 ++ [Cmd.updateModdleProperties Target.calledEl
           [(keyStr p.binding.property, getDefaultValue p)]]) := by
      unfold processCalledElementProperty
      dsimp only
      rw [hacc]
      dsimp only
      rw [show findOldProperty none p = none from rfl,
        shouldKeep_ce_false ce0.fields p htp]
      simp only [Bool.false_eq_true, reduceIte]
    rw [hstep]
    obtain ⟨f', hf', hfr, hvals, hframe⟩ := ih
      (some ⟨ce0.nid, setFO ce0.fields p.binding.property (getDefaultValue p)⟩, acc.2.1,
       acc.2.2 ++ [Cmd.updateModdleProperties Target.calledEl
         [(keyStr p.binding.property, getDefaultValue p)]])
      ⟨ce0.nid, setFO ce0.fields p.binding.property (getDefaultValue p)⟩
      (fun q hq => hform q (List.mem_cons_of_mem _ hq)) hpwt rfl
    refine ⟨f', hf', hfr, ?_, ?_⟩
    · intro q hq
      rcases List.mem_cons.1 hq with rfl | hmem
      · have hcur : getFO f' (some k) =
            getFO (setFO ce0.fields q.binding.property (getDefaultValue q)) (some k) :=
          hframe (some k) hpwh'
        rw [hk, hcur, hk, getFO_setFO_same]
      · exact hvals q hmem
    · intro k2 hk2
      rw [hframe k2 (fun q hq => hk2 q (List.mem_cons_of_mem _ hq))]
      dsimp only
      rw [hk]
      exact getFO_setFO_ne' ce0.fields k k2 (getDefaultValue p)
        (fun he => hk2 p (List.mem_cons_self p L) (by rw [hk, he]))

/-- First application of `_updateCalledElement` to a container without a
called-element node and with no previous template. -/
theorem updateCalledElement_establish (s : S) (T : Template) (e : Ext)
    (hse : s.ext = some e) (hce0 : e.calledElement = none)
    (hsome : ∀ p ∈ cePropsOf T, p.binding.property.isSome = true)
    (hndj : ((tdProps T ++ cePropsOf T).map (fun p => p.binding.property)).Nodup) :
    ∃ ce fr, (updateCalledElement s none T).1 =
        { s with ext := some { e with calledElement := ce }, fresh := fr } ∧
      s.fresh ≤ fr ∧
      (cePropsOf T = [] → ce = none) ∧
      (cePropsOf T ≠ [] → ∃ node, ce = some node ∧
        ∀ p ∈ cePropsOf T, getFO node.fields p.binding.property = getDefaultValue p) := by
  have htype : ∀ p ∈ cePropsOf T, p.binding.type = ZEEBE_CALLED_ELEMENT := by
    intro p hp
    have := (List.mem_filter.1 hp).2
    simpa using this
  have hpw : List.Pairwise (fun p q => p.binding.property ≠ q.binding.property)
      (cePropsOf T) := by
    have h1 : ((cePropsOf T).map (fun p => p.binding.property)).Nodup := by
      rw [List.map_append] at hndj
      exact hndj.of_append_right
    exact List.pairwise_map.1 h1
  unfold updateCalledElement ensureElementExt
  dsimp only
  rw [hse]
  dsimp only
  rw [show T.properties.filter
      (fun p => p.binding.type == ZEEBE_CALLED_ELEMENT) = cePropsOf T from rfl]
  cases hL : cePropsOf T with
  | nil =>
    simp only [List.isEmpty_nil, reduceIte]
    exact ⟨none, s.fresh, rfl, Nat.le_refl _, fun _ => rfl, fun h => absurd rfl h⟩
  | cons p1 L' =>
    simp only [List.isEmpty_cons, Bool.false_eq_true, reduceIte]
    rw [hce0]
    rw [List.foldl_cons]
    have hform' : ∀ p ∈ p1 :: L', p.binding.type = ZEEBE_CALLED_ELEMENT ∧
        p.binding.property.isSome = true := by
      rw [← hL]
      exact fun p hp => ⟨htype p hp, hsome p hp⟩
    have hpw' := hL ▸ hpw
    obtain ⟨k1, hk1⟩ := Option.isSome_iff_exists.1 (hform' p1 (List.mem_cons_self p1 L')).2
    have hstep : processCalledElementProperty none (none, s.fresh, []) p1 =
        (some ⟨s.fresh, setFO ∅ p1.binding.property (getDefaultValue p1)⟩, s.fresh + 1,
         [] ++ [Cmd.updateModdleStructural Target.extensionEls "values"]) := by
      unfold processCalledElementProperty
      dsimp only
    rw [hstep]
    obtain ⟨f', hf', hfr, hvals, hframe⟩ := ceFold_establish L'
      (some ⟨s.fresh, setFO ∅ p1.binding.property (getDefaultValue p1)⟩, s.fresh + 1,
       [] ++ [Cmd.updateModdleStructural Target.extensionEls "values"])
      ⟨s.fresh, setFO ∅ p1.binding.property (getDefaultValue p1)⟩
      (fun q hq => hform' q (List.mem_cons_of_mem _ hq))
      (List.pairwise_cons.1 hpw').2 rfl
    rw [hf', hfr]
    dsimp only
    refine ⟨some ⟨s.fresh, f'⟩, s.fresh + 1, rfl, Nat.le_succ _, ?_, ?_⟩
    · intro h
      exact absurd h (List.cons_ne_nil p1 L')
    · intro _
      refine ⟨⟨s.fresh, f'⟩, rfl, ?_⟩
      intro q hq
      rcases List.mem_cons.1 hq with rfl | hmem
      · have hcur : getFO f' (some k1) =
            getFO (setFO ∅ q.binding.property (getDefaultValue q)) (some k1) := by
          refine hframe (some k1) ?_
          intro r hr he
          exact (List.pairwise_cons.1 hpw').1 r hr (by rw [hk1, he])
        rw [hk1, hcur, hk1, getFO_setFO_same]
      · exact hvals q hmem

/-- First application of the io-mapping loop when no existing entry matches
any templated property: each property appends a freshly allocated entry
carrying its identity key and its default, and the snapshots stay empty. -/
theorem ioFold_establish (o : Option Template) :
    ∀ (L : List TProperty) (acc : IoAcc),
      (∀ p ∈ L, (p.binding.type = "zeebe:input" ∧ p.binding.name.isSome = true) ∨
         (p.binding.type = "zeebe:output" ∧ p.binding.source.isSome = true)) →
      (∀ p ∈ L, shouldUpdate (getDefaultValue p) p = true) →
      List.Pairwise (fun p q => p.binding.type = "zeebe:input" →
        q.binding.type = "zeebe:input" → p.binding.name ≠ q.binding.name) L →
      List.Pairwise (fun p q => p.binding.type = "zeebe:output" →
        q.binding.type = "zeebe:output" → p.binding.source ≠ q.binding.source) L →
      acc.oldInputs = [] → acc.oldOutputs = [] →
      (∀ p ∈ L, p.binding.type = "zeebe:input" → ∀ en ∈ acc.io.inputParameters,
         getFO en.fields (some "target") ≠ p.binding.name) →
      (∀ p ∈ L, p.binding.type = "zeebe:output" → ∀ en ∈ acc.io.outputParameters,
         getFO en.fields (some "source") ≠ p.binding.source) →
      (acc.io.inputParameters.map (fun en => getFO en.fields (some "target"))).Nodup →
      (acc.io.outputParameters.map (fun en => getFO en.fields (some "source"))).Nodup →
      (acc.io.inputParameters.map Entry.nid).Nodup →
      (acc.io.outputParameters.map Entry.nid).Nodup →
      (∀ en ∈ acc.io.inputParameters, en.nid < acc.fresh) →
      (∀ en ∈ acc.io.outputParameters, en.nid < acc.fresh) →
      (L.foldl (processIoProperty o) acc).oldInputs = [] ∧
      (L.foldl (processIoProperty o) acc).oldOutputs = [] ∧
      acc.fresh ≤ (L.foldl (processIoProperty o) acc).fresh ∧
      (∃ newIns, (L.foldl (processIoProperty o) acc).io.inputParameters =
         acc.io.inputParameters ++ newIns ∧
         ∀ en ∈ newIns, ∃ p ∈ L, p.binding.type = "zeebe:input" ∧
           getFO en.fields (some "target") = p.binding.name ∧
           getFO en.fields (some "source") = getDefaultValue p) ∧
      (∃ newOuts, (L.foldl (processIoProperty o) acc).io.outputParameters =
         acc.io.outputParameters ++ newOuts ∧
         ∀ en ∈ newOuts, ∃ p ∈ L, p.binding.type = "zeebe:output" ∧
           getFO en.fields (some "source") = p.binding.source ∧
           getFO en.fields (some "target") = getDefaultValue p) ∧
      (∀ p ∈ L, p.binding.type = "zeebe:input" →
         ∃ en ∈ (L.foldl (processIoProperty o) acc).io.inputParameters,
           getFO en.fields (some "target") = p.binding.name ∧
           getFO en.fields (some "source") = getDefaultValue p) ∧
      (∀ p ∈ L, p.binding.type = "zeebe:output" →
         ∃ en ∈ (L.foldl (processIoProperty o) acc).io.outputParameters,
           getFO en.fields (some "source") = p.binding.source ∧
           getFO en.fields (some "target") = getDefaultValue p) ∧
      ((L.foldl (processIoProperty o) acc).io.inputParameters.map
         (fun en => getFO en.fields (some "target"))).Nodup ∧
      ((L.foldl (processIoProperty o) acc).io.outputParameters.map
         (fun en => getFO en.fields (some "source"))).Nodup ∧
      ((L.foldl (processIoProperty o) acc).io.inputParameters.map Entry.nid).Nodup ∧
      ((L.foldl (processIoProperty o) acc).io.outputParameters.map Entry.nid).Nodup ∧
      (∀ en ∈ (L.foldl (processIoProperty o) acc).io.inputParameters,
         en.nid < (L.foldl (processIoProperty o) acc).fresh) ∧
      (∀ en ∈ (L.foldl (processIoProperty o) acc).io.outputParameters,
         en.nid < (L.foldl (processIoProperty o) acc).fresh) := by
  intro L
  induction L with
  | nil =>
    intro acc _ _ _ _ hsn1 hsn2 _ _ hkIn hkOut hnIn hnOut hbIn hbOut
    exact ⟨hsn1, hsn2, Nat.le_refl _,
      ⟨[], (List.append_nil _).symm, fun en hen => absurd hen (List.not_mem_nil en)⟩,
      ⟨[], (List.append_nil _).symm, fun en hen => absurd hen (List.not_mem_nil en)⟩,
      fun p hp => absurd hp (List.not_mem_nil p),
      fun p hp => absurd hp (List.not_mem_nil p),
      hkIn, hkOut, hnIn, hnOut, hbIn, hbOut⟩
  | cons p L ih =>
    intro acc hL hup hpwIn hpwOut hsn1 hsn2 hdisjIn hdisjOut hkIn hkOut hnIn hnOut hbIn hbOut
    rw [List.foldl_cons]
    rcases hL p (List.mem_cons_self p L) with ⟨htin, hsomein⟩ | ⟨htout, hsomeout⟩
    · -- input property: not found, created
      have hfind : acc.io.inputParameters.find? (fun en =>
          getFO en.fields (some "target") == p.binding.name) = none := by
        rw [List.find?_eq_none]
        intro en hen hpred
        exact hdisjIn p (List.mem_cons_self p L) htin en hen (by simpa using hpred)
      set ne : Entry := ⟨acc.fresh,
        setFO (setFO ∅ (some "target") p.binding.name) (some "source")
          (getDefaultValue p)⟩ with hne
      have hstep : processIoProperty o acc p =
          { acc with
            io := ({ acc.io with inputParameters := acc.io.inputParameters ++ [ne] }),
            fresh := acc.fresh + 1,
            cmds := acc.cmds ++ [Cmd.updateModdleStructural Target.ioMap "inputParameters"] } := by
        unfold processIoProperty
        dsimp only
        rw [findBO_input acc.io p htin, hfind, hup p (List.mem_cons_self p L)]
        dsimp only
        simp only [reduceIte, htin, beq_self_eq_true]
      have hnekey : getFO ne.fields (some "target") = p.binding.name := by
        rw [hne]
        dsimp only
        rw [getFO_setFO_ne _ "source" "target" _ (by decide)]
        exact getFO_setFO_same _ "target" _
      have hneslot : getFO ne.fields (some "source") = getDefaultValue p := by
        rw [hne]
        dsimp only
        exact getFO_setFO_same _ "source" _
      rw [hstep]
      obtain ⟨c1, c2, c3, ⟨newIns, hnewIns, hnewInsP⟩, ⟨newOuts, hnewOuts, hnewOutsP⟩,
        c6, c7, c8, c9, c10, c11, c12, c13⟩ := ih
        { acc with
          io := ({ acc.io with inputParameters := acc.io.inputParameters ++ [ne] }),
          fresh := acc.fresh + 1,
          cmds := acc.cmds ++ [Cmd.updateModdleStructural Target.ioMap "inputParameters"] }
        (fun q hq => hL q (List.mem_cons_of_mem _ hq))
        (fun q hq => hup q (List.mem_cons_of_mem _ hq))
        (List.pairwise_cons.1 hpwIn).2 (List.pairwise_cons.1 hpwOut).2
        hsn1 hsn2
        (by
          intro q hq hqt en hen
          dsimp only at hen
          rcases List.mem_append.1 hen with h1 | h2
          · exact hdisjIn q (List.mem_cons_of_mem _ hq) hqt en h1
          · have he : en = ne := by simpa using h2
            subst he
            rw [hnekey]
            exact fun h => (List.pairwise_cons.1 hpwIn).1 q hq htin hqt h)
        (fun q hq hqt en hen => hdisjOut q (List.mem_cons_of_mem _ hq) hqt en hen)
        (by
          dsimp only
          rw [List.map_append]
          refine List.Nodup.append hkIn (by simp) ?_
          intro a ha hb
          simp only [List.map_cons, List.map_nil, List.mem_singleton] at hb
          obtain ⟨en, hen, hkeyen⟩ := List.mem_map.1 ha
          exact hdisjIn p (List.mem_cons_self p L) htin en hen
            (by rw [hkeyen, hb, hnekey]))
        hkOut
        (by
          dsimp only
          rw [List.map_append]
          refine List.Nodup.append hnIn (by simp) ?_
          intro a ha hb
          simp only [List.map_cons, List.map_nil, List.mem_singleton] at hb
          obtain ⟨en, hen, hniden⟩ := List.mem_map.1 ha
          have : en.nid = acc.fresh := by rw [hniden, hb]
          exact absurd (this ▸ hbIn en hen) (Nat.lt_irrefl _))
        hnOut
        (by
          intro en hen
          dsimp only at hen ⊢
          rcases List.mem_append.1 hen with h1 | h2
          · exact Nat.lt_succ_of_lt (hbIn en h1)
          · have he : en = ne := by simpa using h2
            subst he
            exact Nat.lt_succ_self _)
        (fun en hen => Nat.lt_succ_of_lt (hbOut en hen))
      refine ⟨c1, c2, Nat.le_trans (Nat.le_succ _) c3, ?_, ?_, ?_, ?_, c8, c9, c10, c11, c12, c13⟩
      · refine ⟨ne :: newIns, ?_, ?_⟩
        · rw [hnewIns]
          dsimp only
          rw [List.append_assoc]
          rfl
        · intro en hen
          rcases List.mem_cons.1 hen with rfl | hmem
          · exact ⟨p, List.mem_cons_self p L, htin, hnekey, hneslot⟩
          · obtain ⟨q, hq, hqt, hqk, hqs⟩ := hnewInsP en hmem
            exact ⟨q, List.mem_cons_of_mem _ hq, hqt, hqk, hqs⟩
      · refine ⟨newOuts, ?_, ?_⟩
        · rw [hnewOuts]
        · intro en hen
          obtain ⟨q, hq, hqt, hqk, hqs⟩ := hnewOutsP en hen
          exact ⟨q, List.mem_cons_of_mem _ hq, hqt, hqk, hqs⟩
      · intro q hq hqt
        rcases List.mem_cons.1 hq with rfl | hmem
        · refine ⟨ne, ?_, hnekey, hneslot⟩
          rw [hnewIns]
          dsimp only
          exact List.mem_append_left _ (List.mem_append_right _ (List.mem_singleton.2 rfl))
        · obtain ⟨en, hen, hk1, hk2⟩ := c6 q hmem hqt
          exact ⟨en, hen, hk1, hk2⟩
      · intro q hq hqt
        rcases List.mem_cons.1 hq with rfl | hmem
        · exact absurd htin (by rw [hqt]; decide)
        · exact c7 q hmem hqt
    · -- output property: not found, created
      have hfind : acc.io.outputParameters.find? (fun en =>
          getFO en.fields (some "source") == p.binding.source) = none := by
        rw [List.find?_eq_none]
        intro en hen hpred
        exact hdisjOut p (List.mem_cons_self p L) htout en hen (by simpa using hpred)
      set ne : Entry := ⟨acc.fresh,
        setFO (setFO ∅ (some "source") p.binding.source) (some "target")
          (getDefaultValue p)⟩ with hne
      have hstep : processIoProperty o acc p =
          { acc with
            io := ({ acc.io with outputParameters := acc.io.outputParameters ++ [ne] }),
            fresh := acc.fresh + 1,
            cmds := acc.cmds ++ [Cmd.updateModdleStructural Target.ioMap "outputParameters"] } := by
        unfold processIoProperty
        dsimp only
        rw [findBO_output acc.io p htout, hfind, hup p (List.mem_cons_self p L)]
        dsimp only
        simp only [reduceIte, htout, String.reduceBEq, Bool.false_eq_true]
      have hnekey : getFO ne.fields (some "source") = p.binding.source := by
        rw [hne]
        dsimp only
        rw [getFO_setFO_ne _ "target" "source" _ (by decide)]
        exact getFO_setFO_same _ "source" _
      have hneslot : getFO ne.fields (some "target") = getDefaultValue p := by
        rw [hne]
        dsimp only
        exact getFO_setFO_same _ "target" _
      rw [hstep]
      obtain ⟨c1, c2, c3, ⟨newIns, hnewIns, hnewInsP⟩, ⟨newOuts, hnewOuts, hnewOutsP⟩,
        c6, c7, c8, c9, c10, c11, c12, c13⟩ := ih
        { acc with
          io := ({ acc.io with outputParameters := acc.io.outputParameters ++ [ne] }),
          fresh := acc.fresh + 1,
          cmds := acc.cmds ++ [Cmd.updateModdleStructural Target.ioMap "outputParameters"] }
        (fun q hq => hL q (List.mem_cons_of_mem _ hq))
        (fun q hq => hup q (List.mem_cons_of_mem _ hq))
        (List.pairwise_cons.1 hpwIn).2 (List.pairwise_cons.1 hpwOut).2
        hsn1 hsn2
        (fun q hq hqt en hen => hdisjIn q (List.mem_cons_of_mem _ hq) hqt en hen)
        (by
          intro q hq hqt en hen
          dsimp only at hen
          rcases List.mem_append.1 hen with h1 | h2
          · exact hdisjOut q (List.mem_cons_of_mem _ hq) hqt en h1
          · have he : en = ne := by simpa using h2
            subst he
            rw [hnekey]
            exact fun h => (List.pairwise_cons.1 hpwOut).1 q hq htout hqt h)
        hkIn
        (by
          dsimp only
          rw [List.map_append]
          refine List.Nodup.append hkOut (by simp) ?_
          intro a ha hb
          simp only [List.map_cons, List.map_nil, List.mem_singleton] at hb
          obtain ⟨en, hen, hkeyen⟩ := List.mem_map.1 ha
          exact hdisjOut p (List.mem_cons_self p L) htout en hen
            (by rw [hkeyen, hb, hnekey]))
        hnIn
        (by
          dsimp only
          rw [List.map_append]
          refine List.Nodup.append hnOut (by simp) ?_
          intro a ha hb
          simp only [List.map_cons, List.map_nil, List.mem_singleton] at hb
          obtain ⟨en, hen, hniden⟩ := List.mem_map.1 ha
          have : en.nid = acc.fresh := by rw [hniden, hb]
          exact absurd (this ▸ hbOut en hen) (Nat.lt_irrefl _))
        (fun en hen => Nat.lt_succ_of_lt (hbIn en hen))
        (by
          intro en hen
          dsimp only at hen ⊢
          rcases List.mem_append.1 hen with h1 | h2
          · exact Nat.lt_succ_of_lt (hbOut en h1)
          · have he : en = ne := by simpa using h2
            subst he
            exact Nat.lt_succ_self _)
      refine ⟨c1, c2, Nat.le_trans (Nat.le_succ _) c3, ?_, ?_, ?_, ?_, c8, c9, c10, c11, c12, c13⟩
      · refine ⟨newIns, ?_, ?_⟩
        · rw [hnewIns]
        · intro en hen
          obtain ⟨q, hq, hqt, hqk, hqs⟩ := hnewInsP en hen
          exact ⟨q, List.mem_cons_of_mem _ hq, hqt, hqk, hqs⟩
      · refine ⟨ne :: newOuts, ?_, ?_⟩
        · rw [hnewOuts]
          dsimp only
          rw [List.append_assoc]
          rfl
        · intro en hen
          rcases List.mem_cons.1 hen with rfl | hmem
          · exact ⟨p, List.mem_cons_self p L, htout, hnekey, hneslot⟩
          · obtain ⟨q, hq, hqt, hqk, hqs⟩ := hnewOutsP en hmem
            exact ⟨q, List.mem_cons_of_mem _ hq, hqt, hqk, hqs⟩
      · intro q hq hqt
        rcases List.mem_cons.1 hq with rfl | hmem
        · exact absurd htout (by rw [hqt]; decide)
        · exact c6 q hmem hqt
      · intro q hq hqt
        rcases List.mem_cons.1 hq with rfl | hmem
        · refine ⟨ne, ?_, hnekey, hneslot⟩
          rw [hnewOuts]
          dsimp only
          exact List.mem_append_left _ (List.mem_append_right _ (List.mem_singleton.2 rfl))
        · obtain ⟨en, hen, hk1, hk2⟩ := c7 q hmem hqt
          exact ⟨en, hen, hk1, hk2⟩

/-- First application of `_updateZeebeInputOutputParameterProperties` to a
container without an io-mapping holder. -/
theorem updateZeebeIo_establish (s : S) (T : Template) (e : Ext)
    (hse : s.ext = some e) (hio0 : e.ioMapping = none)
    (hndIn : ((inputProps T).map (fun q => q.binding.name)).Nodup)
    (hsomeIn : ∀ p ∈ inputProps T, p.binding.name.isSome = true)
    (hndOut : ((outputProps T).map (fun q => q.binding.source)).Nodup)
    (hsomeOut : ∀ p ∈ outputProps T, p.binding.source.isSome = true)
    (hup : ∀ p ∈ ioPropsOf T, shouldUpdate (getDefaultValue p) p = true) :
    ∃ iom fr, (updateZeebeInputOutputParameterProperties s none T).1 =
        { s with ext := some { e with ioMapping := iom }, fresh := fr } ∧
      s.fresh ≤ fr ∧
      IoOk { s with ext := some { e with ioMapping := iom }, fresh := fr } T := by
  unfold updateZeebeInputOutputParameterProperties ensureElementExt
  dsimp only
  rw [hse]
  dsimp only
  rw [hio0]
  dsimp only
  rw [show T.properties.filter (fun p =>
      p.binding.type == "zeebe:input" || p.binding.type == "zeebe:output") =
      ioPropsOf T from rfl]
  by_cases hempty : ioPropsOf T = []
  · rw [hempty]
    simp only [List.isEmpty_nil, reduceIte]
    refine ⟨none, s.fresh, ?_, Nat.le_refl _, ?_⟩
    · rw [show ({ e with ioMapping := none } : Ext) = e from by rw [← hio0], ← hse]
    · unfold IoOk
      dsimp only
      exact ⟨fun _ => rfl, fun h => absurd hempty h⟩
  · have hne : (ioPropsOf T).isEmpty = false := by
      cases h : ioPropsOf T with
      | nil => exact absurd h hempty
      | cons a l => rfl
    rw [hne]
    simp only [Bool.false_eq_true, reduceIte]
    unfold ioLoopAndCleanup
    dsimp only
    simp only [List.map_nil]
    have hL : ∀ p ∈ ioPropsOf T,
        (p.binding.type = "zeebe:input" ∧ p.binding.name.isSome = true) ∨
        (p.binding.type = "zeebe:output" ∧ p.binding.source.isSome = true) := by
      intro p hp
      have hmemT : p ∈ T.properties := (List.mem_filter.1 hp).1
      have hkind := (List.mem_filter.1 hp).2
      rw [Bool.or_eq_true] at hkind
      rcases hkind with hin | hout
      · have htin : p.binding.type = "zeebe:input" := by simpa using hin
        exact Or.inl ⟨htin, hsomeIn p (List.mem_filter.2 ⟨hmemT, by rw [htin]; rfl⟩)⟩
      · have htout : p.binding.type = "zeebe:output" := by simpa using hout
        exact Or.inr ⟨htout, hsomeOut p (List.mem_filter.2 ⟨hmemT, by rw [htout]; rfl⟩)⟩
    have hpwIn : List.Pairwise (fun p q => p.binding.type = "zeebe:input" →
        q.binding.type = "zeebe:input" → p.binding.name ≠ q.binding.name)
        (ioPropsOf T) := by
      have base : (T.properties.filter (fun p =>
          p.binding.type == "zeebe:input")).Pairwise
          (fun p q => p.binding.name ≠ q.binding.name) := List.pairwise_map.1 hndIn
      have guard := pairwise_of_filter base
      have lift : (T.properties.filter (fun p =>
          p.binding.type == "zeebe:input" || p.binding.type == "zeebe:output")).Pairwise
          (fun a c => (a.binding.type == "zeebe:input") = true →
            (c.binding.type == "zeebe:input") = true → a.binding.name ≠ c.binding.name) :=
        List.Pairwise.sublist (List.filter_sublist _) guard
      refine List.Pairwise.imp ?_ lift
      intro a c hac ha hc
      exact hac (by rw [ha]; rfl) (by rw [hc]; rfl)
    have hpwOut : List.Pairwise (fun p q => p.binding.type = "zeebe:output" →
        q.binding.type = "zeebe:output" → p.binding.source ≠ q.binding.source)
        (ioPropsOf T) := by
      have base : (T.properties.filter (fun p =>
          p.binding.type == "zeebe:output")).Pairwise
          (fun p q => p.binding.source ≠ q.binding.source) := List.pairwise_map.1 hndOut
      have guard := pairwise_of_filter base
      have lift : (T.properties.filter (fun p =>
          p.binding.type == "zeebe:input" || p.binding.type == "zeebe:output")).Pairwise
          (fun a c => (a.binding.type == "zeebe:output") = true →
            (c.binding.type == "zeebe:output") = true → a.binding.source ≠ c.binding.source) :=
        List.Pairwise.sublist (List.filter_sublist _) guard
      refine List.Pairwise.imp ?_ lift
      intro a c hac ha hc
      exact hac (by rw [ha]; rfl) (by rw [hc]; rfl)
    obtain ⟨c1, c2, c3, ⟨newIns, hnewIns, hnewInsP⟩, ⟨newOuts, hnewOuts, hnewOutsP⟩,
      c6, c7, c8, c9, c10, c11, c12, c13⟩ := ioFold_establish none (ioPropsOf T)
      ⟨⟨[], []⟩, [], [], s.fresh, []⟩ hL hup hpwIn hpwOut rfl rfl
      (fun p _ _ en hen => absurd hen (List.not_mem_nil en))
      (fun p _ _ en hen => absurd hen (List.not_mem_nil en))
      List.nodup_nil List.nodup_nil List.nodup_nil List.nodup_nil
      (fun en hen => absurd hen (List.not_mem_nil en))
      (fun en hen => absurd hen (List.not_mem_nil en))
    set A := List.foldl (processIoProperty none)
      ⟨⟨[], []⟩, [], [], s.fresh, []⟩ (ioPropsOf T) with hA
    rw [c1, c2]
    simp only [List.isEmpty_nil, reduceIte]
    refine ⟨some A.io, A.fresh, rfl, c3, ?_⟩
    unfold IoOk
    dsimp only
    refine ⟨fun h => absurd h hempty, fun _ => ⟨A.io, rfl, ?_, ?_, ?_, ?_⟩⟩
    · refine ⟨c8, ⟨c10, c12⟩, ?_, ?_⟩
      · intro en hen
        rw [hnewIns] at hen
        obtain ⟨q, hq, hqt, hqk, _⟩ := hnewInsP en (by simpa using hen)
        exact ⟨q, List.mem_filter.2 ⟨(List.mem_filter.1 hq).1, by rw [hqt]; rfl⟩, hqk⟩
      · intro q hq en hen hkey
        rw [hnewIns] at hen
        obtain ⟨r, hr, hrt, hrk, hrs⟩ := hnewInsP en (by simpa using hen)
        have hrin : r ∈ inputProps T :=
          List.mem_filter.2 ⟨(List.mem_filter.1 hr).1, by rw [hrt]; rfl⟩
        have hrq : r = q := List.inj_on_of_nodup_map hndIn hrin hq
          (by show r.binding.name = q.binding.name; rw [← hrk]; exact hkey)
        rw [hrs, hrq]
        exact slotOk_default q
    · refine ⟨c9, ⟨c11, c13⟩, ?_, ?_⟩
      · intro en hen
        rw [hnewOuts] at hen
        obtain ⟨q, hq, hqt, hqk, _⟩ := hnewOutsP en (by simpa using hen)
        exact ⟨q, List.mem_filter.2 ⟨(List.mem_filter.1 hq).1, by rw [hqt]; rfl⟩, hqk⟩
      · intro q hq en hen hkey
        rw [hnewOuts] at hen
        obtain ⟨r, hr, hrt, hrk, hrs⟩ := hnewOutsP en (by simpa using hen)
        have hrout : r ∈ outputProps T :=
          List.mem_filter.2 ⟨(List.mem_filter.1 hr).1, by rw [hrt]; rfl⟩
        have hrq : r = q := List.inj_on_of_nodup_map hndOut hrout hq
          (by show r.binding.source = q.binding.source; rw [← hrk]; exact hkey)
        rw [hrs, hrq]
        exact slotOk_default q
    · intro q hq
      have hqt : q.binding.type = "zeebe:input" := by
        have := (List.mem_filter.1 hq).2
        simpa using this
      obtain ⟨en, hen, hk1, hk2⟩ := c6 q (inputProps_sub_ioProps hq) hqt
      exact ⟨en, hen, hk1⟩
    · intro q hq
      have hqt : q.binding.type = "zeebe:output" := by
        have := (List.mem_filter.1 hq).2
        simpa using this
      obtain ⟨en, hen, hk1, hk2⟩ := c7 q (outputProps_sub_ioProps hq) hqt
      exact ⟨en, hen, hk1⟩

/-- First application of the task-header loop when no existing entry matches
any templated property: each property with a truthy default appends a fresh
entry, the others do nothing, and the snapshot stays empty. -/
theorem hdFold_establish (o : Option Template) :
    ∀ (L : List TProperty) (acc : HAcc),
      (∀ p ∈ L, p.binding.type = "zeebe:taskHeader") →
      List.Pairwise (fun p q => p.binding.key ≠ q.binding.key) L →
      acc.oldHeaders = [] →
      (∀ p ∈ L, ∀ en ∈ acc.headers, getFO en.fields (some "key") ≠ p.binding.key) →
      (acc.headers.map (fun en => getFO en.fields (some "key"))).Nodup →
      (acc.headers.map Entry.nid).Nodup →
      (∀ en ∈ acc.headers, en.nid < acc.fresh) →
      (L.foldl (processHeaderProperty o) acc).oldHeaders = [] ∧
      acc.fresh ≤ (L.foldl (processHeaderProperty o) acc).fresh ∧
      (∃ newHs, (L.foldl (processHeaderProperty o) acc).headers = acc.headers ++ newHs ∧
        ∀ en ∈ newHs, ∃ p ∈ L, getFO en.fields (some "key") = p.binding.key ∧
          getFO en.fields (some "value") = getDefaultValue p) ∧
      (∀ p ∈ L, truthy (getDefaultValue p) = true →
        ∃ en ∈ (L.foldl (processHeaderProperty o) acc).headers,
          getFO en.fields (some "key") = p.binding.key ∧
          getFO en.fields (some "value") = getDefaultValue p) ∧
      ((L.foldl (processHeaderProperty o) acc).headers.map
        (fun en => getFO en.fields (some "key"))).Nodup ∧
      ((L.foldl (processHeaderProperty o) acc).headers.map Entry.nid).Nodup ∧
      (∀ en ∈ (L.foldl (processHeaderProperty o) acc).headers,
        en.nid < (L.foldl (processHeaderProperty o) acc).fresh) := by
  intro L
  induction L with
  | nil =>
    intro acc _ _ hsn _ hkN hnN hbN
    exact ⟨hsn, Nat.le_refl _,
      ⟨[], (List.append_nil _).symm, fun en hen => absurd hen (List.not_mem_nil en)⟩,
      fun p hp => absurd hp (List.not_mem_nil p), hkN, hnN, hbN⟩
  | cons p L ih =>
    intro acc hL hpw hsn hdisj hkN hnN hbN
    rw [List.foldl_cons]
    have hfind : acc.headers.find? (fun en =>
        getFO en.fields (some "key") == p.binding.key) = none := by
      rw [List.find?_eq_none]
      intro en hen hpred
      exact hdisj p (List.mem_cons_self p L) en hen (by simpa using hpred)
    by_cases htr : truthy (getDefaultValue p) = true
    · set ne : Entry := ⟨acc.fresh,
        setFO (setFO ∅ (some "key") p.binding.key) (some "value")
          (getDefaultValue p)⟩ with hne
      have hstep : processHeaderProperty o acc p =
          { acc with
            headers := acc.headers ++ [ne],
            fresh := acc.fresh + 1,
            cmds := acc.cmds ++ [Cmd.updateModdleStructural Target.taskHeadersHolder "values"] } := by
        unfold processHeaderProperty
        dsimp only
        rw [findBO_header acc.headers p (hL p (List.mem_cons_self p L)), hfind, htr]
        dsimp only
        simp only [reduceIte]
      have hnekey : getFO ne.fields (some "key") = p.binding.key := by
        rw [hne]
        dsimp only
        rw [getFO_setFO_ne _ "value" "key" _ (by decide)]
        exact getFO_setFO_same _ "key" _
      have hneslot : getFO ne.fields (some "value") = getDefaultValue p := by
        rw [hne]
        dsimp only
        exact getFO_setFO_same _ "value" _
      rw [hstep]
      obtain ⟨c1, c2, ⟨newHs, hnewHs, hnewHsP⟩, c4, c5, c6, c7⟩ := ih
        { acc with
          headers := acc.headers ++ [ne],
          fresh := acc.fresh + 1,
          cmds := acc.cmds ++ [Cmd.updateModdleStructural Target.taskHeadersHolder "values"] }
        (fun q hq => hL q (List.mem_cons_of_mem _ hq))
        (List.pairwise_cons.1 hpw).2 hsn
        (by
          intro q hq en hen
          dsimp only at hen
          rcases List.mem_append.1 hen with h1 | h2
          · exact hdisj q (List.mem_cons_of_mem _ hq) en h1
          · have he : en = ne := by simpa using h2
            subst he
            rw [hnekey]
            exact fun h => (List.pairwise_cons.1 hpw).1 q hq h)
        (by
          dsimp only
          rw [List.map_append]
          refine List.Nodup.append hkN (by simp) ?_
          intro a ha hb
          simp only [List.map_cons, List.map_nil, List.mem_singleton] at hb
          obtain ⟨en, hen, hkeyen⟩ := List.mem_map.1 ha
          exact hdisj p (List.mem_cons_self p L) en hen (by rw [hkeyen, hb, hnekey]))
        (by
          dsimp only
          rw [List.map_append]
          refine List.Nodup.append hnN (by simp) ?_
          intro a ha hb
          simp only [List.map_cons, List.map_nil, List.mem_singleton] at hb
          obtain ⟨en, hen, hniden⟩ := List.mem_map.1 ha
          have : en.nid = acc.fresh := by rw [hniden, hb]
          exact absurd (this ▸ hbN en hen) (Nat.lt_irrefl _))
        (by
          intro en hen
          dsimp only at hen ⊢
          rcases List.mem_append.1 hen with h1 | h2
          · exact Nat.lt_succ_of_lt (hbN en h1)
          · have he : en = ne := by simpa using h2
            subst he
            exact Nat.lt_succ_self _)
      refine ⟨c1, Nat.le_trans (Nat.le_succ _) c2, ?_, ?_, c5, c6, c7⟩
      · refine ⟨ne :: newHs, ?_, ?_⟩
        · rw [hnewHs]
          dsimp only
          rw [List.append_assoc]
          rfl
        · intro en hen
          rcases List.mem_cons.1 hen with rfl | hmem
          · exact ⟨p, List.mem_cons_self p L, hnekey, hneslot⟩
          · obtain ⟨q, hq, hqk, hqs⟩ := hnewHsP en hmem
            exact ⟨q, List.mem_cons_of_mem _ hq, hqk, hqs⟩
      · intro q hq _
        rcases List.mem_cons.1 hq with rfl | hmem
        · refine ⟨ne, ?_, hnekey, hneslot⟩
          rw [hnewHs]
          dsimp only
          exact List.mem_append_left _ (List.mem_append_right _ (List.mem_singleton.2 rfl))
        · obtain ⟨en, hen, hk1, hk2⟩ := c4 q hmem (by assumption)
          exact ⟨en, hen, hk1, hk2⟩
    · have htr' : truthy (getDefaultValue p) = false := by
        rcases Bool.eq_false_or_eq_true (truthy (getDefaultValue p)) with h | h
        · exact absurd h htr
        · exact h
      have hstep : processHeaderProperty o acc p = acc := by
        unfold processHeaderProperty
        dsimp only
        rw [findBO_header acc.headers p (hL p (List.mem_cons_self p L)), hfind, htr']
        dsimp only
        simp only [Bool.false_eq_true, reduceIte]
      rw [hstep]
      obtain ⟨c1, c2, ⟨newHs, hnewHs, hnewHsP⟩, c4, c5, c6, c7⟩ := ih acc
        (fun q hq => hL q (List.mem_cons_of_mem _ hq))
        (List.pairwise_cons.1 hpw).2 hsn
        (fun q hq en hen => hdisj q (List.mem_cons_of_mem _ hq) en hen)
        hkN hnN hbN
      refine ⟨c1, c2, ?_, ?_, c5, c6, c7⟩
      · refine ⟨newHs, hnewHs, ?_⟩
        intro en hen
        obtain ⟨q, hq, hqk, hqs⟩ := hnewHsP en hen
        exact ⟨q, List.mem_cons_of_mem _ hq, hqk, hqs⟩
      · intro q hq hqtr
        rcases List.mem_cons.1 hq with rfl | hmem
        · exact absurd hqtr (by rw [htr']; exact Bool.false_ne_true)
        · exact c4 q hmem hqtr

/-- First application of `_updateZeebeTaskHeaderProperties` to a container
without a task-headers holder. -/
theorem updateZeebeHeaders_establish (s : S) (T : Template) (e : Ext)
    (hse : s.ext = some e) (hth0 : e.taskHeaders = none)
    (hnd : ((headerPropsOf T).map (fun q => q.binding.key)).Nodup) :
    ∃ th fr, (updateZeebeTaskHeaderProperties s none T).1 =
        { s with ext := some { e with taskHeaders := th }, fresh := fr } ∧
      s.fresh ≤ fr ∧
      HdOk { s with ext := some { e with taskHeaders := th }, fresh := fr } T := by
  unfold updateZeebeTaskHeaderProperties ensureElementExt
  dsimp only
  rw [hse]
  dsimp only
  rw [hth0]
  dsimp only
  rw [show T.properties.filter (fun p => p.binding.type == "zeebe:taskHeader") =
      headerPropsOf T from rfl]
  by_cases hempty : headerPropsOf T = []
  · rw [hempty]
    simp only [List.isEmpty_nil, reduceIte]
    refine ⟨none, s.fresh, ?_, Nat.le_refl _, ?_⟩
    · rw [show ({ e with taskHeaders := none } : Ext) = e from by rw [← hth0], ← hse]
    · unfold HdOk
      dsimp only
      exact ⟨fun _ => rfl, fun h => absurd hempty h⟩
  · have hne : (headerPropsOf T).isEmpty = false := by
      cases h : headerPropsOf T with
      | nil => exact absurd h hempty
      | cons a l => rfl
    rw [hne]
    simp only [Bool.false_eq_true, reduceIte]
    unfold headerLoopAndCleanup
    dsimp only
    simp only [List.map_nil]
    obtain ⟨c1, c2, ⟨newHs, hnewHs, hnewHsP⟩, c4, c5, c6, c7⟩ :=
      hdFold_establish none (headerPropsOf T) ⟨[], [], s.fresh, []⟩
      (fun p hp => by
        have := (List.mem_filter.1 hp).2
        simpa using this)
      (List.pairwise_map.1 hnd) rfl
      (fun p _ en hen => absurd hen (List.not_mem_nil en))
      List.nodup_nil List.nodup_nil
      (fun en hen => absurd hen (List.not_mem_nil en))
    set A := List.foldl (processHeaderProperty none)
      ⟨[], [], s.fresh, []⟩ (headerPropsOf T) with hA
    rw [c1]
    refine ⟨some A.headers, A.fresh, rfl, c2, ?_⟩
    unfold HdOk
    dsimp only
    refine ⟨fun h => absurd h hempty, fun _ => ⟨A.headers, rfl, ⟨c5, ⟨c6, c7⟩, ?_, ?_⟩, ?_⟩⟩
    · intro en hen
      rw [hnewHs] at hen
      obtain ⟨q, hq, hqk, _⟩ := hnewHsP en (by simpa using hen)
      exact ⟨q, hq, hqk⟩
    · intro q hq en hen hkey
      rw [hnewHs] at hen
      obtain ⟨r, hr, hrk, hrs⟩ := hnewHsP en (by simpa using hen)
      have hrq : r = q := List.inj_on_of_nodup_map hnd hr hq
        (by show r.binding.key = q.binding.key; rw [← hrk]; exact hkey)
      rw [hrs, hrq]
      exact slotOk_default q
    · intro q hq hqtr
      obtain ⟨en, hen, hk1, hk2⟩ := c4 q hq hqtr
      exact ⟨en, hen, hk1⟩

/-- First application of the custom-property loop when no existing entry
matches any templated property. -/
theorem zbFold_establish (o : Option Template) :
    ∀ (L : List TProperty) (acc : ZAcc),
      (∀ p ∈ L, p.binding.type = "zeebe:property") →
      (∀ p ∈ L, shouldUpdate (getDefaultValue p) p = true) →
      List.Pairwise (fun p q => p.binding.name ≠ q.binding.name) L →
      acc.oldProps = [] →
      (∀ p ∈ L, ∀ en ∈ acc.props, getFO en.fields (some "name") ≠ p.binding.name) →
      (acc.props.map (fun en => getFO en.fields (some "name"))).Nodup →
      (acc.props.map Entry.nid).Nodup →
      (∀ en ∈ acc.props, en.nid < acc.fresh) →
      (L.foldl (processZeebeProperty o) acc).oldProps = [] ∧
      acc.fresh ≤ (L.foldl (processZeebeProperty o) acc).fresh ∧
      (∃ newPs, (L.foldl (processZeebeProperty o) acc).props = acc.props ++ newPs ∧
        ∀ en ∈ newPs, ∃ p ∈ L, getFO en.fields (some "name") = p.binding.name ∧
          getFO en.fields (some "value") = getDefaultValue p) ∧
      (∀ p ∈ L, ∃ en ∈ (L.foldl (processZeebeProperty o) acc).props,
        getFO en.fields (some "name") = p.binding.name ∧
        getFO en.fields (some "value") = getDefaultValue p) ∧
      ((L.foldl (processZeebeProperty o) acc).props.map
        (fun en => getFO en.fields (some "name"))).Nodup ∧
      ((L.foldl (processZeebeProperty o) acc).props.map Entry.nid).Nodup ∧
      (∀ en ∈ (L.foldl (processZeebeProperty o) acc).props,
        en.nid < (L.foldl (processZeebeProperty o) acc).fresh) := by
  intro L
  induction L with
  | nil =>
    intro acc _ _ _ hsn _ hkN hnN hbN
    exact ⟨hsn, Nat.le_refl _,
      ⟨[], (List.append_nil _).symm, fun en hen => absurd hen (List.not_mem_nil en)⟩,
      fun p hp => absurd hp (List.not_mem_nil p), hkN, hnN, hbN⟩
  | cons p L ih =>
    intro acc hL hup hpw hsn hdisj hkN hnN hbN
    rw [List.foldl_cons]
    have hfind : acc.props.find? (fun en =>
        getFO en.fields (some "name") == p.binding.name) = none := by
      rw [List.find?_eq_none]
      intro en hen hpred
      exact hdisj p (List.mem_cons_self p L) en hen (by simpa using hpred)
    set ne : Entry := ⟨acc.fresh,
      setFO (setFO ∅ (some "name") p.binding.name) (some "value")
        (getDefaultValue p)⟩ with hne
    have hstep : processZeebeProperty o acc p =
        { acc with
          props := acc.props ++ [ne],
          fresh := acc.fresh + 1,
          cmds := acc.cmds ++ [Cmd.updateModdleStructural Target.zeebePropsHolder "properties"] } := by
      unfold processZeebeProperty
      dsimp only
      rw [findBO_zb acc.props p (hL p (List.mem_cons_self p L)), hfind,
        hup p (List.mem_cons_self p L)]
      dsimp only
      simp only [reduceIte]
    have hnekey : getFO ne.fields (some "name") = p.binding.name := by
      rw [hne]
      dsimp only
      rw [getFO_setFO_ne _ "value" "name" _ (by decide)]
      exact getFO_setFO_same _ "name" _
    have hneslot : getFO ne.fields (some "value") = getDefaultValue p := by
      rw [hne]
      dsimp only
      exact getFO_setFO_same _ "value" _
    rw [hstep]
    obtain ⟨c1, c2, ⟨newPs, hnewPs, hnewPsP⟩, c4, c5, c6, c7⟩ := ih
      { acc with
        props := acc.props ++ [ne],
        fresh := acc.fresh + 1,
        cmds := acc.cmds ++ [Cmd.updateModdleStructural Target.zeebePropsHolder "properties"] }
      (fun q hq => hL q (List.mem_cons_of_mem _ hq))
      (fun q hq => hup q (List.mem_cons_of_mem _ hq))
      (List.pairwise_cons.1 hpw).2 hsn
      (by
        intro q hq en hen
        dsimp only at hen
        rcases List.mem_append.1 hen with h1 | h2
        · exact hdisj q (List.mem_cons_of_mem _ hq) en h1
        · have he : en = ne := by simpa using h2
          subst he
          rw [hnekey]
          exact fun h => (List.pairwise_cons.1 hpw).1 q hq h)
      (by
        dsimp only
        rw [List.map_append]
        refine List.Nodup.append hkN (by simp) ?_
        intro a ha hb
        simp only [List.map_cons, List.map_nil, List.mem_singleton] at hb
        obtain ⟨en, hen, hkeyen⟩ := List.mem_map.1 ha
        exact hdisj p (List.mem_cons_self p L) en hen (by rw [hkeyen, hb, hnekey]))
      (by
        dsimp only
        rw [List.map_append]
        refine List.Nodup.append hnN (by simp) ?_
        intro a ha hb
        simp only [List.map_cons, List.map_nil, List.mem_singleton] at hb
        obtain ⟨en, hen, hniden⟩ := List.mem_map.1 ha
        have : en.nid = acc.fresh := by rw [hniden, hb]
        exact absurd (this ▸ hbN en hen) (Nat.lt_irrefl _))
      (by
        intro en hen
        dsimp only at hen ⊢
        rcases List.mem_append.1 hen with h1 | h2
        · exact Nat.lt_succ_of_lt (hbN en h1)
        · have he : en = ne := by simpa using h2
          subst he
          exact Nat.lt_succ_self _)
    refine ⟨c1, Nat.le_trans (Nat.le_succ _) c2, ?_, ?_, c5, c6, c7⟩
    · refine ⟨ne :: newPs, ?_, ?_⟩
      · rw [hnewPs]
        dsimp only
        rw [List.append_assoc]
        rfl
      · intro en hen
        rcases List.mem_cons.1 hen with rfl | hmem
        · exact ⟨p, List.mem_cons_self p L, hnekey, hneslot⟩
        · obtain ⟨q, hq, hqk, hqs⟩ := hnewPsP en hmem
          exact ⟨q, List.mem_cons_of_mem _ hq, hqk, hqs⟩
    · intro q hq
      rcases List.mem_cons.1 hq with rfl | hmem
      · refine ⟨ne, ?_, hnekey, hneslot⟩
        rw [hnewPs]
        dsimp only
        exact List.mem_append_left _ (List.mem_append_right _ (List.mem_singleton.2 rfl))
      · obtain ⟨en, hen, hk1, hk2⟩ := c4 q hmem
        exact ⟨en, hen, hk1, hk2⟩

/-- First application of `_updateZeebePropertyProperties` to a container
without a custom-properties holder. -/
theorem updateZeebeProps_establish (s : S) (T : Template) (e : Ext)
    (hse : s.ext = some e) (hzb0 : e.zeebeProperties = none)
    (hnd : ((zbPropsOf T).map (fun q => q.binding.name)).Nodup)
    (hup : ∀ p ∈ zbPropsOf T, shouldUpdate (getDefaultValue p) p = true) :
    ∃ zb fr, (updateZeebePropertyProperties s none T).1 =
        { s with ext := some { e with zeebeProperties := zb }, fresh := fr } ∧
      s.fresh ≤ fr ∧
      ZbOk { s with ext := some { e with zeebeProperties := zb }, fresh := fr } T := by
  unfold updateZeebePropertyProperties ensureElementExt
  dsimp only
  rw [hse]
  dsimp only
  rw [hzb0]
  dsimp only
  rw [show T.properties.filter (fun p => p.binding.type == "zeebe:property") =
      zbPropsOf T from rfl]
  by_cases hempty : zbPropsOf T = []
  · rw [hempty]
    simp only [List.isEmpty_nil, reduceIte]
    refine ⟨none, s.fresh, ?_, Nat.le_refl _, ?_⟩
    · rw [show ({ e with zeebeProperties := none } : Ext) = e from by rw [← hzb0], ← hse]
    · unfold ZbOk
      dsimp only
      exact ⟨fun _ => rfl, fun h => absurd hempty h⟩
  · have hne : (zbPropsOf T).isEmpty = false := by
      cases h : zbPropsOf T with
      | nil => exact absurd h hempty
      | cons a l => rfl
    rw [hne]
    simp only [Bool.false_eq_true, reduceIte]
    unfold zeebePropsLoopAndCleanup
    dsimp only
    simp only [List.map_nil]
    obtain ⟨c1, c2, ⟨newPs, hnewPs, hnewPsP⟩, c4, c5, c6, c7⟩ :=
      zbFold_establish none (zbPropsOf T) ⟨[], [], s.fresh, []⟩
      (fun p hp => by
        have := (List.mem_filter.1 hp).2
        simpa using this)
      hup
      (List.pairwise_map.1 hnd) rfl
      (fun p _ en hen => absurd hen (List.not_mem_nil en))
      List.nodup_nil List.nodup_nil
      (fun en hen => absurd hen (List.not_mem_nil en))
    set A := List.foldl (processZeebeProperty none)
      ⟨[], [], s.fresh, []⟩ (zbPropsOf T) with hA
    rw [c1]
    refine ⟨some A.props, A.fresh, rfl, c2, ?_⟩
    unfold ZbOk
    dsimp only
    refine ⟨fun h => absurd h hempty, fun _ => ⟨A.props, rfl, ⟨c5, ⟨c6, c7⟩, ?_, ?_⟩, ?_⟩⟩
    · intro en hen
      rw [hnewPs] at hen
      obtain ⟨q, hq, hqk, _⟩ := hnewPsP en (by simpa using hen)
      exact ⟨q, hq, hqk⟩
    · intro q hq en hen hkey
      rw [hnewPs] at hen
      obtain ⟨r, hr, hrk, hrs⟩ := hnewPsP en (by simpa using hen)
      have hrq : r = q := List.inj_on_of_nodup_map hnd hr hq
        (by show r.binding.name = q.binding.name; rw [← hrk]; exact hkey)
      rw [hrs, hrq]
      exact slotOk_default q
    · intro q hq
      obtain ⟨en, hen, hk1, hk2⟩ := c4 q hq
      exact ⟨en, hen, hk1⟩

/-- With no element and no old property, nothing is ever kept. -/
theorem shouldKeep_none_false (p : TProperty) :
    shouldKeepValue none none p = false := by
  unfold shouldKeepValue
  by_cases hH : p.type = "Hidden"
  · rw [if_pos hH]
  · rw [if_neg hH]
    by_cases hD : p.type = "Dropdown"
    · rw [if_pos hD]
      cases hc : p.choices with
      | none => rfl
      | some cs =>
        dsimp only
        rw [show getPropertyValue none p = none from rfl]
        simp
    · rw [if_neg hD]
      rfl

/-- A filtering accumulator loop whose filter never fires appends the image
of every element. -/
theorem foldl_filter_append {α β : Type} (cond : α → Bool) (g : α → β) :
    ∀ (l : List α) (init : List β), (∀ a ∈ l, cond a = false) →
      l.foldl (fun acc a => if cond a then acc else acc ++ [g a]) init =
        init ++ l.map g := by
  intro l
  induction l with
  | nil => intro init _; rw [List.foldl_nil, List.map_nil, List.append_nil]
  | cons a l ih =>
    intro init h
    rw [List.foldl_cons, h a (List.mem_cons_self a l)]
    simp only [Bool.false_eq_true, reduceIte]
    rw [ih (init ++ [g a]) (fun b hb => h b (List.mem_cons_of_mem _ hb)),
      List.map_cons, List.append_assoc]
    rfl

/-- A fold of writes at keys all different from `k` does not change the read
at `k`. -/
theorem getFO_foldl_pairs_ne (k : Option String) :
    ∀ (pairs : List (Option String × Option String)) (f0 : FieldMap),
      (∀ kv ∈ pairs, kv.1 ≠ k) →
      getFO (pairs.foldl (fun f kv => setFO f kv.1 kv.2) f0) k = getFO f0 k := by
  intro pairs
  induction pairs with
  | nil => intro f0 _; rfl
  | cons kv rest ih =>
    intro f0 h
    rw [List.foldl_cons]
    rw [ih _ (fun kv' hkv' => h kv' (List.mem_cons_of_mem _ hkv'))]
    cases hk : kv.1 with
    | none => rfl
    | some k1 =>
      exact getFO_setFO_ne' f0 k1 k kv.2
        (fun he => h kv (List.mem_cons_self kv rest) (by rw [hk, he]))

/-- A fold of writes at pairwise-distinct keys makes each written key read
its written value. -/
theorem getFO_foldl_pairs :
    ∀ (pairs : List (Option String × Option String)) (f0 : FieldMap),
      pairs.Pairwise (fun a b => a.1 ≠ b.1) →
      ∀ kv ∈ pairs, kv.1.isSome = true →
      getFO (pairs.foldl (fun f kv => setFO f kv.1 kv.2) f0) kv.1 = kv.2 := by
  intro pairs
  induction pairs with
  | nil => intro f0 _ kv hkv; exact absurd hkv (List.not_mem_nil kv)
  | cons kv0 rest ih =>
    intro f0 hpw kv hkv hsome
    rw [List.foldl_cons]
    rcases List.mem_cons.1 hkv with rfl | hmem
    · obtain ⟨k, hk⟩ := Option.isSome_iff_exists.1 hsome
      rw [getFO_foldl_pairs_ne kv.1 rest (setFO f0 kv.1 kv.2)
        (fun kv' hkv' he => (List.pairwise_cons.1 hpw).1 kv' hkv' he.symm)]
      rw [hk, getFO_setFO_same]
    · exact ih (setFO f0 kv0.1 kv0.2) (List.pairwise_cons.1 hpw).2 kv hmem hsome

/-- First application of the message-property loop over an existing
message node. -/
theorem msgFold_establish (o : Option Template) :
    ∀ (L : List TProperty) (acc : S × List Cmd) (m : Msg),
      (∀ p ∈ L, p.binding.type = MESSAGE_PROPERTY_TYPE) →
      (∀ p ∈ L, p.binding.name.isSome = true) →
      List.Pairwise (fun p q => p.binding.name ≠ q.binding.name) L →
      acc.1.msg = some m →
      ∃ f', (L.foldl (processMessageProperty o) acc).1 =
          { acc.1 with msg := some { m with node := ⟨m.node.nid, f'⟩ } } ∧
        (∀ p ∈ L, SlotOk (getFO f' p.binding.name) p) ∧
        (∀ k : Option String, (∀ p ∈ L, p.binding.name ≠ k) →
           getFO f' k = getFO m.node.fields k) := by
  intro L
  induction L with
  | nil =>
    intro acc m _ _ _ hmsg
    refine ⟨m.node.fields, ?_, fun p hp => absurd hp (List.not_mem_nil p), fun k _ => rfl⟩
    rw [List.foldl_nil]
    rw [show ({ m with node := ⟨m.node.nid, m.node.fields⟩ } : Msg) = m from rfl, ← hmsg]
  | cons p L ih =>
    intro acc m htype hsome hpw hmsg
    obtain ⟨k, hk⟩ := Option.isSome_iff_exists.1 (hsome p (List.mem_cons_self p L))
    have htp : p.binding.type = MESSAGE_PROPERTY_TYPE := htype p (List.mem_cons_self p L)
    have hpwh := (List.pairwise_cons.1 hpw).1
    have hpwt := (List.pairwise_cons.1 hpw).2
    rw [List.foldl_cons]
    by_cases hkeep : shouldKeepValue (some m.node.fields) (findOldProperty o p) p = true
    · have hstep : processMessageProperty o acc p = acc := by
        unfold processMessageProperty
        dsimp only
        rw [hmsg]
        simp only [Option.map_some']
        rw [hkeep]
        simp
      rw [hstep]
      obtain ⟨f', hf', hslots, hframe⟩ := ih acc m
        (fun q hq => htype q (List.mem_cons_of_mem _ hq))
        (fun q hq => hsome q (List.mem_cons_of_mem _ hq)) hpwt hmsg
      refine ⟨f', hf', ?_, ?_⟩
      · intro q hq
        rcases List.mem_cons.1 hq with rfl | hmem
        · have hcur : getFO f' q.binding.name = getFO m.node.fields q.binding.name := by
            rw [hk]
            exact hframe (some k) (fun r hr he => hpwh r hr (by rw [hk, he]))
          rw [hcur, hk]
          exact slotOk_of_keep m.node.fields (findOldProperty o q) q k
            (by rw [getPV_msg _ _ htp, hk]) hkeep
        · exact hslots q hmem
      · intro k2 hk2
        exact hframe k2 (fun q hq => hk2 q (List.mem_cons_of_mem _ hq))
    · have hstep : (processMessageProperty o acc p).1 =
          { acc.1 with msg := some { m with node :=
              ⟨m.node.nid, setFO m.node.fields p.binding.name (getDefaultValue p)⟩ } } := by
        unfold processMessageProperty
        dsimp only
        rw [hmsg]
        simp only [Option.map_some']
        simp only [hkeep, Bool.false_eq_true, reduceIte]
      have hstep2 : processMessageProperty o acc p =
          ((processMessageProperty o acc p).1, (processMessageProperty o acc p).2) := rfl
      rw [hstep2, hstep]
      obtain ⟨f', hf', hslots, hframe⟩ := ih
        ({ acc.1 with msg := some { m with node :=
            ⟨m.node.nid, setFO m.node.fields p.binding.name (getDefaultValue p)⟩ } },
         (processMessageProperty o acc p).2)
        { m with node := ⟨m.node.nid, setFO m.node.fields p.binding.name (getDefaultValue p)⟩ }
        (fun q hq => htype q (List.mem_cons_of_mem _ hq))
        (fun q hq => hsome q (List.mem_cons_of_mem _ hq)) hpwt rfl
      refine ⟨f', hf', ?_, ?_⟩
      · intro q hq
        rcases List.mem_cons.1 hq with rfl | hmem
        · have hcur : getFO f' (some k) =
              getFO (setFO m.node.fields q.binding.name (getDefaultValue q))
                (some k) :=
            hframe (some k) (fun r hr he => hpwh r hr (by rw [hk, he]))
          rw [hk, hcur, hk, getFO_setFO_same]
          exact slotOk_default q
        · exact hslots q hmem
      · intro k2 hk2
        rw [hframe k2 (fun q hq => hk2 q (List.mem_cons_of_mem _ hq))]
        dsimp only
        rw [hk]
        exact getFO_setFO_ne' m.node.fields k k2 (getDefaultValue p)
          (fun he => hk2 p (List.mem_cons_self p L) (by rw [hk, he]))

/-- First application of `_updateMessageProperties` when the element starts
without a referenced message. -/
theorem updateMessageProperties_establish (s : S) (T : Template)
    (hmsg0 : s.msg = none)
    (hnd : ((msgPropsOf T).map (fun q => q.binding.name)).Nodup)
    (hsome : ∀ p ∈ msgPropsOf T, p.binding.name.isSome = true)
    (hstampdisj : ∀ p ∈ msgPropsOf T, p.binding.name ≠ some "zeebe:modelerTemplate") :
    (msgPropsOf T = [] → (updateMessageProperties s none T).1 = s) ∧
    (msgPropsOf T ≠ [] → ∃ f', (updateMessageProperties s none T).1 =
        { s with msg := some ⟨⟨s.fresh, f'⟩, none⟩, fresh := s.fresh + 1 } ∧
      getFO f' (some "zeebe:modelerTemplate") = some T.id ∧
      (∀ p ∈ msgPropsOf T, SlotOk (getFO f' p.binding.name) p)) := by
  have htype : ∀ p ∈ msgPropsOf T, p.binding.type = MESSAGE_PROPERTY_TYPE := by
    intro p hp
    have := (List.mem_filter.1 hp).2
    simpa using this
  unfold updateMessageProperties
  dsimp only
  rw [show T.properties.filter (fun p => p.binding.type == MESSAGE_PROPERTY_TYPE) =
      msgPropsOf T from rfl]
  rw [hmsg0]
  dsimp only
  constructor
  · intro h
    rw [h]
    simp only [List.isEmpty_nil, reduceIte]
  · intro h
    have hne : (msgPropsOf T).isEmpty = false := by
      cases hc : msgPropsOf T with
      | nil => exact absurd hc h
      | cons a l => rfl
    rw [hne]
    simp only [Bool.false_eq_true, reduceIte]
    unfold getOrCreateMessage
    rw [hmsg0]
    dsimp only
    obtain ⟨f', hf', hslots, hframe⟩ := msgFold_establish none (msgPropsOf T)
      ({ s with msg := some ⟨⟨s.fresh, setFO ∅ (some "zeebe:modelerTemplate") (some T.id)⟩,
          none⟩, fresh := s.fresh + 1 },
       [] ++ [Cmd.updateModdleStructural Target.businessObject "messageRef"])
      ⟨⟨s.fresh, setFO ∅ (some "zeebe:modelerTemplate") (some T.id)⟩, none⟩
      htype hsome (List.pairwise_map.1 hnd) rfl
    refine ⟨f', by rw [hf'], ?_, hslots⟩
    rw [hframe (some "zeebe:modelerTemplate") (fun q hq => hstampdisj q hq)]
    exact getFO_setFO_same _ _ _

/-- `_updateMessageZeebeSubscriptionProperties` without subscription
properties and without a previous template is a no-op. -/
theorem updateMessageSub_skip (s' : S) (T : Template) (hsp : subPropsOf T = []) :
    (updateMessageZeebeSubscriptionProperties s' none T).1 = s' := by
  unfold updateMessageZeebeSubscriptionProperties
  dsimp only
  rw [show T.properties.filter (fun p =>
      p.binding.type == MESSAGE_ZEEBE_SUBSCRIPTION_PROPERTY_TYPE) =
      subPropsOf T from rfl]
  rw [hsp]
  rfl

/-- The subscription pairs computed against an absent subscription node are
every property's name with its default. -/
theorem subPairs_establish (T : Template) :
    (subPropsOf T).foldl
      (fun (props : List (Option String × Option String)) p =>
        if shouldKeepValue none (findOldProperty none p) p then props
        else props ++ [(p.binding.name, getDefaultValue p)])
      [] = (subPropsOf T).map (fun p => (p.binding.name, getDefaultValue p)) := by
  rw [foldl_filter_append _ _ (subPropsOf T) []
    (fun a _ => by
      rw [show findOldProperty none a = none from rfl]
      exact shouldKeep_none_false a)]
  rfl

/-- Each subscription slot written from the defaults reads stably. -/
theorem subFields_slots (T : Template)
    (hnd : ((subPropsOf T).map (fun q => q.binding.name)).Nodup)
    (hsome : ∀ p ∈ subPropsOf T, p.binding.name.isSome = true) :
    ∀ p ∈ subPropsOf T,
      SlotOk (getFO (((subPropsOf T).map
        (fun p => (p.binding.name, getDefaultValue p))).foldl
          (fun f kv => setFO f kv.1 kv.2) ∅) p.binding.name) p := by
  intro p hp
  have hpw : ((subPropsOf T).map
      (fun p => (p.binding.name, getDefaultValue p))).Pairwise
      (fun a b => a.1 ≠ b.1) := by
    rw [List.pairwise_map]
    exact List.pairwise_map.1 hnd
  have := getFO_foldl_pairs ((subPropsOf T).map
      (fun p => (p.binding.name, getDefaultValue p))) ∅ hpw
      (p.binding.name, getDefaultValue p)
      (List.mem_map_of_mem _ hp) (hsome p hp)
  rw [this]
  exact slotOk_default p

/-- First application of the subscription family when the element starts
without a referenced message and the template has subscription properties:
message, container and subscription node are created, fields at their
defaults. -/
theorem updateMessageSub_create (s' : S) (T : Template)
    (hmsg0 : s'.msg = none) (hsp : subPropsOf T ≠ [])
    (hnd : ((subPropsOf T).map (fun q => q.binding.name)).Nodup)
    (hsome : ∀ p ∈ subPropsOf T, p.binding.name.isSome = true) :
    ∃ subf, (updateMessageZeebeSubscriptionProperties s' none T).1 =
        { s' with
          msg := some ⟨⟨s'.fresh, setFO ∅ (some "zeebe:modelerTemplate") (some T.id)⟩, some (some ⟨s'.fresh + 1, subf⟩)⟩,
          fresh := s'.fresh + 2 } ∧
      (∀ p ∈ subPropsOf T, SlotOk (getFO subf p.binding.name) p) := by
  unfold updateMessageZeebeSubscriptionProperties
  dsimp only
  rw [show T.properties.filter (fun p =>
      p.binding.type == MESSAGE_ZEEBE_SUBSCRIPTION_PROPERTY_TYPE) =
      subPropsOf T from rfl]
  have hne : (subPropsOf T).isEmpty = false := by
    cases hc : subPropsOf T with
    | nil => exact absurd hc hsp
    | cons a l => rfl
  rw [hne]
  simp only [Bool.false_and, Bool.false_eq_true, reduceIte]
  unfold getOrCreateMessage ensureMessageExt
  rw [hmsg0]
  dsimp only
  simp only [Option.some_bind, id_eq, Option.map_none', Option.isNone_none,
    Bool.true_or, reduceIte]
  rw [subPairs_establish T]
  exact ⟨((subPropsOf T).map (fun p => (p.binding.name, getDefaultValue p))).foldl
    (fun f kv => setFO f kv.1 kv.2) ∅, by simp only [Option.map_some'], subFields_slots T hnd hsome⟩

/-- First application of the subscription family on a message whose
extension container is absent. -/
theorem updateMessageSub_onMsg (s' : S) (T : Template) (m : Msg)
    (hmsg : s'.msg = some m) (hmx : m.msgExt = none) (hsp : subPropsOf T ≠ [])
    (hnd : ((subPropsOf T).map (fun q => q.binding.name)).Nodup)
    (hsome : ∀ p ∈ subPropsOf T, p.binding.name.isSome = true) :
    ∃ subf, (updateMessageZeebeSubscriptionProperties s' none T).1 =
        { s' with
          msg := some ⟨m.node, some (some ⟨s'.fresh, subf⟩)⟩,
          fresh := s'.fresh + 1 } ∧
      (∀ p ∈ subPropsOf T, SlotOk (getFO subf p.binding.name) p) := by
  unfold updateMessageZeebeSubscriptionProperties
  dsimp only
  rw [show T.properties.filter (fun p =>
      p.binding.type == MESSAGE_ZEEBE_SUBSCRIPTION_PROPERTY_TYPE) =
      subPropsOf T from rfl]
  have hne : (subPropsOf T).isEmpty = false := by
    cases hc : subPropsOf T with
    | nil => exact absurd hc hsp
    | cons a l => rfl
  rw [hne]
  simp only [Bool.false_and, Bool.false_eq_true, reduceIte]
  unfold getOrCreateMessage ensureMessageExt
  rw [hmsg]
  dsimp only
  rw [hmsg]
  dsimp only
  rw [hmx]
  dsimp only
  simp only [Option.some_bind, id_eq, Option.map_none', Option.isNone_none,
    Bool.true_or, reduceIte]
  rw [subPairs_establish T]
  exact ⟨((subPropsOf T).map (fun p => (p.binding.name, getDefaultValue p))).foldl
    (fun f kv => setFO f kv.1 kv.2) ∅, by simp only [Option.map_some'], subFields_slots T hnd hsome⟩

/-- Without message or subscription properties a template has no
message-kind property. -/
theorem hasMessageProperties_false_of_empty (T : Template)
    (hmp : msgPropsOf T = []) (hsp : subPropsOf T = []) :
    hasMessageProperties T = false := by
  rw [Bool.eq_false_iff]
  intro hc
  obtain ⟨p, hp, hcont⟩ := List.any_eq_true.1 hc
  have : p.binding.type = MESSAGE_PROPERTY_TYPE ∨
      p.binding.type = MESSAGE_ZEEBE_SUBSCRIPTION_PROPERTY_TYPE := by
    have := hcont
    unfold MESSAGE_BINDING_TYPES at this
    simpa using this
  rcases this with h | h
  · have : p ∈ msgPropsOf T := List.mem_filter.2 ⟨hp, by rw [h]; rfl⟩
    rw [hmp] at this
    exact absurd this (List.not_mem_nil p)
  · have : p ∈ subPropsOf T := List.mem_filter.2 ⟨hp, by rw [h]; rfl⟩
    rw [hsp] at this
    exact absurd this (List.not_mem_nil p)

/-- First application of `_updateMessage` when the element starts without a
referenced message: the post-state of the message family holds and nothing
else changes except the allocator. -/
theorem updateMessage_establish (s : S) (T : Template)
    (hmsg0 : s.msg = none)
    (hndMsg : ((msgPropsOf T).map (fun q => q.binding.name)).Nodup)
    (hsomeMsg : ∀ p ∈ msgPropsOf T, p.binding.name.isSome = true)
    (hstampdisj : ∀ p ∈ msgPropsOf T, p.binding.name ≠ some "zeebe:modelerTemplate")
    (hndSub : ((subPropsOf T).map (fun q => q.binding.name)).Nodup)
    (hsomeSub : ∀ p ∈ subPropsOf T, p.binding.name.isSome = true) :
    ∃ mm fr, (updateMessage s none T).1 = { s with msg := mm, fresh := fr } ∧
      s.fresh ≤ fr ∧ MsgOk { s with msg := mm, fresh := fr } T := by
  obtain ⟨hSt1e, hSt1⟩ := updateMessageProperties_establish s T hmsg0 hndMsg
    hsomeMsg hstampdisj
  unfold updateMessage
  dsimp only
  by_cases hmp : msgPropsOf T = []
  · rw [hSt1e hmp]
    by_cases hsp : subPropsOf T = []
    · rw [updateMessageSub_skip s T hsp]
      rw [updateRefStamp_self s T (fun m hm => absurd (hm ▸ hmsg0) (by simp))]
      rw [hasMessageProperties_false_of_empty T hmp hsp]
      simp only [Bool.false_eq_true, reduceIte]
      refine ⟨none, s.fresh, rfl, Nat.le_refl _, ?_, ?_⟩
      · intro _
        rfl
      · intro h
        exact absurd (hasMessageProperties_false_of_empty T hmp hsp)
          (fun hc => by rw [h] at hc; exact Bool.noConfusion hc)
    · obtain ⟨subf, hsub, hsubslots⟩ := updateMessageSub_create s T hmsg0 hsp
        hndSub hsomeSub
      rw [hsub]
      rw [updateRefStamp_self _ T (fun m hm => by
        have hm2 : ⟨⟨s.fresh, setFO ∅ (some "zeebe:modelerTemplate") (some T.id)⟩,
            some (some ⟨s.fresh + 1, subf⟩)⟩ = m := Option.some_inj.1 hm
        rw [← hm2]
        dsimp only
        exact getFO_setFO_same _ _ _)]
      rw [hasMessageProperties_of_sub T hsp]
      simp only [reduceIte]
      refine ⟨some ⟨⟨s.fresh, setFO ∅ (some "zeebe:modelerTemplate") (some T.id)⟩,
        some (some ⟨s.fresh + 1, subf⟩)⟩, s.fresh + 2, rfl,
        Nat.le_add_right _ _, ?_, ?_⟩
      · intro h
        exact absurd (hasMessageProperties_of_sub T hsp)
          (fun hc => by rw [h] at hc; exact Bool.noConfusion hc)
      · intro _
        refine ⟨⟨⟨s.fresh, setFO ∅ (some "zeebe:modelerTemplate") (some T.id)⟩,
          some (some ⟨s.fresh + 1, subf⟩)⟩, rfl, ?_, ?_, ?_⟩
        · exact getFO_setFO_same _ _ _
        · intro p hp
          rw [hmp] at hp
          exact absurd hp (List.not_mem_nil p)
        · intro _
          exact ⟨⟨s.fresh + 1, subf⟩, rfl, hsubslots⟩
  · obtain ⟨f', hf', hstamp, hslots⟩ := hSt1 hmp
    rw [hf']
    by_cases hsp : subPropsOf T = []
    · rw [updateMessageSub_skip _ T hsp]
      rw [updateRefStamp_self _ T (fun m hm => by
        have hm2 : (⟨⟨s.fresh, f'⟩, none⟩ : Msg) = m := Option.some_inj.1 hm
        rw [← hm2]
        dsimp only
        exact hstamp)]
      rw [hasMessageProperties_of_msg T hmp]
      simp only [reduceIte]
      refine ⟨some ⟨⟨s.fresh, f'⟩, none⟩, s.fresh + 1, rfl, Nat.le_succ _, ?_, ?_⟩
      · intro h
        exact absurd (hasMessageProperties_of_msg T hmp)
          (fun hc => by rw [h] at hc; exact Bool.noConfusion hc)
      · intro _
        refine ⟨⟨⟨s.fresh, f'⟩, none⟩, rfl, hstamp, hslots, ?_⟩
        intro h
        exact absurd hsp h
    · obtain ⟨subf, hsub, hsubslots⟩ := updateMessageSub_onMsg
        { s with msg := some ⟨⟨s.fresh, f'⟩, none⟩, fresh := s.fresh + 1 } T
        ⟨⟨s.fresh, f'⟩, none⟩ rfl rfl hsp hndSub hsomeSub
      rw [hsub]
      rw [updateRefStamp_self _ T (fun m hm => by
        have hm2 : (⟨⟨s.fresh, f'⟩, some (some ⟨s.fresh + 1, subf⟩)⟩ : Msg) = m :=
          Option.some_inj.1 hm
        rw [← hm2]
        dsimp only
        exact hstamp)]
      rw [hasMessageProperties_of_msg T hmp]
      simp only [reduceIte]
      refine ⟨some ⟨⟨s.fresh, f'⟩, some (some ⟨s.fresh + 1, subf⟩)⟩, s.fresh + 1 + 1,
        rfl, ?_, ?_, ?_⟩
      · exact Nat.le_trans (Nat.le_succ _) (Nat.le_succ _)
      · intro h
        exact absurd (hasMessageProperties_of_msg T hmp)
          (fun hc => by rw [h] at hc; exact Bool.noConfusion hc)
      · intro _
        refine ⟨⟨⟨s.fresh, f'⟩, some (some ⟨s.fresh + 1, subf⟩)⟩, rfl, hstamp, hslots, ?_⟩
        intro _
        exact ⟨⟨s.fresh + 1, subf⟩, rfl, hsubslots⟩

/-- Creating the missing extension container first does not change the
resulting document state of the task-definition family. -/
theorem updateZeebeTaskDefinition_extNone (s : S) (o : Option Template) (T : Template)
    (h : s.ext = none) :
    (updateZeebeTaskDefinition s o T).1 =
      (updateZeebeTaskDefinition { s with ext := some emptyExt } o T).1 := by
  unfold updateZeebeTaskDefinition ensureElementExt
  rw [h]
  dsimp only
  cases hc : (T.properties.filter (fun p =>
      TASK_DEFINITION_TYPES.contains p.binding.type)).isEmpty <;>
    simp only [hc, Bool.false_eq_true, reduceIte]

/-- The identity stamp depends only on the business object. -/
theorem StampOk_mono {s s' : S} {T : Template} (h : StampOk s T) (hb : s'.bo = s.bo) :
    StampOk s' T := by
  unfold StampOk at h ⊢
  rw [hb]
  exact h

/-- Plain-property stability depends only on the business object. -/
theorem PlainOk_mono {s s' : S} {T : Template} (h : PlainOk s T) (hb : s'.bo = s.bo) :
    PlainOk s' T := by
  unfold PlainOk at h ⊢
  rw [hb]
  exact h

/-- Task-definition stability depends only on the task-definition holder. -/
theorem TdOk_mono {s s' : S} {T : Template} {e e' : Ext} (h : TdOk s T)
    (hse : s.ext = some e) (hse' : s'.ext = some e')
    (hfield : e'.taskDefinition = e.taskDefinition) : TdOk s' T := by
  unfold TdOk at h ⊢
  rw [hse] at h
  rw [hse']
  dsimp only at h ⊢
  rw [hfield]
  exact h

/-- Called-element stability depends only on the called-element holder. -/
theorem CeOk_mono {s s' : S} {T : Template} {e e' : Ext} (h : CeOk s T)
    (hse : s.ext = some e) (hse' : s'.ext = some e')
    (hfield : e'.calledElement = e.calledElement) : CeOk s' T := by
  unfold CeOk at h ⊢
  rw [hse] at h
  rw [hse']
  dsimp only at h ⊢
  rw [hfield]
  exact h

/-- Node-identity well-formedness is monotone in the allocation bound. -/
theorem nidsOk_mono {l : List Entry} {n m : Nat} (h : nidsOk l n) (hnm : n ≤ m) :
    nidsOk l m :=
  ⟨h.1, fun e he => Nat.lt_of_lt_of_le (h.2 e he) hnm⟩

/-- Keyed-holder stability is monotone in the allocation bound. -/
theorem HolderOk_mono {l : List Entry} {keyF slotF : String} {props : List TProperty}
    {keyOf : TProperty → Option String} {n m : Nat}
    (h : HolderOk l keyF slotF props keyOf n) (hnm : n ≤ m) :
    HolderOk l keyF slotF props keyOf m :=
  ⟨h.1, nidsOk_mono h.2.1 hnm, h.2.2.1, h.2.2.2⟩

/-- Io-mapping stability depends only on the holder and the allocation
bound. -/
theorem IoOk_mono {s s' : S} {T : Template} {e e' : Ext} (h : IoOk s T)
    (hse : s.ext = some e) (hse' : s'.ext = some e')
    (hfield : e'.ioMapping = e.ioMapping) (hfr : s.fresh ≤ s'.fresh) : IoOk s' T := by
  unfold IoOk at h ⊢
  rw [hse] at h
  rw [hse']
  dsimp only at h ⊢
  rw [hfield]
  refine ⟨h.1, fun hne => ?_⟩
  obtain ⟨io, hio, hin, hout, hc1, hc2⟩ := h.2 hne
  exact ⟨io, hio, HolderOk_mono hin hfr, HolderOk_mono hout hfr, hc1, hc2⟩

/-- Task-header stability depends only on the holder and the allocation
bound. -/
theorem HdOk_mono {s s' : S} {T : Template} {e e' : Ext} (h : HdOk s T)
    (hse : s.ext = some e) (hse' : s'.ext = some e')
    (hfield : e'.taskHeaders = e.taskHeaders) (hfr : s.fresh ≤ s'.fresh) : HdOk s' T := by
  unfold HdOk at h ⊢
  rw [hse] at h
  rw [hse']
  dsimp only at h ⊢
  rw [hfield]
  refine ⟨h.1, fun hne => ?_⟩
  obtain ⟨hs, hhs, hH, hc⟩ := h.2 hne
  exact ⟨hs, hhs, HolderOk_mono hH hfr, hc⟩

/-- Custom-property stability depends only on the holder and the allocation
bound. -/
theorem ZbOk_mono {s s' : S} {T : Template} {e e' : Ext} (h : ZbOk s T)
    (hse : s.ext = some e) (hse' : s'.ext = some e')
    (hfield : e'.zeebeProperties = e.zeebeProperties) (hfr : s.fresh ≤ s'.fresh) :
    ZbOk s' T := by
  unfold ZbOk at h ⊢
  rw [hse] at h
  rw [hse']
  dsimp only at h ⊢
  rw [hfield]
  refine ⟨h.1, fun hne => ?_⟩
  obtain ⟨ps, hps, hH, hc⟩ := h.2 hne
  exact ⟨ps, hps, HolderOk_mono hH hfr, hc⟩

/-- Message stability depends only on the referenced message. -/
theorem MsgOk_mono {s s' : S} {T : Template} (h : MsgOk s T) (hm : s'.msg = s.msg) :
    MsgOk s' T := by
  unfold MsgOk at h ⊢
  rw [hm]
  exact h

/-- First application of a well-formed template to a fresh element (no
extension container, no referenced message) establishes every family's
stability predicate. -/
theorem preExecute_establish (s0 : S) (T : Template)
    (hext0 : s0.ext = none) (hmsg0 : s0.msg = none) (hWF : WFTemplate T) :
    StampOk (preExecute s0 none (some T)).1 T ∧
    PlainOk (preExecute s0 none (some T)).1 T ∧
    TdOk (preExecute s0 none (some T)).1 T ∧
    IoOk (preExecute s0 none (some T)).1 T ∧
    HdOk (preExecute s0 none (some T)).1 T ∧
    ZbOk (preExecute s0 none (some T)).1 T ∧
    MsgOk (preExecute s0 none (some T)).1 T ∧
    CeOk (preExecute s0 none (some T)).1 T := by
  obtain ⟨hndPlain, hplainForm, hnoneProp, hformTd, hsomeCe, hndTdCe, hndIn, hsomeIn,
    hndOut, hsomeOut, hupIo, hndHd, hsomeHd, hndZb, hsomeZb, hupZb, hndMsg, hsomeMsg,
    hndSub, hsomeSub, hmsgStamp⟩ := hWF
  have hsomePlain : ∀ p ∈ plainProps T, p.binding.name.isSome = true :=
    fun p hp => (hplainForm p hp).1
  have hchain : (preExecute s0 none (some T)).1 =
      (updateCalledElement (updateMessage (updateZeebePropertyProperties
        (updateZeebeTaskHeaderProperties (updateZeebeInputOutputParameterProperties
          (updateZeebeTaskDefinition (updatePlainProperties (updateElementType
            (updateZeebeModelerTemplateIcon (updateZeebeModelerTemplate s0
              (some T)).1 (some T)).1 none T).1 none T).1 none T).1
                none T).1 none T).1 none T).1 none T).1 none T).1 := rfl
  rw [hchain]
  set A2 := (updateZeebeModelerTemplateIcon (updateZeebeModelerTemplate s0
    (some T)).1 (some T)).1 with hA2
  set A3 := (updateElementType A2 none T).1 with hA3
  set A4 := (updatePlainProperties A3 none T).1 with hA4
  set A5 := (updateZeebeTaskDefinition A4 none T).1 with hA5
  set A6 := (updateZeebeInputOutputParameterProperties A5 none T).1 with hA6
  set A7 := (updateZeebeTaskHeaderProperties A6 none T).1 with hA7
  set A8 := (updateZeebePropertyProperties A7 none T).1 with hA8
  set A9 := (updateMessage A8 none T).1 with hA9
  set A10 := (updateCalledElement A9 none T).1 with hA10
  -- stages 1 and 2: the identity stamp
  have h2 : A2 = { s0 with bo := (setFO (setFO (setFO s0.bo
      (some "zeebe:modelerTemplate") (some T.id))
      (some "zeebe:modelerTemplateVersion") T.version)
      (some "zeebe:modelerTemplateIcon") (T.icon.bind (fun i => i.contents))) } := by
    rw [hA2]
    rfl
  have hA2ext : A2.ext = none := by rw [h2]; exact hext0
  have hA2msg : A2.msg = none := by rw [h2]; exact hmsg0
  have hStamp2 : StampOk A2 T := by
    rw [h2]
    unfold StampOk
    dsimp only
    refine ⟨?_, ?_, ?_⟩
    · rw [getFO_setFO_ne' _ _ _ _ (by decide), getFO_setFO_ne' _ _ _ _ (by decide),
        getFO_setFO_same]
    · rw [getFO_setFO_ne' _ _ _ _ (by decide), getFO_setFO_same]
    · rw [getFO_setFO_same]
  -- stage 3: element type (frame on everything the families read)
  have hA3ext : A3.ext = none := by
    rw [hA3, (updateElementType_frame A2 none T).1]; exact hA2ext
  have hA3msg : A3.msg = none := by
    rw [hA3, (updateElementType_frame A2 none T).2.1]; exact hA2msg
  have hA3bo : A3.bo = A2.bo := by
    rw [hA3]; exact (updateElementType_frame A2 none T).2.2.1
  have hStamp3 : StampOk A3 T := StampOk_mono hStamp2 hA3bo
  -- stage 4: plain properties
  obtain ⟨b4, h4eq, hPlain4, hframe4⟩ := updatePlainProperties_establish A3 T
    hndPlain hsomePlain
  have h4 : A4 = { A3 with bo := b4 } := by rw [hA4]; exact h4eq
  have hA4ext : A4.ext = none := by rw [h4]; exact hA3ext
  have hA4msg : A4.msg = none := by rw [h4]; exact hA3msg
  have hPlain4' : PlainOk A4 T := by rw [h4]; exact hPlain4
  have hStamp4 : StampOk A4 T := by
    have hb : ∀ k ∈ reservedStampKeys, getFO b4 (some k) = getFO A3.bo (some k) :=
      fun k hk => hframe4 (some k) (fun p hp hpk =>
        (hplainForm p hp).2 k hk hpk)
    rw [h4]
    unfold StampOk
    dsimp only
    rw [hb "zeebe:modelerTemplate" (by decide),
      hb "zeebe:modelerTemplateVersion" (by decide),
      hb "zeebe:modelerTemplateIcon" (by decide)]
    exact hStamp3
  -- stage 5: task definition (creates the extension container)
  have hconn : (updateZeebeTaskDefinition A4 none T).1 =
      (updateZeebeTaskDefinition { A4 with ext := some emptyExt } none T).1 :=
    updateZeebeTaskDefinition_extNone A4 none T hA4ext
  obtain ⟨td, fr5, h5eq, hfr5, htdE, htdNE⟩ :=
    updateZeebeTaskDefinition_establish { A4 with ext := some emptyExt } T emptyExt
      rfl rfl hformTd hndTdCe
  have h5 : A5 = { A4 with
      ext := some { emptyExt with taskDefinition := td },
      fresh := fr5 } := by
    rw [hA5, hconn]; exact h5eq
  have hA5ext : A5.ext = some { emptyExt with taskDefinition := td } := by rw [h5]
  have hA5msg : A5.msg = none := by rw [h5]; exact hA4msg
  have hA5bo : A5.bo = A4.bo := by rw [h5]
  have hA5fresh : A5.fresh = fr5 := by rw [h5]
  have hTd5 : TdOk A5 T := by
    rw [h5]
    unfold TdOk
    dsimp only
    exact ⟨htdE, htdNE⟩
  have hStamp5 : StampOk A5 T := StampOk_mono hStamp4 hA5bo
  have hPlain5 : PlainOk A5 T := PlainOk_mono hPlain4' hA5bo
  -- stage 6: io mappings
  obtain ⟨iom, fr6, h6eq, hfr6, hIo6⟩ :=
    updateZeebeIo_establish A5 T { emptyExt with taskDefinition := td } hA5ext rfl
      hndIn hsomeIn hndOut hsomeOut hupIo
  have h6 : A6 = { A5 with
      ext := some { emptyExt with taskDefinition := td, ioMapping := iom },
      fresh := fr6 } := by
    rw [hA6]; exact h6eq
  have hA6ext : A6.ext =
      some { emptyExt with taskDefinition := td, ioMapping := iom } := by rw [h6]
  have hA6msg : A6.msg = none := by rw [h6]; exact hA5msg
  have hA6bo : A6.bo = A5.bo := by rw [h6]
  have hA6fresh : A6.fresh = fr6 := by rw [h6]
  have hIo6' : IoOk A6 T := by rw [h6]; exact hIo6
  have hStamp6 : StampOk A6 T := StampOk_mono hStamp5 hA6bo
  have hPlain6 : PlainOk A6 T := PlainOk_mono hPlain5 hA6bo
  have hTd6 : TdOk A6 T := TdOk_mono hTd5 hA5ext hA6ext rfl
  -- stage 7: task headers
  obtain ⟨th, fr7, h7eq, hfr7, hHd7⟩ :=
    updateZeebeHeaders_establish A6 T
      { emptyExt with taskDefinition := td, ioMapping := iom } hA6ext rfl hndHd
  have h7 : A7 = { A6 with
      ext := some { emptyExt with taskDefinition := td, ioMapping := iom, taskHeaders := th },
      fresh := fr7 } := by
    rw [hA7]; exact h7eq
  have hA7ext : A7.ext =
      some { emptyExt with taskDefinition := td, ioMapping := iom, taskHeaders := th } := by
    rw [h7]
  have hA7msg : A7.msg = none := by rw [h7]; exact hA6msg
  have hA7bo : A7.bo = A6.bo := by rw [h7]
  have hA7fresh : A7.fresh = fr7 := by rw [h7]
  have hle67 : A6.fresh ≤ A7.fresh := by rw [hA7fresh]; exact hfr7
  have hHd7' : HdOk A7 T := by rw [h7]; exact hHd7
  have hStamp7 : StampOk A7 T := StampOk_mono hStamp6 hA7bo
  have hPlain7 : PlainOk A7 T := PlainOk_mono hPlain6 hA7bo
  have hTd7 : TdOk A7 T := TdOk_mono hTd6 hA6ext hA7ext rfl
  have hIo7 : IoOk A7 T := IoOk_mono hIo6' hA6ext hA7ext rfl hle67
  -- stage 8: custom properties
  obtain ⟨zb, fr8, h8eq, hfr8, hZb8⟩ :=
    updateZeebeProps_establish A7 T
      { emptyExt with taskDefinition := td, ioMapping := iom, taskHeaders := th }
      hA7ext rfl hndZb hupZb
  have h8 : A8 = { A7 with
      ext := some { emptyExt with taskDefinition := td, ioMapping := iom, taskHeaders := th, zeebeProperties := zb },
      fresh := fr8 } := by
    rw [hA8]; exact h8eq
  have hA8ext : A8.ext =
      some { emptyExt with taskDefinition := td, ioMapping := iom, taskHeaders := th, zeebeProperties := zb } := by
    rw [h8]
  have hA8msg : A8.msg = none := by rw [h8]; exact hA7msg
  have hA8bo : A8.bo = A7.bo := by rw [h8]
  have hA8fresh : A8.fresh = fr8 := by rw [h8]
  have hle78 : A7.fresh ≤ A8.fresh := by rw [hA8fresh]; exact hfr8
  have hZb8' : ZbOk A8 T := by rw [h8]; exact hZb8
  have hStamp8 : StampOk A8 T := StampOk_mono hStamp7 hA8bo
  have hPlain8 : PlainOk A8 T := PlainOk_mono hPlain7 hA8bo
  have hTd8 : TdOk A8 T := TdOk_mono hTd7 hA7ext hA8ext rfl
  have hIo8 : IoOk A8 T := IoOk_mono hIo7 hA7ext hA8ext rfl hle78
  have hHd8 : HdOk A8 T := HdOk_mono hHd7' hA7ext hA8ext rfl hle78
  -- stage 9: message
  obtain ⟨mm, fr9, h9eq, hfr9, hMsg9⟩ :=
    updateMessage_establish A8 T hA8msg hndMsg hsomeMsg hmsgStamp hndSub hsomeSub
  have h9 : A9 = { A8 with msg := mm, fresh := fr9 } := by rw [hA9]; exact h9eq
  have hA9ext : A9.ext =
      some { emptyExt with taskDefinition := td, ioMapping := iom, taskHeaders := th, zeebeProperties := zb } := by
    rw [h9]; exact hA8ext
  have hA9bo : A9.bo = A8.bo := by rw [h9]
  have hA9fresh : A9.fresh = fr9 := by rw [h9]
  have hle89 : A8.fresh ≤ A9.fresh := by rw [hA9fresh]; exact hfr9
  have hMsg9' : MsgOk A9 T := by rw [h9]; exact hMsg9
  have hStamp9 : StampOk A9 T := StampOk_mono hStamp8 hA9bo
  have hPlain9 : PlainOk A9 T := PlainOk_mono hPlain8 hA9bo
  have hTd9 : TdOk A9 T := TdOk_mono hTd8 hA8ext hA9ext rfl
  have hIo9 : IoOk A9 T := IoOk_mono hIo8 hA8ext hA9ext rfl hle89
  have hHd9 : HdOk A9 T := HdOk_mono hHd8 hA8ext hA9ext rfl hle89
  have hZb9 : ZbOk A9 T := ZbOk_mono hZb8' hA8ext hA9ext rfl hle89
  -- stage 10: called element
  obtain ⟨ce, fr10, h10eq, hfr10, hceE, hceNE⟩ :=
    updateCalledElement_establish A9 T
      { emptyExt with taskDefinition := td, ioMapping := iom, taskHeaders := th, zeebeProperties := zb }
      hA9ext rfl hsomeCe hndTdCe
  have h10 : A10 = { A9 with
      ext := some { emptyExt with taskDefinition := td, ioMapping := iom, taskHeaders := th, zeebeProperties := zb, calledElement := ce },
      fresh := fr10 } := by
    rw [hA10]; exact h10eq
  have hA10ext : A10.ext =
      some { emptyExt with taskDefinition := td, ioMapping := iom, taskHeaders := th, zeebeProperties := zb, calledElement := ce } := by
    rw [h10]
  have hA10msg : A10.msg = A9.msg := by rw [h10]
  have hA10bo : A10.bo = A9.bo := by rw [h10]
  have hA10fresh : A10.fresh = fr10 := by rw [h10]
  have hle910 : A9.fresh ≤ A10.fresh := by rw [hA10fresh]; exact hfr10
  have hCe10 : CeOk A10 T := by
    rw [h10]
    unfold CeOk
    dsimp only
    exact ⟨hceE, hceNE⟩
  have hStamp10 : StampOk A10 T := StampOk_mono hStamp9 hA10bo
  have hPlain10 : PlainOk A10 T := PlainOk_mono hPlain9 hA10bo
  have hTd10 : TdOk A10 T := TdOk_mono hTd9 hA9ext hA10ext rfl
  have hIo10 : IoOk A10 T := IoOk_mono hIo9 hA9ext hA10ext rfl hle910
  have hHd10 : HdOk A10 T := HdOk_mono hHd9 hA9ext hA10ext rfl hle910
  have hZb10 : ZbOk A10 T := ZbOk_mono hZb9 hA9ext hA10ext rfl hle910
  have hMsg10 : MsgOk A10 T := MsgOk_mono hMsg9' hA10msg
  exact ⟨hStamp10, hPlain10, hTd10, hIo10, hHd10, hZb10, hMsg10, hCe10⟩

/-! Claim theorems. -/

/-- C10: for every non-empty array and item not contained in it, `remove`
deletes the last element (so it does not leave the array unchanged), and for
a present item it deletes the first occurrence. -/
theorem claim10_remove_behavior {α : Type} [DecidableEq α] (a : List α) (x : α) :
    (a ≠ [] → x ∉ a → remove a x = a.dropLast ∧ remove a x ≠ a) ∧
    (x ∈ a → remove a x = a.erase x) := by
  constructor
  · intro hne hnm
    refine ⟨remove_not_mem a x hnm, ?_⟩
    rw [remove_not_mem a x hnm]
    intro heq
    have hlen := congrArg List.length heq
    rw [List.length_dropLast] at hlen
    have hpos : 0 < a.length := List.length_pos.2 hne
    omega
  · intro h
    exact remove_mem a x h

/-- C10 witness: on `[1, 2, 3]`, removing the absent `5` deletes the last
element, and removing the present `2` deletes its occurrence. -/
theorem claim10_witness :
    (remove [1, 2, 3] 5 = [1, 2] ∧ remove [1, 2, 3] 5 ≠ [1, 2, 3]) ∧
    remove [1, 2, 3] 2 = [1, 3] := by
  refine ⟨(claim10_remove_behavior [1, 2, 3] 5).1 (by decide) (by decide), ?_⟩
  rw [(claim10_remove_behavior [1, 2, 3] 2).2 (by decide)]
  decide

/-- C1: for a property whose identity key matches one of the old template
(`findOldProperty` returns a match) and whose type is neither `Hidden` nor
`Dropdown`, `shouldKeepValue` returns true iff the value at the binding's
value slot differs from the old template's default, so an edited value
survives and an unedited one is overwritten. -/
theorem claim1_keep_iff_changed (el : Option FieldMap) (oldT : Template)
    (q p : TProperty) (hfind : findOldProperty (some oldT) q = some p)
    (hH : q.type ≠ "Hidden") (hD : q.type ≠ "Dropdown") :
    shouldKeepValue el (findOldProperty (some oldT) q) q = true ↔
      getPropertyValue el p ≠ p.value := by
  rw [hfind]
  unfold shouldKeepValue
  rw [if_neg hH, if_neg hD]
  simp [propertyChanged, bne_iff_ne]

/-- C1 witness: the old template set `x` to `old`, the user edited it to
`edited`, so the value is kept. -/
theorem claim1_witness :
    findOldProperty (some c1oldT) c1q = some c1p ∧
    (shouldKeepValue (some c1el) (findOldProperty (some c1oldT) c1q) c1q = true ↔
      getPropertyValue (some c1el) c1p ≠ c1p.value) :=
  ⟨by decide, claim1_keep_iff_changed (some c1el) c1oldT c1q c1p (by decide)
      (by decide) (by decide)⟩

/-- C7: for a `Dropdown` property, `shouldKeepValue` returns true iff the new
property's choices contain a choice whose value equals the current value at
the binding's slot — regardless of any matched old property. -/
theorem claim7_dropdown_keep_iff_choice (el : Option FieldMap)
    (op : Option TProperty) (q : TProperty) (hD : q.type = "Dropdown") :
    shouldKeepValue el op q = true ↔
      ∃ c ∈ q.choices.getD [], some c.value = getPropertyValue el q := by
  unfold shouldKeepValue
  rw [hD]
  cases hc : q.choices with
  | none => simp
  | some choices => simp [List.any_eq_true]

/-- C7 witness: current value `red` is among the new choices, so it is kept
even though the new default is `blue`. -/
theorem claim7_witness :
    c7q.type = "Dropdown" ∧ getDefaultValue c7q = some "blue" ∧
    (shouldKeepValue (some c7el) none c7q = true ↔
      ∃ c ∈ c7q.choices.getD [], some c.value = getPropertyValue (some c7el) c7q) :=
  ⟨by decide, by decide, claim7_dropdown_keep_iff_choice (some c7el) none c7q (by decide)⟩

/-- C2: with no new template, `preExecute` issues exactly the two identity
stamp commands (clearing `zeebe:modelerTemplate`, `zeebe:modelerTemplateVersion`
and `zeebe:modelerTemplateIcon`) and leaves the element type, extension
container, its structured nodes and the referenced message unchanged. -/
theorem claim2_removal_strips_identity_only (s : S) (oldTemplate : Option Template) :
    (preExecute s oldTemplate none).2 =
      [Cmd.updateProperties
         [("zeebe:modelerTemplate", none), ("zeebe:modelerTemplateVersion", none)],
       Cmd.updateProperties [("zeebe:modelerTemplateIcon", none)]] ∧
    (preExecute s oldTemplate none).1.ext = s.ext ∧
    (preExecute s oldTemplate none).1.msg = s.msg ∧
    (preExecute s oldTemplate none).1.etype = s.etype ∧
    (preExecute s oldTemplate none).1.evDef = s.evDef ∧
    (preExecute s oldTemplate none).1.fresh = s.fresh ∧
    (preExecute s oldTemplate none).1.bo =
      ((s.bo.erase "zeebe:modelerTemplate").erase
         "zeebe:modelerTemplateVersion").erase "zeebe:modelerTemplateIcon" :=
  ⟨rfl, rfl, rfl, rfl, rfl, rfl, rfl⟩

/-- C4: the claim matches the evident intent, but the source lacks the
`return` after removing an empty holder: with zero header (resp. mapping)
properties and a non-empty holder, the reconciler removes the holder and then
issues a further list mutation against the now detached holder instead of
stopping.  Evaluated at the failing inputs. -/
theorem claim4_missing_stop_after_holder_removal :
    (c4tpl.properties.filter (fun p => p.binding.type == "zeebe:taskHeader") = [] ∧
     (c4state.ext.bind Ext.taskHeaders).isSome = true ∧
     (updateZeebeTaskHeaderProperties c4state none c4tpl).1.ext =
       some ⟨none, none, none, none, none⟩ ∧
     (updateZeebeTaskHeaderProperties c4state none c4tpl).2 =
       [Cmd.updateModdleStructural Target.extensionEls "values",
        Cmd.updateModdleStructural Target.taskHeadersHolder "values"]) ∧
    ((c4ioState.ext.bind Ext.ioMapping).isSome = true ∧
     (updateZeebeInputOutputParameterProperties c4ioState none c4tpl).1.ext =
       some ⟨none, none, none, none, none⟩ ∧
     (updateZeebeInputOutputParameterProperties c4ioState none c4tpl).2 =
       [Cmd.updateModdleStructural Target.extensionEls "values",
        Cmd.updateModdleStructural Target.ioMap "inputParameters"]) := by
  decide

/-- C5 counterexample: a task header that is optional, receives an empty new
default and was not user-changed is nevertheless removed from the
removal-candidate snapshot by the task-header reconciler (so it stays live),
contradicting the claim that exactly this combination is left eligible for
cleanup uniformly across the three keyed-collection families. -/
theorem claim5_counterexample :
    c5newProp.optional = true ∧ getDefaultValue c5newProp = none ∧
    shouldKeepValue (some c5entry.fields)
      (findOldProperty (some c5oldT) c5newProp) c5newProp = false ∧
    (processHeaderProperty (some c5oldT) ⟨[c5entry], [0], 100, []⟩ c5newProp).oldHeaders
      = [] ∧
    ((updateZeebeTaskHeaderProperties c5state (some c5oldT) c5newT).1.ext.bind
        Ext.taskHeaders).map (List.map Entry.nid) = some [0] := by
  decide

/-- C5 (amended): for input/output mappings and custom properties, a found
entry leaves the removal-candidate snapshot iff its default warrants an entry
(`shouldUpdate`) or its value is kept (`shouldKeepValue`) — i.e. it stays a
candidate exactly when it is optional with an empty default and unchanged;
for task headers a found entry always leaves the snapshot. -/
theorem claim5_snapshot_exclusion :
    (∀ (oldTemplate : Option Template) (acc : IoAcc) (p : TProperty) (e : Entry),
       p.binding.type = "zeebe:input" →
       findBusinessObject ⟨none, some acc.io, none, none, none⟩ p = some e →
       e.nid ∈ acc.oldInputs → acc.oldInputs.Nodup →
       (e.nid ∉ (processIoProperty oldTemplate acc p).oldInputs ↔
         (shouldUpdate (getDefaultValue p) p ||
          shouldKeepValue (some e.fields) (findOldProperty oldTemplate p) p) = true)) ∧
    (∀ (oldTemplate : Option Template) (acc : IoAcc) (p : TProperty) (e : Entry),
       p.binding.type = "zeebe:output" →
       findBusinessObject ⟨none, some acc.io, none, none, none⟩ p = some e →
       e.nid ∈ acc.oldOutputs → acc.oldOutputs.Nodup →
       (e.nid ∉ (processIoProperty oldTemplate acc p).oldOutputs ↔
         (shouldUpdate (getDefaultValue p) p ||
          shouldKeepValue (some e.fields) (findOldProperty oldTemplate p) p) = true)) ∧
    (∀ (oldTemplate : Option Template) (acc : HAcc) (p : TProperty) (e : Entry),
       findBusinessObject ⟨none, none, some acc.headers, none, none⟩ p = some e →
       acc.oldHeaders.Nodup →
       e.nid ∉ (processHeaderProperty oldTemplate acc p).oldHeaders) ∧
    (∀ (oldTemplate : Option Template) (acc : ZAcc) (p : TProperty) (e : Entry),
       findBusinessObject ⟨none, none, none, some acc.props, none⟩ p = some e →
       e.nid ∈ acc.oldProps → acc.oldProps.Nodup →
       (e.nid ∉ (processZeebeProperty oldTemplate acc p).oldProps ↔
         (shouldUpdate (getDefaultValue p) p ||
          shouldKeepValue (some e.fields) (findOldProperty oldTemplate p) p) = true)) := by
  refine ⟨?_, ?_, ?_, ?_⟩
  · intro oldTemplate acc p e hp hfound hmem hnd
    unfold processIoProperty
    rw [hfound]
    simp only [hp]
    by_cases hcond : (shouldUpdate (getDefaultValue p) p ||
        shouldKeepValue (some e.fields) (findOldProperty oldTemplate p) p) = true
    · simp only [hcond, if_true]
      by_cases hkeep : shouldKeepValue (some e.fields) (findOldProperty oldTemplate p) p
        = true
      · simp only [hkeep, reduceIte]
        simpa using not_mem_remove acc.oldInputs e.nid hnd
      · simp only [hkeep, Bool.false_eq_true, reduceIte]
        simpa using not_mem_remove acc.oldInputs e.nid hnd
    · simp only [hcond, Bool.false_eq_true, reduceIte]
      have hkeep : shouldKeepValue (some e.fields) (findOldProperty oldTemplate p) p
          = false :=
        (Bool.or_eq_false_iff.1 (Bool.eq_false_iff.2 hcond)).2
      simp only [hkeep, Bool.false_eq_true, reduceIte]
      simpa using hmem
  · intro oldTemplate acc p e hp hfound hmem hnd
    unfold processIoProperty
    rw [hfound]
    simp only [hp]
    by_cases hcond : (shouldUpdate (getDefaultValue p) p ||
        shouldKeepValue (some e.fields) (findOldProperty oldTemplate p) p) = true
    · simp only [hcond, if_true]
      by_cases hkeep : shouldKeepValue (some e.fields) (findOldProperty oldTemplate p) p
        = true
      · simp only [hkeep, reduceIte]
        simpa using not_mem_remove acc.oldOutputs e.nid hnd
      · simp only [hkeep, Bool.false_eq_true, reduceIte]
        simpa using not_mem_remove acc.oldOutputs e.nid hnd
    · simp only [hcond, Bool.false_eq_true, reduceIte]
      have hkeep : shouldKeepValue (some e.fields) (findOldProperty oldTemplate p) p
          = false :=
        (Bool.or_eq_false_iff.1 (Bool.eq_false_iff.2 hcond)).2
      simp only [hkeep, Bool.false_eq_true, reduceIte]
      simpa using hmem
  · intro oldTemplate acc p e hfound hnd
    unfold processHeaderProperty
    rw [hfound]
    by_cases hkeep : shouldKeepValue (some e.fields) (findOldProperty oldTemplate p) p
      = true
    · simp only [hkeep, reduceIte]
      exact not_mem_remove acc.oldHeaders e.nid hnd
    · simp only [hkeep, Bool.false_eq_true, reduceIte]
      exact not_mem_remove acc.oldHeaders e.nid hnd
  · intro oldTemplate acc p e hfound hmem hnd
    unfold processZeebeProperty
    rw [hfound]
    by_cases hcond : (shouldUpdate (getDefaultValue p) p ||
        shouldKeepValue (some e.fields) (findOldProperty oldTemplate p) p) = true
    · simp only [hcond, if_true]
      by_cases hkeep : shouldKeepValue (some e.fields) (findOldProperty oldTemplate p) p
        = true
      · simp only [hkeep, reduceIte]
        simpa using not_mem_remove acc.oldProps e.nid hnd
      · simp only [hkeep, Bool.false_eq_true, reduceIte]
        simpa using not_mem_remove acc.oldProps e.nid hnd
    · simp only [hcond, Bool.false_eq_true, reduceIte]
      have hkeep : shouldKeepValue (some e.fields) (findOldProperty oldTemplate p) p
          = false :=
        (Bool.or_eq_false_iff.1 (Bool.eq_false_iff.2 hcond)).2
      simp only [hkeep, Bool.false_eq_true, reduceIte]
      simpa using hmem

/-- C5 witness: the snapshot-exclusion rule evaluated at concrete inputs:
the header entry always leaves the snapshot, the optional-empty unchanged
input stays a candidate. -/
theorem claim5_witness :
    (0 ∉ (processHeaderProperty (some c5oldT) ⟨[c5entry], [0], 100, []⟩
            c5newProp).oldHeaders) ∧
    (0 ∉ (processIoProperty none ⟨⟨[c5ioEntry], []⟩, [0], [], 100, []⟩
            c5ioProp).oldInputs ↔
      (shouldUpdate (getDefaultValue c5ioProp) c5ioProp ||
       shouldKeepValue (some c5ioEntry.fields) (findOldProperty none c5ioProp)
         c5ioProp) = true) :=
  ⟨claim5_snapshot_exclusion.2.2.1 (some c5oldT) ⟨[c5entry], [0], 100, []⟩ c5newProp
      c5entry (by decide) (by decide),
   claim5_snapshot_exclusion.1 none ⟨⟨[c5ioEntry], []⟩, [0], [], 100, []⟩ c5ioProp
      c5ioEntry (by decide) (by decide) (by decide) (by decide)⟩

/-- C6 counterexample: a required task header whose computed default is empty
is not created — the header creation gate tests only value truthiness,
contradicting the claim's `non-empty or required` rule for headers. -/
theorem claim6_counterexample :
    c6newProp.optional = false ∧ getDefaultValue c6newProp = none ∧
    findBusinessObject ⟨none, none, some [], none, none⟩ c6newProp = none ∧
    (processHeaderProperty none ⟨[], [], 0, []⟩ c6newProp).headers = [] ∧
    ((updateZeebeTaskHeaderProperties c6state none
        (mkTemplate "t" "1" [c6newProp])).1.ext.bind Ext.taskHeaders) = some [] := by
  decide

/-- C6 (amended): when no entry is found by identity key, input/output
mappings and custom properties create and append a new entry iff the computed
default is non-empty or the property is required (`shouldUpdate`), while task
headers create one iff the default value is non-empty — a required header
with an empty default is not created. -/
theorem claim6_creation_gate :
    (∀ (oldTemplate : Option Template) (acc : IoAcc) (p : TProperty),
       (p.binding.type = "zeebe:input" ∨ p.binding.type = "zeebe:output") →
       findBusinessObject ⟨none, some acc.io, none, none, none⟩ p = none →
       ((processIoProperty oldTemplate acc p).io.inputParameters.length +
          (processIoProperty oldTemplate acc p).io.outputParameters.length =
          acc.io.inputParameters.length + acc.io.outputParameters.length + 1 ↔
        shouldUpdate (getDefaultValue p) p = true)) ∧
    (∀ (oldTemplate : Option Template) (acc : HAcc) (p : TProperty),
       findBusinessObject ⟨none, none, some acc.headers, none, none⟩ p = none →
       ((processHeaderProperty oldTemplate acc p).headers.length =
          acc.headers.length + 1 ↔
        truthy (getDefaultValue p) = true)) ∧
    (∀ (oldTemplate : Option Template) (acc : ZAcc) (p : TProperty),
       findBusinessObject ⟨none, none, none, some acc.props, none⟩ p = none →
       ((processZeebeProperty oldTemplate acc p).props.length =
          acc.props.length + 1 ↔
        shouldUpdate (getDefaultValue p) p = true)) := by
  refine ⟨?_, ?_, ?_⟩
  · intro oldTemplate acc p _ hfound
    unfold processIoProperty
    rw [hfound]
    by_cases hup : shouldUpdate (getDefaultValue p) p = true
    · simp only [hup, if_true, iff_true]
      by_cases hin : (p.binding.type == "zeebe:input") = true
      · simp only [hin, if_true, List.length_append, List.length_cons, List.length_nil]
        omega
      · simp only [hin, Bool.false_eq_true, reduceIte, List.length_append,
          List.length_cons, List.length_nil]
        omega
    · simp only [hup, Bool.false_eq_true, reduceIte, iff_false]
      omega
  · intro oldTemplate acc p hfound
    unfold processHeaderProperty
    rw [hfound]
    by_cases hv : truthy (getDefaultValue p) = true
    · simp only [hv, if_true, iff_true, List.length_append, List.length_cons,
        List.length_nil]
    · simp only [hv, Bool.false_eq_true, reduceIte, iff_false]
      omega
  · intro oldTemplate acc p hfound
    unfold processZeebeProperty
    rw [hfound]
    by_cases hup : shouldUpdate (getDefaultValue p) p = true
    · simp only [hup, if_true, iff_true, List.length_append, List.length_cons,
        List.length_nil]
    · simp only [hup, Bool.false_eq_true, reduceIte, iff_false]
      omega

/-- C6 witness: the creation gate evaluated at concrete inputs: a required
header with empty default is not created, a required input with non-empty
default is. -/
theorem claim6_witness :
    ((processHeaderProperty none ⟨[], [], 0, []⟩ c6newProp).headers.length = 0 + 1 ↔
      truthy (getDefaultValue c6newProp) = true) ∧
    ((processIoProperty none ⟨⟨[], []⟩, [], [], 0, []⟩ c6ioProp).io.inputParameters.length +
       (processIoProperty none ⟨⟨[], []⟩, [], [], 0, []⟩ c6ioProp).io.outputParameters.length =
       0 + 0 + 1 ↔
      shouldUpdate (getDefaultValue c6ioProp) c6ioProp = true) :=
  ⟨claim6_creation_gate.2.1 none ⟨[], [], 0, []⟩ c6newProp (by decide),
   claim6_creation_gate.1 none ⟨⟨[], []⟩, [], [], 0, []⟩ c6ioProp
     (Or.inl (by decide)) (by decide)⟩

/-- C8: mapping identity asymmetry.  An existing input entry is matched by
the binding's target variable name and an old input property by the binding
name, while the value written for an input is its `source` expression;
outputs are matched by the source expression and track the `target`
variable.  Consequently a found mapping is updated in place (no second entry
is appended), as the concrete v1-to-v2 retarget scenario shows. -/
theorem claim8_mapping_identity_asymmetry :
    (∀ (ext : Ext) (q : TProperty) (e : Entry), q.binding.type = "zeebe:input" →
       findBusinessObject ext q = some e →
       getFO e.fields (some "target") = q.binding.name) ∧
    (∀ (ext : Ext) (q : TProperty) (e : Entry), q.binding.type = "zeebe:output" →
       findBusinessObject ext q = some e →
       getFO e.fields (some "source") = q.binding.source) ∧
    (∀ (oldT : Template) (q r : TProperty), q.binding.type = "zeebe:input" →
       findOldProperty (some oldT) q = some r →
       r.binding.type = "zeebe:input" ∧ r.binding.name = q.binding.name) ∧
    (∀ (oldT : Template) (q r : TProperty), q.binding.type = "zeebe:output" →
       findOldProperty (some oldT) q = some r →
       r.binding.type = "zeebe:output" ∧ r.binding.source = q.binding.source) ∧
    (∀ (oldTemplate : Option Template) (acc : IoAcc) (q : TProperty) (e : Entry),
       q.binding.type = "zeebe:input" →
       findBusinessObject ⟨none, some acc.io, none, none, none⟩ q = some e →
       (processIoProperty oldTemplate acc q).io.inputParameters.length =
         acc.io.inputParameters.length ∧
       (processIoProperty oldTemplate acc q).io.outputParameters =
         acc.io.outputParameters ∧
       (shouldKeepValue (some e.fields) (findOldProperty oldTemplate q) q = false →
         (processIoProperty oldTemplate acc q).cmds =
           acc.cmds ++ [Cmd.updateModdleProperties (Target.entry e.nid)
                          [("source", getDefaultValue q)]])) ∧
    (((updateZeebeInputOutputParameterProperties c8state (some c8oldT) c8newT).1.ext.bind
         Ext.ioMapping).map (fun io => io.inputParameters.map (fun e =>
           (e.nid, getFO e.fields (some "target"), getFO e.fields (some "source")))) =
       some [(0, some "x", some "srcB")]) := by
  refine ⟨?_, ?_, ?_, ?_, ?_, by decide⟩
  · intro ext q e hq hfound
    unfold findBusinessObject at hfound
    simp only [hq] at hfound
    simp only [show TASK_DEFINITION_TYPES.contains "zeebe:input" = false from rfl,
      Bool.false_eq_true, reduceIte, reduceCtorEq] at hfound
    cases hio : ext.ioMapping with
    | none => rw [hio] at hfound; simp at hfound
    | some io =>
      rw [hio] at hfound
      simp only [reduceIte] at hfound
      have := List.find?_some hfound
      simpa [beq_iff_eq] using this.symm
  · intro ext q e hq hfound
    unfold findBusinessObject at hfound
    simp only [hq] at hfound
    simp only [show TASK_DEFINITION_TYPES.contains "zeebe:output" = false from rfl,
      Bool.false_eq_true, reduceIte, reduceCtorEq] at hfound
    cases hio : ext.ioMapping with
    | none => rw [hio] at hfound; simp at hfound
    | some io =>
      rw [hio] at hfound
      simp only [reduceIte] at hfound
      have := List.find?_some hfound
      simpa [beq_iff_eq] using this.symm
  · intro oldT q r hq hfound
    unfold findOldProperty at hfound
    simp only [hq] at hfound
    simp only [show TASK_DEFINITION_TYPES.contains "zeebe:input" = false from rfl,
      Bool.false_eq_true, reduceIte, reduceCtorEq] at hfound
    have := List.find?_some hfound
    simp only [Bool.and_eq_true, beq_iff_eq] at this
    exact this
  · intro oldT q r hq hfound
    unfold findOldProperty at hfound
    simp only [hq] at hfound
    simp only [show TASK_DEFINITION_TYPES.contains "zeebe:output" = false from rfl,
      Bool.false_eq_true, reduceIte, reduceCtorEq] at hfound
    have := List.find?_some hfound
    simp only [Bool.and_eq_true, beq_iff_eq] at this
    exact this
  · intro oldTemplate acc q e hq hfound
    unfold processIoProperty
    rw [hfound]
    simp only [hq]
    by_cases hkeep : shouldKeepValue (some e.fields) (findOldProperty oldTemplate q) q
      = true
    · simp [hkeep]
    · by_cases hup : shouldUpdate (getDefaultValue q) q = true
      · simp [hup, hkeep]
      · simp [hup, hkeep]

/-- C8 witness: the matching rules evaluated on the concrete v1 input entry
and the v2 property. -/
theorem claim8_witness :
    getFO c8entry.fields (some "target") = c8newProp.binding.name ∧
    (findOldProperty (some c8oldT) c8newProp).map (fun r => r.binding.type) =
      some "zeebe:input" ∧
    (processIoProperty (some c8oldT)
        ⟨⟨[c8entry], []⟩, [0], [], 100, []⟩ c8newProp).io.inputParameters.length = 1 := by
  refine ⟨claim8_mapping_identity_asymmetry.1
      ⟨none, some ⟨[c8entry], []⟩, none, none, none⟩ c8newProp c8entry (by decide)
      (by decide), by decide, ?_⟩
  have h := (claim8_mapping_identity_asymmetry.2.2.2.2.1 (some c8oldT)
      ⟨⟨[c8entry], []⟩, [0], [], 100, []⟩ c8newProp c8entry (by decide) (by decide)).1
  simpa using h

/-- C9 counterexample: applying a template with no properties at all to an
element without a `bpmn:ExtensionElements` container does create the (empty)
container — the reconcilers call `_getOrCreateExtensionElements`
unconditionally, so the container is not created lazily on first need. -/
theorem claim9_counterexample :
    c9state.ext = none ∧ c9tpl.properties = [] ∧
    (preExecute c9state none (some c9tpl)).1.ext = some emptyExt := by
  decide

/-- C9 (amended): applying a template that contributes no property of any
extension-borne kind to an element without an extension container creates the
container eagerly but empty: every structured holder inside it stays absent
(only the inner nodes are created on first need). -/
theorem claim9_eager_container_lazy_holders (s : S) (oldTemplate : Option Template)
    (T : Template) (hs : s.ext = none)
    (h : ∀ p ∈ T.properties, extensionBorne p.binding.type = false) :
    (preExecute s oldTemplate (some T)).1.ext = some emptyExt := by
  have hb : ∀ p ∈ T.properties,
      TASK_DEFINITION_TYPES.contains p.binding.type = false ∧
      (p.binding.type == "zeebe:input") = false ∧
      (p.binding.type == "zeebe:output") = false ∧
      (p.binding.type == "zeebe:taskHeader") = false ∧
      (p.binding.type == "zeebe:property") = false ∧
      (p.binding.type == ZEEBE_CALLED_ELEMENT) = false := by
    intro p hp
    have hx := h p hp
    unfold extensionBorne at hx
    rcases Bool.or_eq_false_iff.1 hx with ⟨h15, h6⟩
    rcases Bool.or_eq_false_iff.1 h15 with ⟨h14, h5⟩
    rcases Bool.or_eq_false_iff.1 h14 with ⟨h13, h4⟩
    rcases Bool.or_eq_false_iff.1 h13 with ⟨h12, h3⟩
    rcases Bool.or_eq_false_iff.1 h12 with ⟨h1, h2⟩
    exact ⟨h1, h2, h3, h4, h5, h6⟩
  have hTD : T.properties.filter
      (fun p => TASK_DEFINITION_TYPES.contains p.binding.type) = [] := by
    rw [List.filter_eq_nil]
    intro p hp
    simpa using (hb p hp).1
  have hIO : T.properties.filter (fun p =>
      p.binding.type == "zeebe:input" || p.binding.type == "zeebe:output") = [] := by
    rw [List.filter_eq_nil]
    intro p hp
    simp [(hb p hp).2.1, (hb p hp).2.2.1]
  have hHS : T.properties.filter (fun p => p.binding.type == "zeebe:taskHeader") = [] := by
    rw [List.filter_eq_nil]
    intro p hp
    simp [(hb p hp).2.2.2.1]
  have hZP : T.properties.filter (fun p => p.binding.type == "zeebe:property") = [] := by
    rw [List.filter_eq_nil]
    intro p hp
    simp [(hb p hp).2.2.2.2.1]
  have hCE : T.properties.filter (fun p => p.binding.type == ZEEBE_CALLED_ELEMENT) = [] := by
    rw [List.filter_eq_nil]
    intro p hp
    simp [(hb p hp).2.2.2.2.2]
  unfold preExecute
  dsimp only
  set sB := (updateElementType
    (updateZeebeModelerTemplateIcon
      (updateZeebeModelerTemplate s (some T)).1 (some T)).1 oldTemplate T).1 with hsB
  have hBext : sB.ext = none := by
    rw [hsB]
    exact (updateElementType_frame _ _ _).1.trans hs
  set sC := (updatePlainProperties sB oldTemplate T).1 with hsC
  have hCext : sC.ext = none := by
    rw [hsC]
    exact (updatePlainProperties_frame _ _ _).1.trans hBext
  rw [updateZeebeTaskDefinition_noProps_noExt sC oldTemplate T hCext hTD]
  dsimp only
  rw [updateZeebeIoParams_noProps_noHolder _ emptyExt oldTemplate T rfl rfl hIO]
  dsimp only
  rw [updateZeebeTaskHeaders_noProps_noHolder _ emptyExt oldTemplate T rfl rfl hHS]
  dsimp only
  rw [updateZeebeProperties_noProps_noHolder _ emptyExt oldTemplate T rfl rfl hZP]
  dsimp only
  set sH := (updateMessage { sC with ext := some emptyExt } oldTemplate T).1 with hsH
  have hHext : sH.ext = some emptyExt := by
    rw [hsH]
    exact (updateMessage_frame _ _ _).1
  rw [updateCalledElement_noProps sH emptyExt oldTemplate T hHext hCE]
  rfl

/-- C9 witness: the amended statement evaluated on an element without a
container and a template with a single plain property. -/
theorem claim9_witness :
    c9state.ext = none ∧
    (preExecute c9state none (some c9plainTpl)).1.ext = some emptyExt :=
  ⟨by decide, claim9_eager_container_lazy_holders c9state none c9plainTpl (by decide)
     (by decide)⟩

/-- C3 (counterexample): re-applying the same template is not idempotent in
general.  After an upgrade keeps an optional input mapping whose value equals
its new empty default, the next application with the same template on both
sides deletes that entry, so the state after the second application
differs. -/
theorem claim3_counterexample :
    (preExecute (preExecute c3state (some c3oldT) (some c3newT)).1
        (some c3newT) (some c3newT)).1 ≠
      (preExecute c3state (some c3oldT) (some c3newT)).1 := by
  decide

/-- C3 (amended): for a well-formed template first installed on a fresh
element (no extension container, no referenced message), applying the same
template a second time with `oldTemplate` and `newTemplate` both equal to it
leaves the document state unchanged. -/
theorem claim3_fresh_install_idempotent (s0 : S) (T : Template)
    (hext0 : s0.ext = none) (hmsg0 : s0.msg = none) (hWF : WFTemplate T) :
    (preExecute (preExecute s0 none (some T)).1 (some T) (some T)).1 =
      (preExecute s0 none (some T)).1 := by
  obtain ⟨hS, hP, hT, hI, hH, hZ, hM, hC⟩ := preExecute_establish s0 T hext0 hmsg0 hWF
  exact preExecute_self _ T hWF hS hP hT hI hH hZ hM hC

/-- C3 witness: the amended idempotence at a concrete fresh element and
template. -/
theorem claim3_witness :
    c3fresh.ext = none ∧ c3fresh.msg = none ∧ WFTemplate c3T ∧
    (preExecute (preExecute c3fresh none (some c3T)).1 (some c3T) (some c3T)).1 =
      (preExecute c3fresh none (some c3T)).1 :=
  ⟨by decide, by decide, by unfold WFTemplate; decide,
   claim3_fresh_install_idempotent c3fresh c3T (by decide) (by decide)
     (by unfold WFTemplate; decide)⟩

end ElementTemplates
